import Mathlib

/-!
# NBA performance predictor dashboard: payload normalisation and derived metrics

A shallow embedding of the client-side logic of `nba-frontend/src/App.js`,
`nba-frontend/src/Home.jsx` and `nba-frontend/src/Results.jsx`: the players-list and
recent-games normalisers, the form summary and rolling shooting percentage, the
confidence gauge, the stat breakdown, the prediction tween, the Dashboard state with
its recent-games and prediction requests (the end of a request is an input of the
transition), and the grouping of games by date (the calendar of the browser is a
parameter).

Modelling conventions.
* JavaScript values are the type `JSVal`: what `JSON.parse` can produce, plus
  `undefined` (the result of reading an absent property).
* Numbers are rationals. Payload normalisation, the summary and the rendering
  conditions are stated over exact arithmetic. Where a property depends on rounding
  (the tween, the bar widths, the bounds of the rolling mean) the operations are
  the binary64 ones: `fl` is rounding to nearest, ties to even, and a result that
  overflows to an infinity is `none`. `NaN` and the negative zero are outside the
  model.
* A thrown `TypeError` is `Except.error JSError.typeError`.
* Arithmetic is modelled on numbers only: an operand that is not a number (where
  JavaScript would concatenate strings or coerce) gives `none`.
-/

namespace NBA

/-! ## JavaScript values -/

/-- JavaScript values reaching the dashboard. An object is the list of its own
properties; a property is read by the first entry with its key. -/
inductive JSVal where
  | undefined
  | null
  | bool (b : Bool)
  | num (q : ℚ)
  | str (s : String)
  | arr (xs : List JSVal)
  | obj (fields : List (String × JSVal))

/-- Errors a JavaScript expression of the dashboard can throw. -/
inductive JSError where
  | typeError
  deriving DecidableEq

namespace JSVal

/-- The test `v == null`: true for `null` and `undefined` only. -/
def isNullish : JSVal → Bool
  | undefined => true
  | null => true
  | _ => false

/-- JavaScript truthiness (`ToBoolean`). -/
def truthy : JSVal → Bool
  | undefined => false
  | null => false
  | bool b => b
  | num q => decide (q ≠ 0)
  | str s => decide (s ≠ "")
  | arr _ => true
  | obj _ => true

/-- The value is an object literal (neither a primitive nor an array). -/
def isObject : JSVal → Bool
  | obj _ => true
  | _ => false

/-- The value is a number or `null`: the type `number|null` of the data model. -/
def isNumOrNull : JSVal → Bool
  | num _ => true
  | null => true
  | _ => false

/-- The number carried by a value, if it is one. -/
def asNum? : JSVal → Option ℚ
  | num q => some q
  | _ => none

/-- Reading property `k` of a value that is neither `null` nor `undefined`. Only
own properties of objects are found: the keys the dashboard reads (`date`, `pts`,
`players`, `label`, ...) are not inherited by arrays, strings, numbers or
booleans, so reading them there gives `undefined`. -/
def getOwn : JSVal → String → JSVal
  | obj fields, k => (fields.lookup k).getD undefined
  | _, _ => undefined

/-- The member access `v.k`: throws a `TypeError` on `null` and `undefined`. -/
def getProp (v : JSVal) (k : String) : Except JSError JSVal :=
  if v.isNullish then .error .typeError else .ok (v.getOwn k)

/-- The optional chain `v?.k`: `undefined` on `null` and `undefined`, never throws. -/
def optChain (v : JSVal) (k : String) : JSVal :=
  if v.isNullish then undefined else v.getOwn k

/-- The nullish coalescing `a ?? b`. -/
def coalesce (a b : JSVal) : JSVal :=
  if a.isNullish then b else a

/-- The strict comparison `v === s` against a string literal. -/
def strictEqStr (v : JSVal) (s : String) : Bool :=
  match v with
  | str t => t == s
  | _ => false

/-- The expression `a || b`. -/
def or (a b : JSVal) : JSVal :=
  if a.truthy then a else b

/-- The sum `a + b` of two numbers; `none` when an operand is not a number. -/
def add : JSVal → JSVal → Option JSVal
  | num a, num b => some (num (a + b))
  | _, _ => none

/-- The difference `a - b` of two numbers; `none` when an operand is not a number. -/
def sub : JSVal → JSVal → Option JSVal
  | num a, num b => some (num (a - b))
  | _, _ => none

/-- The quotient `a / n` of a number by a positive count (an array length);
`none` when `a` is not a number or the count is zero. -/
def divLen : JSVal → Nat → Option JSVal
  | num a, n => if n = 0 then none else some (num (a / (n : ℚ)))
  | _, _ => none

/-- The fold `xs.reduce((a, b) => a + b, 0)`. -/
def sumFrom (acc : JSVal) : List JSVal → Option JSVal
  | [] => some acc
  | x :: xs => (add acc x).bind fun s => sumFrom s xs

end JSVal

open JSVal

/-- The first error or all results of `xs.map(f)` for a callback that may throw. -/
def mapThrow {α β : Type} (f : α → Except JSError β) : List α → Except JSError (List β)
  | [] => .ok []
  | a :: as =>
    match f a with
    | .error e => .error e
    | .ok b =>
      match mapThrow f as with
      | .error e => .error e
      | .ok bs => .ok (b :: bs)

/-- All results of a list of computations on numbers, `none` if one is `none`. -/
def allSome {α : Type} : List (Option α) → Option (List α)
  | [] => some []
  | none :: _ => none
  | some a :: as => (allSome as).map fun bs => a :: bs

/-! ## Confidence gauge (`App.js`, `ConfidenceGauge`) -/

/-- What `ConfidenceGauge` computes before rendering. -/
structure Gauge where
  percentage : ℚ
  gaugeColor : String

/-- The conditional `label === "Large" ? 100 : label === "Medium" ? 60 : 30`. -/
def labelPercentage (label : JSVal) : ℚ :=
  if label.strictEqStr "Large" then 100 else if label.strictEqStr "Medium" then 60 else 30

/-- The component `ConfidenceGauge`: `none` when it renders nothing (`!confidence`).
A truthy `confidence` is not nullish, so `confidence.label` does not throw. -/
def ConfidenceGauge (confidence : JSVal) : Option Gauge :=
  if !confidence.truthy then none
  else
    let percentage := min 100 (max 0 (labelPercentage (confidence.getOwn "label")))
    let gaugeColor :=
      if percentage ≥ 70 then "#34d399" else if percentage ≥ 40 then "#fbbf24" else "#ff6b6b"
    some { percentage := percentage, gaugeColor := gaugeColor }

/-! ## Players list (`App.js` lines 146-156, `Home.jsx` lines 25-30) -/

/-- An entry of the normalised players list. -/
structure PlayerRef where
  player_id : JSVal
  player_name : JSVal

namespace App

/-- The array chosen from the `/players` payload (lines 147-149):
`raw = []; if (Array.isArray(data)) raw = data;
else if (data && Array.isArray(data.players)) raw = data.players`. -/
def raw (data : JSVal) : Except JSError (List JSVal) :=
  match data with
  | .arr xs => .ok xs
  | _ =>
    if data.truthy then
      match data.getProp "players" with
      | .error e => .error e
      | .ok (.arr xs) => .ok xs
      | .ok _ => .ok []
    else .ok []

/-- The callback of `raw.map` (lines 151-154). -/
def mapPlayer (p : JSVal) : PlayerRef :=
  { player_id :=
      coalesce (coalesce (coalesce (p.optChain "player_id") (p.optChain "id"))
        (p.optChain "playerId")) null,
    player_name :=
      coalesce (coalesce (coalesce (coalesce (p.optChain "player_name") (p.optChain "name"))
        (p.optChain "full_name")) (p.optChain "playerName")) (str "") }

/-- The callback of `.filter` (line 155): `p.player_id != null && p.player_name !== ""`. -/
def keepPlayer (p : PlayerRef) : Bool :=
  !p.player_id.isNullish && !p.player_name.strictEqStr ""

/-- The constant `list` (lines 150-155): `raw.map(...).filter(...)`. -/
def list (raw : List JSVal) : List PlayerRef :=
  (raw.map mapPlayer).filter keepPlayer

/-- The players list the Dashboard stores for a `/players` payload (lines 146-156). -/
def normalizePlayers (data : JSVal) : Except JSError (List PlayerRef) :=
  match raw data with
  | .error e => .error e
  | .ok r => .ok (list r)

end App

namespace Home

/-- The callback of `.map` in `Home.jsx` (lines 26-29): the same alias chains as
the Dashboard, without the final defaults. -/
def mapPlayer (p : JSVal) : PlayerRef :=
  { player_id :=
      coalesce (coalesce (p.optChain "player_id") (p.optChain "id")) (p.optChain "playerId"),
    player_name :=
      coalesce (coalesce (coalesce (p.optChain "player_name") (p.optChain "name"))
        (p.optChain "full_name")) (p.optChain "playerName") }

end Home

/-! ## Recent games (`App.js` lines 164-201 and 305-315) -/

/-- A normalised game, as built by `normalizeGames`. -/
structure GameRecord where
  date : JSVal
  pts : JSVal
  min : JSVal
  fg_pct : JSVal

/-- The step `acc ?? e` of an alias chain, where evaluating `e` may throw. -/
def coalesceM (acc : JSVal) (e : Except JSError JSVal) : Except JSError JSVal :=
  if acc.isNullish then e else .ok acc

/-- The callback of `arr.map` in `normalizeGames` (lines 167-172). The member
accesses `g.date`, `g.game_date`, ... are evaluated left to right and each throws
when `g` is `null` or `undefined`. -/
def normalizeGame (g : JSVal) : Except JSError GameRecord := do
  let d0 ← g.getProp "date"
  let d1 ← coalesceM d0 (g.getProp "game_date")
  let d2 ← coalesceM d1 (g.getProp "gameDate")
  let p0 ← g.getProp "pts"
  let m0 ← g.getProp "min"
  let f0 ← g.getProp "fg_pct"
  let f1 ← coalesceM f0 (g.getProp "fgPct")
  pure { date := coalesce d2 null, pts := coalesce p0 null, min := coalesce m0 null,
         fg_pct := coalesce f1 null }

/-- The function `normalizeGames` (lines 165-173). -/
def normalizeGames (arr : JSVal) : Except JSError (List GameRecord) :=
  match arr with
  | .arr gs => mapThrow normalizeGame gs
  | _ => .ok []

/-- The object passed to `setSummary` after a recent-games fetch. -/
structure Summary where
  avg_pts_5 : JSVal
  avg_min_5 : JSVal
  pts_trend : JSVal

/-- The conditional `v == null ? 0 : v`. -/
def zeroIfNull (v : JSVal) : JSVal :=
  if v.isNullish then num 0 else v

/-- The summary computed in `fetchRecent` when `norm.length > 0` (lines 195-199).
`pts[k]` on an index outside the array is `undefined`. -/
def computeFormSummary (norm : List GameRecord) : Option Summary :=
  let pts := norm.map fun d => zeroIfNull d.pts
  let mins := norm.map fun d => zeroIfNull d.min
  (sumFrom (num 0) pts).bind fun sp =>
  (sp.divLen pts.length).bind fun avgPts =>
  (sub (pts.getD (pts.length - 1) undefined) (pts.getD 0 undefined)).bind fun trend =>
  (sumFrom (num 0) mins).bind fun sm =>
  (sm.divLen mins.length).bind fun avgMin =>
  some { avg_pts_5 := avgPts, avg_min_5 := JSVal.or avgMin (num 0), pts_trend := trend }

/-- An entry of `chart3Data`. -/
structure ChartPoint where
  date : JSVal
  fg_pct : JSVal
  fg_pct_roll : JSVal

/-- The array `vals.slice(a, b)`. -/
def slice {α : Type} (xs : List α) (a b : Nat) : List α :=
  (xs.take b).drop a

/-- The value `avg` of the callback of `vals.map` at index `i` (lines 311-312). -/
def rollingAvg (vals : List JSVal) (i : Nat) : Option JSVal :=
  let window := (slice vals (max 0 (i - 2)) (i + 1)).filter fun x => !x.isNullish
  if window.length ≠ 0 then (sumFrom (num 0) window).bind fun s => s.divLen window.length
  else some null

/-- The constant `chart3Data` (lines 307-315). `recentGames[i]` is always inside
the array, since `vals` has the length of `recentGames`. -/
def chart3Data (recentGames : List GameRecord) : Option (List ChartPoint) :=
  if recentGames.length = 0 then some []
  else
    let vals := recentGames.map fun g => if g.fg_pct.isNullish then null else g.fg_pct
    allSome (vals.enum.map fun iv =>
      (rollingAvg vals iv.1).bind fun avg =>
      (recentGames[iv.1]?).map fun g =>
        { date := g.date, fg_pct := iv.2, fg_pct_roll := avg })

/-! ## Reference definitions following the specification -/

/-- The first value of a priority list that is neither `null` nor `undefined`. -/
def firstNonNull (candidates : List JSVal) : Option JSVal :=
  candidates.find? fun v => !v.isNullish

/-- The items of a players payload: the payload itself when it is an array, the
array under `players` when it is an object wrapping one, nothing otherwise. -/
def payloadItems : JSVal → List JSVal
  | .arr xs => xs
  | .obj fields =>
    match fields.lookup "players" with
    | some (.arr xs) => xs
    | _ => []
  | _ => []

/-- The non-null `fg_pct` values at the indices `max(0, i-2) .. i` inclusive. -/
def windowValues (fgs : List JSVal) (i : Nat) : List ℚ :=
  (List.Ico (i - 2) (i + 1)).filterMap fun j => (fgs.getD j null).asNum?

/-- The rolling shooting percentage: the mean of the window, `null` when it is empty. -/
def rollingMean (fgs : List JSVal) (i : Nat) : JSVal :=
  if windowValues fgs i = [] then null
  else num ((windowValues fgs i).sum / ((windowValues fgs i).length : ℚ))

/-- The number a `number|null` field counts for in the summary: `null` counts as `0`. -/
def numOrZero (v : JSVal) : ℚ :=
  (v.asNum?).getD 0

/-- The mean of a field over all games, `null` counted as `0` and counted in the divisor. -/
def meanNullAsZero (field : GameRecord → JSVal) (games : List GameRecord) : ℚ :=
  (games.map fun g => numOrZero (field g)).sum / (games.length : ℚ)

/-- Three normalised games with points 10, 20, 30, one missing `min` and one missing
`fg_pct`. -/
def sampleGames : List GameRecord :=
  [{ date := str "2024-01-01", pts := num 10, min := num 30, fg_pct := num (1 / 2) },
   { date := str "2024-01-03", pts := num 20, min := null, fg_pct := null },
   { date := str "2024-01-05", pts := num 30, min := num 36, fg_pct := num (1 / 4) }]

/-- The record of a raw game object: every field is its first non-null alias, `null`
when there is none. -/
def normalizedGame (g : JSVal) : GameRecord :=
  { date := (firstNonNull [g.getOwn "date", g.getOwn "game_date", g.getOwn "gameDate"]).getD null,
    pts := (firstNonNull [g.getOwn "pts"]).getD null,
    min := (firstNonNull [g.getOwn "min"]).getD null,
    fg_pct := (firstNonNull [g.getOwn "fg_pct", g.getOwn "fgPct"]).getD null }

/-- The id an item resolves to: the first non-null of `player_id`, `id`, `playerId`. -/
def resolvedId (p : JSVal) : Option JSVal :=
  firstNonNull [p.optChain "player_id", p.optChain "id", p.optChain "playerId"]

/-- The name an item resolves to: the first non-null of `player_name`, `name`,
`full_name`, `playerName`. -/
def resolvedName (p : JSVal) : Option JSVal :=
  firstNonNull [p.optChain "player_name", p.optChain "name", p.optChain "full_name",
    p.optChain "playerName"]

/-- An item is retained when an id resolves and a name other than `""` resolves. -/
def retained (p : JSVal) : Bool :=
  (resolvedId p).isSome &&
    match resolvedName p with
    | some v => !v.strictEqStr ""
    | none => false

/-! ## Records as JavaScript objects -/

/-- The object literal `{ date, pts, min, fg_pct }` built by `normalizeGames`. -/
def GameRecord.toJS (r : GameRecord) : JSVal :=
  obj [("date", r.date), ("pts", r.pts), ("min", r.min), ("fg_pct", r.fg_pct)]

/-- The object literal `{ player_id, player_name }` built by the players normaliser. -/
def PlayerRef.toJS (p : PlayerRef) : JSVal :=
  obj [("player_id", p.player_id), ("player_name", p.player_name)]

/-- The object literal `{ avg_pts_5, avg_min_5, pts_trend }` passed to `setSummary`. -/
def Summary.toJS (sm : Summary) : JSVal :=
  obj [("avg_pts_5", sm.avg_pts_5), ("avg_min_5", sm.avg_min_5), ("pts_trend", sm.pts_trend)]

/-- The constant `vals` of `chart3Data` (line 309). -/
def chart3Vals (recentGames : List GameRecord) : List JSVal :=
  recentGames.map fun g => if g.fg_pct.isNullish then null else g.fg_pct

/-- The slice taken at index `i` before the nulls are filtered out (line 311). -/
def rollingWindow (vals : List JSVal) (i : Nat) : List JSVal :=
  slice vals (max 0 (i - 2)) (i + 1)

/-! ## Stat breakdown (`App.js`, `StatBreakdown`, lines 50-87) -/

/-- An entry of `factors` together with the width in percent of its bar (line 71). -/
structure Factor where
  label : String
  value : ℚ
  color : String
  width : ℚ
  barWidth : ℚ

/-- The quotient `a / b` of two numbers; `none` when `b` is zero, where JavaScript
gives `NaN` or an infinity. -/
def quotient (a b : ℚ) : Option ℚ :=
  if b = 0 then none else some (a / b)

/-- The component `StatBreakdown`. The outer `none` is a computation that leaves the
modelled numbers (an operand that is not a number, a division by zero); `some none`
is the component rendering nothing (`return null`); `some (some factors)` is the
rendered breakdown. The prop `recentAvgPoints` is not read. -/
def StatBreakdown (prediction modelPrediction : JSVal) : Option (Option (List Factor)) :=
  if !prediction.truthy || !modelPrediction.truthy then some none
  else
    match prediction, modelPrediction with
    | num p, num m =>
      let adjustment := p - m
      let factors : List (String × ℚ × String × ℚ) :=
        [("Model Base", m, "#60a5fa", 40),
         ("Form Adjustment", |adjustment|, if adjustment > 0 then "#34d399" else "#ff6b6b", 20)]
      (allSome (factors.map fun f =>
        (quotient f.2.1 p).map fun r =>
          ({ label := f.1, value := f.2.1, color := f.2.2.1, width := f.2.2.2,
             barWidth := r * 100 } : Factor))).map some
    | _, _ => none

/-! ## Dashboard state (`App.js`, `App`) -/

/-- The state of the Dashboard that the data flows read and write. `null` state
values are `JSVal.null`; the two error messages are `none` when `null`. -/
structure DashState where
  players : List PlayerRef
  selectedPlayerId : JSVal
  recentGames : List GameRecord
  gamesLoading : Bool
  gamesError : Option String
  predictLoading : Bool
  predictError : Option String
  prediction : JSVal
  modelPrediction : JSVal
  recentAvgPoints : JSVal
  summary : JSVal
  confidence : JSVal
  explanation : JSVal
  formSummary : JSVal
  avgError : JSVal
  teamDetails : JSVal
  secondaryData : JSVal

/-- The initial values of the `useState` calls (lines 104-135). -/
def DashState.initial : DashState :=
  { players := [], selectedPlayerId := str "", recentGames := [], gamesLoading := false,
    gamesError := none, predictLoading := false, predictError := none, prediction := null,
    modelPrediction := null, recentAvgPoints := null, summary := null, confidence := null,
    explanation := null, formSummary := null, avgError := null, teamDetails := null,
    secondaryData := null }

/-- How a `fetch` followed by `res.json()` ends: the request is rejected with a
message, or a response arrives with a status and a body that parses or not. -/
inductive FetchOutcome where
  | rejected (message : String)
  | response (status : Nat) (body : Except String JSVal)

/-- The flag `res.ok`: the status is in the range 200-299. -/
def statusOk (status : Nat) : Bool :=
  decide (200 ≤ status) && decide (status ≤ 299)

/-- The text of `err.message` for an error thrown by the engine. The wording is
specific to the engine and never empty. -/
def JSError.message : JSError → String
  | .typeError => "Cannot read properties of null"

/-- The expression `err.message || fallback`. -/
def messageOr (message fallback : String) : String :=
  if message = "" then fallback else message

/-- The message of `new Error(...)` thrown on a response that is not ok. -/
def requestFailed (status : Nat) : String :=
  "Request failed: " ++ toString status

/-- The constant `hasEnoughGames` (line 305). -/
def hasEnoughGames (recentGames : List GameRecord) : Bool :=
  decide (recentGames.length ≥ 5)

/-- What the charts section shows (lines 606-657). -/
inductive ChartsView where
  | hidden
  | needMoreGames
  | charts
  deriving DecidableEq

/-- The charts section: absent without a selection, the message
"Need at least 5 games for charts." unless `hasEnoughGames`, the charts otherwise. -/
def chartsSection (s : DashState) : ChartsView :=
  if !s.selectedPlayerId.truthy then .hidden
  else if !hasEnoughGames s.recentGames then .needMoreGames
  else .charts

/-- The synchronous part of the recent-games effect (lines 176-185), run with the
current selection. -/
def recentGamesEffect (s : DashState) : DashState :=
  if !s.selectedPlayerId.truthy then
    { s with recentGames := [], summary := null, recentAvgPoints := null }
  else { s with gamesLoading := true, gamesError := none }

/-- A change of the selection: `setSelectedPlayerId(id)` followed by the effect that
depends on `selectedPlayerId`. -/
def selectPlayer (s : DashState) (id : JSVal) : DashState :=
  recentGamesEffect { s with selectedPlayerId := id }

/-- The completion of `fetchRecent` (lines 186-207) on the state in which the
request ends. `none` when the summary leaves the modelled numbers. -/
def fetchRecentDone (s : DashState) (out : FetchOutcome) : Option DashState :=
  let failed (msg : String) : DashState :=
    { s with gamesError := some (messageOr msg "Failed to load recent games"),
             recentGames := [], gamesLoading := false }
  match out with
  | .rejected msg => some (failed msg)
  | .response status body =>
    if !statusOk status then some (failed (requestFailed status))
    else
      match body with
      | .error msg => some (failed msg)
      | .ok data =>
        match normalizeGames data with
        | .error e => some (failed e.message)
        | .ok norm =>
          if norm.length > 0 then
            (computeFormSummary norm).map fun sm =>
              { s with recentGames := norm, summary := sm.toJS,
                       recentAvgPoints := sm.avg_pts_5, gamesLoading := false }
          else some { s with recentGames := norm, gamesLoading := false }

/-! ## Prediction (`App.js`, `onPredict`, lines 234-303) -/

/-- The strict comparison `a === b` of two identifiers. Primitives are compared by
value. Objects and arrays are equal only as references, which the model does not
track: they compare as different. -/
def JSVal.strictEq : JSVal → JSVal → Bool
  | .undefined, .undefined => true
  | .null, .null => true
  | .bool a, .bool b => a == b
  | .num a, .num b => decide (a = b)
  | .str a, .str b => a == b
  | _, _ => false

/-- The call `xs.find(f)` for a callback that may throw: the first element on which
`f` is true, `undefined` when there is none. -/
def findThrow (f : JSVal → Except JSError Bool) : List JSVal → Except JSError JSVal
  | [] => .ok undefined
  | p :: ps =>
    match f p with
    | .error e => .error e
    | .ok true => .ok p
    | .ok false => findThrow f ps

/-- The callback `(p) => p.player_id === playerId` of `players.find` (line 285). -/
def matchesPlayer (playerId p : JSVal) : Except JSError Bool :=
  match p.getProp "player_id" with
  | .error e => .error e
  | .ok pid => .ok (pid.strictEq playerId)

/-- The six fields read from the response (lines 274-279), in the order of the
record built on line 282. -/
def apiTeamFields (src : JSVal) : List (String × JSVal) :=
  [("team_name",
      JSVal.or (JSVal.or (JSVal.or (src.optChain "team_name") (src.optChain "teamName"))
        (src.optChain "team")) null),
   ("conference", JSVal.or (src.optChain "conference") null),
   ("abbreviation",
      JSVal.or (JSVal.or (src.optChain "abbreviation") (src.optChain "abbr")) null),
   ("city", JSVal.or (src.optChain "city") null),
   ("colors", JSVal.or (src.optChain "colors") null),
   ("logo_url", JSVal.or (JSVal.or (src.optChain "logo_url") (src.optChain "logo")) null)]

/-- The record built from the entry of the players list (line 287). The entry is
truthy there, so reading its properties does not throw. -/
def playerTeamFields (p : JSVal) : List (String × JSVal) :=
  [("team_name", JSVal.or (JSVal.or (p.getOwn "team_name") (p.getOwn "team")) null),
   ("abbreviation",
      JSVal.or (JSVal.or (p.getOwn "team_abbr") (p.getOwn "team_abbreviation")) null),
   ("city", JSVal.or (JSVal.or (p.getOwn "team_city") (p.getOwn "city")) null),
   ("colors", JSVal.or (p.getOwn "team_colors") null),
   ("conference", JSVal.or (p.getOwn "conference") null),
   ("logo_url", JSVal.or (p.getOwn "team_logo") null)]

/-- The record of nulls (lines 292 and 295). -/
def nullTeamFields : List (String × JSVal) :=
  [("team_name", null), ("conference", null), ("abbreviation", null), ("city", null),
   ("colors", null), ("logo_url", null)]

/-- The own properties spread by `...(td || {})`. -/
def spreadFields : JSVal → List (String × JSVal)
  | obj fields => fields
  | _ => []

/-- The value of `td` after line 283: the record of the response fields when one of
them is truthy, `null` otherwise. -/
def apiRecord (src : JSVal) : JSVal :=
  if (apiTeamFields src).any (fun kv => kv.2.truthy) then obj (apiTeamFields src) else null

/-- The fallback on the players list (lines 284-289), run when `td` is still `null`. -/
def playerFallback (td : JSVal) (players : List JSVal) (playerId : JSVal) :
    Except JSError JSVal :=
  if !td.truthy then
    match findThrow (matchesPlayer playerId) players with
    | .error e => .error e
    | .ok found =>
      let p := JSVal.or found null
      .ok (if p.truthy then obj (playerTeamFields p) else td)
  else .ok td

/-- The override (lines 290-291): `mapped` is the entry `TEAM_MAP[playerId]` of the
override table, `none` when the table has none. The spread
`{ ...(td || {}), ...mapped }` lists the properties of `mapped` first, so that they
are the ones read. -/
def applyOverride (td : JSVal) (mapped : Option (List (String × JSVal))) : JSVal :=
  match mapped with
  | some m => obj (m ++ spreadFields (JSVal.or td (obj [])))
  | none => td

/-- The default of line 292: the record of nulls when `td` is still `null`. -/
def orNullRecord (td : JSVal) : JSVal :=
  if !td.truthy then obj nullTeamFields else td

/-- The body of the inner `try` (lines 273-292): the value passed to
`setTeamDetails`. -/
def teamBlock (data : JSVal) (players : List JSVal) (playerId : JSVal)
    (mapped : Option (List (String × JSVal))) : Except JSError JSVal :=
  match data.getProp "team" with
  | .error e => .error e
  | .ok team =>
    match playerFallback (apiRecord (JSVal.or team data)) players playerId with
    | .error e => .error e
    | .ok td => .ok (orNullRecord (applyOverride td mapped))

/-- The inner `try`/`catch` (lines 272-296): the record of nulls when the body throws. -/
def teamDetailsFor (data : JSVal) (players : List JSVal) (playerId : JSVal)
    (mapped : Option (List (String × JSVal))) : JSVal :=
  match teamBlock data players playerId mapped with
  | .ok td => td
  | .error _ => obj nullTeamFields

/-- The name shown for the second player (line 256):
`players.find(p => p.player_id === playerId)?.player_name || "Player"`. -/
def secondaryName (players : List PlayerRef) (playerId : JSVal) : JSVal :=
  JSVal.or
    (match players.find? (fun p => p.player_id.strictEq playerId) with
     | some p => p.player_name
     | none => undefined)
    (str "Player")

/-- The object passed to `setSecondaryData` (lines 251-257). -/
def secondaryRecord (data : JSVal) (players : List PlayerRef) (playerId : JSVal) : JSVal :=
  obj [("predicted_points", data.getOwn "predicted_points"),
       ("model_prediction", data.getOwn "model_prediction"),
       ("confidence", data.getOwn "confidence"),
       ("form_summary", data.getOwn "form_summary"),
       ("player_name", secondaryName players playerId)]

/-- The body of the outer `try` of `onPredict` (lines 243-297) from the end of the
request: the state after the setters that ran, and the message of the error thrown,
if any. Reading `data.predicted_points` throws when the body is `null`; after it the
other reads of `data` cannot throw. `teamMap` is the override table `TEAM_MAP`. -/
def onPredictBody (s : DashState) (playerId : JSVal) (isSecondary : Bool)
    (teamMap : JSVal → Option (List (String × JSVal))) (out : FetchOutcome) :
    DashState × Option String :=
  match out with
  | .rejected msg => (s, some msg)
  | .response status body =>
    if !statusOk status then (s, some (requestFailed status))
    else
      match body with
      | .error msg => (s, some msg)
      | .ok data =>
        if data.isNullish then (s, some JSError.typeError.message)
        else if isSecondary then
          ({ s with secondaryData := secondaryRecord data s.players playerId }, none)
        else
          let s1 : DashState :=
            { s with prediction := coalesce (data.getOwn "predicted_points") null,
                     modelPrediction := coalesce (data.getOwn "model_prediction") null,
                     recentAvgPoints := coalesce (data.getOwn "recent_avg_points") null,
                     confidence := coalesce (data.getOwn "confidence") null,
                     explanation := coalesce (data.getOwn "explanation") null,
                     formSummary := coalesce (data.getOwn "form_summary") null,
                     avgError := coalesce (data.getOwn "avg_error_last_10") null }
          let games : Except JSError (Option (List GameRecord)) :=
            match data.getOwn "recent_games" with
            | arr (g :: gs) =>
              match normalizeGames (arr (g :: gs)) with
              | .error e => .error e
              | .ok norm => .ok (some norm)
            | _ => .ok none
          match games with
          | .error e => (s1, some e.message)
          | .ok norm? =>
            let s2 : DashState :=
              match norm? with
              | some norm => { s1 with recentGames := norm }
              | none => s1
            let s3 : DashState :=
              if (data.getOwn "summary").truthy then { s2 with summary := data.getOwn "summary" }
              else s2
            ({ s3 with teamDetails :=
                teamDetailsFor data (s.players.map PlayerRef.toJS) playerId (teamMap playerId) },
             none)

/-- The function `onPredict(playerId, isSecondary)` (lines 234-303) run to the end of
its request: nothing without a player id; otherwise `predictLoading` and
`predictError` are reset, the body runs, a thrown error sets
`predictError` to `err.message || "Prediction failed"`, and `predictLoading` ends
false. -/
def onPredict (s : DashState) (playerId : JSVal) (isSecondary : Bool)
    (teamMap : JSVal → Option (List (String × JSVal))) (out : FetchOutcome) : DashState :=
  if !playerId.truthy then s
  else
    let r := onPredictBody { s with predictLoading := true, predictError := none }
      playerId isSecondary teamMap out
    let s1 : DashState :=
      match r.2 with
      | some msg => { r.1 with predictError := some (messageOr msg "Prediction failed") }
      | none => r.1
    { s1 with predictLoading := false }

/-- The override table shipped in `data/team_map.js`: empty. -/
def TEAM_MAP : JSVal → Option (List (String × JSVal)) :=
  fun _ => none

/-- The value is a number, `null` or `undefined`: what a numeric field of a raw game
object holds when it is a number or is missing. -/
def JSVal.isNumOrMissing : JSVal → Bool
  | .num _ => true
  | .null => true
  | .undefined => true
  | _ => false

/-- Six raw game objects, as returned by `/player/{id}/recent-games`. -/
def sixRawGames : List JSVal :=
  [obj [("date", str "2024-01-01"), ("pts", num 10), ("min", num 30), ("fg_pct", num (1 / 2))],
   obj [("game_date", str "2024-01-03"), ("pts", num 20), ("min", num 31)],
   obj [("gameDate", str "2024-01-05"), ("pts", num 30), ("fgPct", num (1 / 4))],
   obj [("date", str "2024-01-07"), ("pts", null), ("min", num 12)],
   obj [("date", str "2024-01-09"), ("pts", num 18), ("min", num 28)],
   obj [("date", str "2024-01-11"), ("pts", num 24), ("min", num 33)]]

/-- The constant `src` (line 273), `data.team || data`, for a body that is not `null`. -/
def teamSrc (data : JSVal) : JSVal :=
  JSVal.or (data.getOwn "team") data

/-- The entry of the players list found for `playerId` (line 285), for a list without
`null` entries. -/
def findPlayer (players : List JSVal) (playerId : JSVal) : Option JSVal :=
  players.find? fun p => (p.getOwn "player_id").strictEq playerId

/-- The field-wise merge of sources listed in increasing priority: field `k` takes the
value of the last source that supplies one (a value other than `null` and
`undefined`), and is `null` when no source does. -/
def mergedField (sources : List (List (String × JSVal))) (k : String) : JSVal :=
  (firstNonNull (sources.reverse.map fun src => (src.lookup k).getD undefined)).getD null

/-- The team fields of the players-list entry of `playerId` in the Dashboard (line
287), no field when the list has no entry for that player. -/
def fallbackFields (players : List PlayerRef) (playerId : JSVal) : List (String × JSVal) :=
  match findPlayer (players.map PlayerRef.toJS) playerId with
  | some p => playerTeamFields p
  | none => []

/-! ## Binary64 arithmetic -/

/-- Rounding of a rational to the nearest integer, ties to the even integer. -/
def roundHalfEven (x : ℚ) : ℤ :=
  if x - ⌊x⌋ < 1 / 2 then ⌊x⌋
  else if 1 / 2 < x - ⌊x⌋ then ⌊x⌋ + 1
  else if ⌊x⌋ % 2 = 0 then ⌊x⌋ else ⌊x⌋ + 1

/-- The exponent of the unit in the last place of the binary64 numbers of the
magnitude of `q`: 52 below the binary exponent of `q`, and -1074 in the subnormal
range. -/
def ulpExp (q : ℚ) : ℤ :=
  max (Int.log 2 |q| - 52) (-1074)

/-- The binary64 number nearest to `q`, ties to even, before the overflow to an
infinity is looked at. -/
def fl (q : ℚ) : ℚ :=
  roundHalfEven (q / 2 ^ ulpExp q) * 2 ^ ulpExp q

/-- The result of a binary64 operation whose exact value is `q`: the nearest binary64
number, `none` when it overflows to an infinity. A number `x` is a finite binary64
number when `double x = some x`. -/
def double (q : ℚ) : Option ℚ :=
  if |fl q| < 2 ^ (1024 : ℕ) then some (fl q) else none

/-- The sum `a + b` of two binary64 numbers. -/
def dadd (a b : ℚ) : Option ℚ := double (a + b)

/-- The difference `a - b` of two binary64 numbers. -/
def dsub (a b : ℚ) : Option ℚ := double (a - b)

/-- The product `a * b` of two binary64 numbers. -/
def dmul (a b : ℚ) : Option ℚ := double (a * b)

/-- The quotient `a / b` of two binary64 numbers; `none` when `b` is zero, where
JavaScript gives `NaN` or an infinity. -/
def ddiv (a b : ℚ) : Option ℚ := if b = 0 then none else double (a / b)

/-- The expression `(f.value / prediction) * 100` of line 71 in binary64 arithmetic. -/
def barWidth (value prediction : ℚ) : Option ℚ :=
  (ddiv value prediction).bind fun r => dmul r 100

/-- The widths in percent of the two bars of `StatBreakdown` (lines 53-71) in binary64
arithmetic: the bar of `modelPrediction` and the bar of `Math.abs(adjustment)`. -/
def breakdownWidths (prediction modelPrediction : ℚ) : Option (ℚ × ℚ) :=
  (dsub prediction modelPrediction).bind fun adjustment =>
  (barWidth modelPrediction prediction).bind fun w1 =>
  (barWidth |adjustment| prediction).map fun w2 => (w1, w2)

/-- The fold `window.reduce((a, b) => a + b, 0)` on numbers, in binary64 arithmetic. -/
def sumDouble (acc : ℚ) : List ℚ → Option ℚ
  | [] => some acc
  | x :: xs => (dadd acc x).bind fun s => sumDouble s xs

/-- The mean `window.reduce((a, b) => a + b, 0) / window.length` of a window of
numbers (line 312), in binary64 arithmetic. -/
def meanDouble (window : List ℚ) : Option ℚ :=
  (sumDouble 0 window).bind fun s => ddiv s window.length

/-- The value `avg` of the callback of `vals.map` at index `i` (lines 311-312), the
`fg_pct_roll` of entry `i`, in binary64 arithmetic; `none` when an element of the
window is not a number or a result overflows. -/
def rollingAvgDouble (vals : List JSVal) (i : Nat) : Option JSVal :=
  let window := (slice vals (max 0 (i - 2)) (i + 1)).filter fun x => !x.isNullish
  if window.length ≠ 0 then ((allSome (window.map asNum?)).bind meanDouble).map num
  else some null

/-! ## Prediction tween (`App.js` lines 213-232) -/

/-- What one call of `step(ts)` does (lines 223-228): the value before
`Number(value.toFixed(2))`, and whether another frame is requested. -/
structure TweenFrame where
  value : ℚ
  again : Bool

/-- The constant `duration` (line 220). -/
def duration : ℚ := 700

/-- The constant `start` (line 218): `displayedPrediction != null ? displayedPrediction : 0`,
for a displayed value that is a number or `null`. -/
def tweenStart (displayedPrediction : JSVal) : Option ℚ :=
  if displayedPrediction.isNullish then some 0 else displayedPrediction.asNum?

/-- The callback `step` (lines 223-228) of a tween from `start` to `endValue` begun
at `startTime`, called with the frame timestamp `ts`, in binary64 arithmetic:
`t = Math.min(1, (ts - startTime) / duration)` and `value = start + (end - start) * t`,
every operation rounded; `none` when a result overflows. -/
def step (start endValue startTime ts : ℚ) : Option TweenFrame :=
  (dsub ts startTime).bind fun elapsed =>
  (ddiv elapsed duration).bind fun q =>
  (dsub endValue start).bind fun d =>
  (dmul d (min 1 q)).bind fun p =>
  (dadd start p).map fun value =>
  { value := value, again := decide (min 1 q < 1) }

/-! ## Events of the Dashboard -/

/-- The events of the recent-games flow: the selection changes, or the response of
the request issued for a player arrives. -/
inductive DashEvent where
  | select (id : JSVal)
  | recentGamesArrive (issuedFor : JSVal) (out : FetchOutcome)

/-- The effect of one event. The continuation of `fetchRecent` (lines 186-207) reads
neither the player it was issued for nor the current selection. -/
def dashStep (s : DashState) : DashEvent → Option DashState
  | .select id => some (selectPlayer s id)
  | .recentGamesArrive _ out => fetchRecentDone s out

/-- The effect of a sequence of events. -/
def dashRun (s : DashState) : List DashEvent → Option DashState
  | [] => some s
  | e :: es => (dashStep s e).bind fun s2 => dashRun s2 es

/-- The display condition of the main prediction card (line 518):
`selectedPlayerId && prediction != null`. -/
def mainCardShown (s : DashState) : Bool :=
  s.selectedPlayerId.truthy && !s.prediction.isNullish

/-! ## Games by date (`Results.jsx`, `groupGamesByDate`, lines 32-67) -/

/-- The calendar of the browser, as `Date` uses it. Time values are integers, the
milliseconds since the epoch. `parseText v` is the time value `new Date(v)` gets for a
value it converts through a string (`Date.parse`), `none` for `NaN`; `localTime t` is
`LocalTime(t)`, the local reading of the time value `t`; `utc t` is `UTC(t)`, the time
value of the local reading `t`. -/
structure Calendar where
  parseText : JSVal → Option ℤ
  localTime : ℤ → ℤ
  utc : ℤ → ℤ

/-- The number of milliseconds of a day. -/
def msPerDay : ℤ := 86400000

/-- The operation `TimeClip`: `none` (for `NaN`) beyond 8.64e15 ms, the number
truncated to an integer otherwise. -/
def timeClip (q : ℚ) : Option ℤ :=
  if |q| ≤ 8640000000000000 then some (if 0 ≤ q then ⌊q⌋ else ⌈q⌉) else none

/-- The time value of `new Date(v)`, `none` when it is `NaN` (an invalid date). -/
def dateValue (cal : Calendar) : JSVal → Option ℤ
  | .undefined => none
  | .null => some 0
  | .bool b => some (if b then 1 else 0)
  | .num q => timeClip q
  | v => cal.parseText v

/-- The call `d.setHours(0, 0, 0, 0)` on a date of time value `tv`: the time value of
the local reading 00:00 of the local day of `tv`. -/
def setHoursZero (cal : Calendar) (tv : ℤ) : ℤ :=
  cal.utc (cal.localTime tv / msPerDay * msPerDay)

/-- The call `d.setDate(d.getDate() + n)` on a date of time value `tv`: the local day
moves by `n` and the local time within the day is kept. -/
def addDate (cal : Calendar) (tv n : ℤ) : ℤ :=
  cal.utc ((cal.localTime tv / msPerDay + n) * msPerDay + cal.localTime tv % msPerDay)

/-- The object `groups` (lines 42-46). -/
structure Groups where
  yesterday : List JSVal
  today : List JSVal
  upcoming : List JSVal

/-- The body of the `forEach` callback after `game.start_time_utc` is read (lines
49-63), with `today`, `yesterday` and `tomorrow` as lines 33-40 build them from the
current time `now`. An invalid date has the time value `NaN`, which no comparison
accepts. -/
def placeGame (cal : Calendar) (now : ℤ) (groups : Groups) (game start : JSVal) : Groups :=
  let today := setHoursZero cal now
  let yesterday := addDate cal today (-1)
  let tomorrow := addDate cal today 1
  match (dateValue cal start).map (setHoursZero cal) with
  | none => groups
  | some gameTime =>
    if gameTime = yesterday then
      { groups with yesterday := groups.yesterday ++ [game] }
    else if gameTime = today then
      { groups with today := groups.today ++ [game] }
    else if gameTime ≥ tomorrow then
      { groups with upcoming := groups.upcoming ++ [game] }
    else groups

/-- The loop `gamesData.forEach(...)` (lines 48-64): reading `game.start_time_utc`
throws on a `null` game. -/
def groupLoop (cal : Calendar) (now : ℤ) : List JSVal → Groups → Except JSError Groups
  | [], groups => .ok groups
  | game :: rest, groups =>
    match game.getProp "start_time_utc" with
    | .error e => .error e
    | .ok start => groupLoop cal now rest (placeGame cal now groups game start)

/-- The function `groupGamesByDate` (lines 32-67), run at the time value `now`. -/
def groupGamesByDate (cal : Calendar) (now : ℤ) (gamesData : List JSVal) :
    Except JSError Groups :=
  groupLoop cal now gamesData { yesterday := [], today := [], upcoming := [] }

/-- The local calendar day (a day number) of a time value. -/
def localDay (cal : Calendar) (tv : ℤ) : ℤ :=
  cal.localTime tv / msPerDay

/-- The local calendar day of a game, `none` when its start time is not a valid date. -/
def gameDay (cal : Calendar) (game : JSVal) : Option ℤ :=
  (dateValue cal (game.getOwn "start_time_utc")).map (localDay cal)

/-- The group a game belongs to by its local calendar day: 0 for yesterday, 1 for
today, 2 for a day on or after tomorrow, none otherwise. -/
def groupOfDay (todayDay : ℤ) : Option ℤ → Option (Fin 3)
  | none => none
  | some d =>
    if d = todayDay - 1 then some 0
    else if d = todayDay then some 1
    else if todayDay + 1 ≤ d then some 2
    else none

/-- The calendar of a browser in the zone America/Santiago under the rules in force
from April 2024 to April 2025: UTC-4 until 2024-09-08T04:00:00Z (time value
1725768000000), UTC-3 from then on. The local readings from 00:00 to 01:00 of
8 September 2024 do not exist; `UTC` reads them, as every local reading before
01:00, with the offset in force before the change. -/
def santiagoCalendar (parseText : JSVal → Option ℤ) : Calendar :=
  { parseText := parseText,
    localTime := fun t => if t < 1725768000000 then t - 14400000 else t - 10800000,
    utc := fun t => if t < 1725757200000 then t + 14400000 else t + 10800000 }

/-- A Dashboard in which player "2" is selected while the games, summary and average
of a previously selected player are still held. -/
def staleSummaryState : DashState :=
  { DashState.initial with
    selectedPlayerId := str "2"
    recentGames := sampleGames
    summary := obj [("avg_pts_5", num 20)]
    recentAvgPoints := num 20 }

/-! ## Basic facts -/

theorem coalesce_eq_getD (a b d : JSVal) :
    coalesce (coalesce a b) d = (firstNonNull [a, b]).getD d := by
  unfold coalesce firstNonNull
  cases ha : a.isNullish <;> cases hb : b.isNullish <;> simp [List.find?, ha, hb]

theorem coalesce3_eq_getD (a b c d : JSVal) :
    coalesce (coalesce (coalesce a b) c) d = (firstNonNull [a, b, c]).getD d := by
  unfold coalesce firstNonNull
  cases ha : a.isNullish <;> cases hb : b.isNullish <;> cases hc : c.isNullish <;>
    simp [List.find?, ha, hb, hc]

theorem coalesce4_eq_getD (a b c e d : JSVal) :
    coalesce (coalesce (coalesce (coalesce a b) c) e) d = (firstNonNull [a, b, c, e]).getD d := by
  unfold coalesce firstNonNull
  cases ha : a.isNullish <;> cases hb : b.isNullish <;> cases hc : c.isNullish <;>
    cases he : e.isNullish <;> simp [List.find?, ha, hb, hc, he]

theorem firstNonNull_not_nullish {cs : List JSVal} {v : JSVal} (h : firstNonNull cs = some v) :
    v.isNullish = false := by
  have := List.find?_some h
  simpa using this

theorem mapPlayer_id (p : JSVal) :
    (App.mapPlayer p).player_id = (resolvedId p).getD null := by
  simp only [App.mapPlayer, resolvedId]
  exact coalesce3_eq_getD _ _ _ _

theorem mapPlayer_name (p : JSVal) :
    (App.mapPlayer p).player_name = (resolvedName p).getD (str "") := by
  simp only [App.mapPlayer, resolvedName]
  exact coalesce4_eq_getD _ _ _ _ _

theorem keepPlayer_mapPlayer (p : JSVal) :
    App.keepPlayer (App.mapPlayer p) = retained p := by
  unfold App.keepPlayer retained
  rw [mapPlayer_id, mapPlayer_name]
  cases hi : resolvedId p with
  | none => simp [isNullish]
  | some v =>
    have hv := firstNonNull_not_nullish hi
    cases hn : resolvedName p with
    | none => simp [hv, strictEqStr]
    | some w => simp [hv]

theorem list_eq_filter_map (raw : List JSVal) :
    App.list raw = (raw.filter retained).map App.mapPlayer := by
  unfold App.list
  induction raw with
  | nil => rfl
  | cons p ps ih =>
    simp only [List.map_cons, List.filter_cons, keepPlayer_mapPlayer, ih]
    cases retained p <;> simp

theorem raw_eq_payloadItems (data : JSVal) : App.raw data = .ok (payloadItems data) := by
  cases data with
  | obj fields =>
    simp only [App.raw, truthy, getProp, isNullish, getOwn, payloadItems, if_true]
    cases h : fields.lookup "players" with
    | none => simp
    | some v => cases v <;> simp
  | num q => by_cases h : q = 0 <;> simp [App.raw, truthy, getProp, isNullish, getOwn, payloadItems, h]
  | str s => by_cases h : s = "" <;> simp [App.raw, truthy, getProp, isNullish, getOwn, payloadItems, h]
  | bool b => cases b <;> simp [App.raw, truthy, getProp, isNullish, getOwn, payloadItems]
  | _ => simp [App.raw, truthy, getProp, isNullish, getOwn, payloadItems]

theorem normalizePlayers_eq (data : JSVal) :
    App.normalizePlayers data = .ok (App.list (payloadItems data)) := by
  simp [App.normalizePlayers, raw_eq_payloadItems]

theorem retained_of_not_object {p : JSVal} (h : p.isObject = false) : retained p = false := by
  cases p <;> simp_all [retained, resolvedId, firstNonNull, optChain, getOwn, isNullish, isObject]

theorem strictEqStr_iff (v : JSVal) (s : String) : v.strictEqStr s = true ↔ v = str s := by
  cases v <;> simp [strictEqStr]

theorem labelPercentage_cases (label : JSVal) :
    (label = str "Large" → labelPercentage label = 100) ∧
    (label = str "Medium" → labelPercentage label = 60) ∧
    (label ≠ str "Large" → label ≠ str "Medium" → labelPercentage label = 30) := by
  refine ⟨?_, ?_, ?_⟩
  · intro h
    subst h
    simp [labelPercentage, strictEqStr]
  · intro h
    subst h
    simp [labelPercentage, strictEqStr]
  · intro h1 h2
    have e1 : label.strictEqStr "Large" = false := by
      cases h : label.strictEqStr "Large"
      · rfl
      · exact absurd ((strictEqStr_iff _ _).1 h) h1
    have e2 : label.strictEqStr "Medium" = false := by
      cases h : label.strictEqStr "Medium"
      · rfl
      · exact absurd ((strictEqStr_iff _ _).1 h) h2
    simp [labelPercentage, e1, e2]

theorem labelPercentage_values (label : JSVal) :
    labelPercentage label = 100 ∨ labelPercentage label = 60 ∨ labelPercentage label = 30 := by
  unfold labelPercentage
  split_ifs <;> simp

theorem getProp_not_nullish {g : JSVal} (h : g.isNullish = false) (k : String) :
    g.getProp k = .ok (g.getOwn k) := by
  simp [getProp, h]

theorem normalizeGame_not_nullish {g : JSVal} (h : g.isNullish = false) :
    normalizeGame g = .ok
      { date := (firstNonNull [g.getOwn "date", g.getOwn "game_date", g.getOwn "gameDate"]).getD null,
        pts := (firstNonNull [g.getOwn "pts"]).getD null,
        min := (firstNonNull [g.getOwn "min"]).getD null,
        fg_pct := (firstNonNull [g.getOwn "fg_pct", g.getOwn "fgPct"]).getD null } := by
  simp only [normalizeGame, getProp_not_nullish h, coalesceM, firstNonNull, coalesce]
  cases h1 : (g.getOwn "date").isNullish <;> cases h2 : (g.getOwn "game_date").isNullish <;>
    cases h3 : (g.getOwn "gameDate").isNullish <;> cases h4 : (g.getOwn "pts").isNullish <;>
    cases h5 : (g.getOwn "min").isNullish <;> cases h6 : (g.getOwn "fg_pct").isNullish <;>
    cases h7 : (g.getOwn "fgPct").isNullish <;>
    simp [List.find?, h1, h2, h3, h4, h5, h6, h7, bind, Except.bind, pure, Except.pure]

theorem normalizeGame_nullish {g : JSVal} (h : g.isNullish = true) :
    normalizeGame g = .error .typeError := by
  simp [normalizeGame, getProp, h, bind, Except.bind]

theorem mapThrow_ok {α β : Type} (f : α → Except JSError β) (g : α → β) (l : List α)
    (h : ∀ a ∈ l, f a = .ok (g a)) : mapThrow f l = .ok (l.map g) := by
  induction l with
  | nil => rfl
  | cons a as ih =>
    have ih2 := ih fun b hb => h b (List.mem_cons_of_mem _ hb)
    simp [mapThrow, h a (List.mem_cons_self _ _), ih2]

theorem mapThrow_error {α β : Type} (f : α → Except JSError β) (l : List α)
    (h : ∃ a ∈ l, f a = .error .typeError) : mapThrow f l = .error .typeError := by
  induction l with
  | nil =>
    obtain ⟨a, ha, _⟩ := h
    exact absurd ha (List.not_mem_nil a)
  | cons a as ih =>
    cases hfa : f a with
    | error e =>
      cases e
      simp [mapThrow, hfa]
    | ok b =>
      obtain ⟨c, hc, hfc⟩ := h
      rcases List.mem_cons.1 hc with rfl | hc2
      · rw [hfa] at hfc
        exact Except.noConfusion hfc
      · simp [mapThrow, hfa, ih ⟨c, hc2, hfc⟩]

/-- On an array without `null` or `undefined` elements `normalizeGames` returns the
record of every element. -/
theorem normalizeGames_of_not_nullish (gs : List JSVal) (h : ∀ g ∈ gs, g.isNullish = false) :
    normalizeGames (arr gs) = .ok (gs.map normalizedGame) := by
  simp only [normalizeGames]
  exact mapThrow_ok _ _ _ fun g hg => normalizeGame_not_nullish (h g hg)

/-- On an array holding a `null` or `undefined` element `normalizeGames` throws. -/
theorem normalizeGames_of_nullish (gs : List JSVal) (h : ∃ g ∈ gs, g.isNullish = true) :
    normalizeGames (arr gs) = .error .typeError := by
  simp only [normalizeGames]
  obtain ⟨g, hg, hn⟩ := h
  exact mapThrow_error _ _ ⟨g, hg, normalizeGame_nullish hn⟩

/-- No field of a normalised record is `undefined`. -/
theorem normalizedGame_defined (g : JSVal) :
    (normalizedGame g).date ≠ undefined ∧ (normalizedGame g).pts ≠ undefined ∧
    (normalizedGame g).min ≠ undefined ∧ (normalizedGame g).fg_pct ≠ undefined := by
  have key : ∀ cs : List JSVal, (firstNonNull cs).getD null ≠ undefined := by
    intro cs
    cases hc : firstNonNull cs with
    | none => simp
    | some v =>
      have hv := firstNonNull_not_nullish hc
      intro hu
      simp only [Option.getD_some] at hu
      rw [hu] at hv
      exact Bool.noConfusion hv
  exact ⟨key _, key _, key _, key _⟩

/-! ## Facts about the summary and the rolling window -/

theorem sumFrom_nums (a : ℚ) (qs : List ℚ) :
    sumFrom (num a) (qs.map num) = some (num (a + qs.sum)) := by
  induction qs generalizing a with
  | nil => simp [sumFrom]
  | cons q qs ih => simp [sumFrom, add, ih, add_assoc]

theorem zeroIfNull_of_numOrNull {v : JSVal} (h : v.isNumOrNull = true) :
    zeroIfNull v = num (numOrZero v) := by
  cases v <;> simp_all [zeroIfNull, isNumOrNull, isNullish, asNum?, numOrZero]

theorem map_zeroIfNull (field : GameRecord → JSVal) (games : List GameRecord)
    (h : ∀ g ∈ games, (field g).isNumOrNull = true) :
    (games.map fun d => zeroIfNull (field d))
      = (games.map fun g => numOrZero (field g)).map num := by
  rw [List.map_map]
  apply List.map_congr_left
  intro g hg
  simp [zeroIfNull_of_numOrNull (h g hg)]

theorem getD_map_num_last (qs : List ℚ) (h : qs ≠ []) :
    (qs.map num).getD ((qs.map num).length - 1) undefined = num (qs.getLast h) := by
  have hlt : qs.length - 1 < qs.length := by
    have := List.length_pos.2 h
    omega
  simp [List.getD_eq_getElem?_getD, List.getLast_eq_getElem, hlt]

theorem getD_map_num_head (qs : List ℚ) (h : qs ≠ []) :
    (qs.map num).getD 0 undefined = num (qs.head h) := by
  cases qs with
  | nil => exact absurd rfl h
  | cons q qs => simp

theorem or_num_zero (q : ℚ) : JSVal.or (num q) (num 0) = num q := by
  by_cases h : q = 0 <;> simp [JSVal.or, truthy, h]

theorem computeFormSummary_eq (games : List GameRecord) (hne : games ≠ [])
    (hpts : ∀ g ∈ games, g.pts.isNumOrNull = true)
    (hmin : ∀ g ∈ games, g.min.isNumOrNull = true) :
    computeFormSummary games = some
      { avg_pts_5 := num (meanNullAsZero (fun g => g.pts) games),
        avg_min_5 := num (meanNullAsZero (fun g => g.min) games),
        pts_trend := num (numOrZero (games.getLast hne).pts - numOrZero (games.head hne).pts) } := by
  have hlen : games.length ≠ 0 := by
    intro h0
    exact hne (List.length_eq_zero.1 h0)
  have hps : (games.map fun g => numOrZero g.pts) ≠ [] := by simpa using hne
  unfold computeFormSummary
  simp only [map_zeroIfNull (fun g => g.pts) games hpts, map_zeroIfNull (fun g => g.min) games hmin,
    sumFrom_nums, Option.bind_some, getD_map_num_last _ hps, getD_map_num_head _ hps]
  simp [divLen, hlen, sub, or_num_zero, meanNullAsZero, List.getLast_map, List.head_map]

theorem filter_nonnull_eq (l : List JSVal) (h : ∀ v ∈ l, v.isNumOrNull = true) :
    (l.filter fun x => !x.isNullish) = (l.filterMap asNum?).map num := by
  induction l with
  | nil => rfl
  | cons v vs ih =>
    have hv := h v (List.mem_cons_self _ _)
    have ih2 := ih fun w hw => h w (List.mem_cons_of_mem _ hw)
    cases v <;> simp_all [isNumOrNull, isNullish, asNum?, List.filter_cons, List.filterMap_cons]

theorem slice_eq_map_Ico {α : Type} (l : List α) (a b : Nat) (d : α) (hb : b ≤ l.length) :
    slice l a b = (List.Ico a b).map fun j => l.getD j d := by
  unfold slice List.Ico
  apply List.ext_getElem
  · simp
    omega
  · intro k h1 h2
    have hk : a + k < l.length := by
      simp at h1
      omega
    simp [List.getD_eq_getElem?_getD, hk]

theorem rollingAvg_eq (fgs : List JSVal) (h : ∀ v ∈ fgs, v.isNumOrNull = true) (i : Nat)
    (hi : i < fgs.length) : rollingAvg fgs i = some (rollingMean fgs i) := by
  have hw : ((slice fgs (max 0 (i - 2)) (i + 1)).filter fun x => !x.isNullish)
      = (windowValues fgs i).map num := by
    rw [filter_nonnull_eq]
    · rw [slice_eq_map_Ico fgs _ _ null (by omega), List.filterMap_map]
      simp [windowValues, Function.comp_def]
    · intro v hv
      unfold slice at hv
      exact h v (List.mem_of_mem_take (List.mem_of_mem_drop hv))
  unfold rollingAvg rollingMean
  simp only [hw, List.length_map, sumFrom_nums]
  by_cases he : windowValues fgs i = []
  · simp [he]
  · have hl : (windowValues fgs i).length ≠ 0 := fun h0 => he (List.length_eq_zero.1 h0)
    simp [he, hl, divLen]

theorem allSome_map_some {α β : Type} (l : List α) (f : α → Option β) (g : α → β)
    (h : ∀ x ∈ l, f x = some (g x)) : allSome (l.map f) = some (l.map g) := by
  induction l with
  | nil => rfl
  | cons x xs ih =>
    have ih2 := ih fun y hy => h y (List.mem_cons_of_mem _ hy)
    simp [allSome, h x (List.mem_cons_self _ _), ih2]

theorem vals_eq_fg (games : List GameRecord) (hnum : ∀ g ∈ games, g.fg_pct.isNumOrNull = true) :
    (games.map fun g => if g.fg_pct.isNullish then null else g.fg_pct)
      = games.map fun g => g.fg_pct := by
  apply List.map_congr_left
  intro g hg
  have := hnum g hg
  cases hf : g.fg_pct <;> simp_all [isNumOrNull, isNullish]

theorem chart3Data_eq (games : List GameRecord) (hne : games ≠ [])
    (hnum : ∀ g ∈ games, g.fg_pct.isNumOrNull = true) :
    chart3Data games = some (games.enum.map fun ig =>
      { date := ig.2.date, fg_pct := ig.2.fg_pct,
        fg_pct_roll := rollingMean (games.map fun g => g.fg_pct) ig.1 }) := by
  have hlen : games.length ≠ 0 := fun h0 => hne (List.length_eq_zero.1 h0)
  have hall : ∀ v ∈ (games.map fun g => g.fg_pct), v.isNumOrNull = true := by
    intro v hv
    obtain ⟨g, hg, rfl⟩ := List.mem_map.1 hv
    exact hnum g hg
  unfold chart3Data
  simp only [hlen, if_false, vals_eq_fg games hnum, List.enum_map, List.map_map]
  apply allSome_map_some
  intro ig hig
  have hget : games[ig.1]? = some ig.2 := List.mem_enum_iff_getElem?.1 hig
  have hi : ig.1 < (games.map fun g => g.fg_pct).length := by
    rw [List.length_map]
    by_contra hcon
    rw [List.getElem?_eq_none (by omega)] at hget
    exact Option.noConfusion hget
  simp [rollingAvg_eq _ hall _ hi, hget]

theorem sampleGames_ne : sampleGames ≠ [] := by
  simp [sampleGames]

theorem sampleGames_fg : ∀ g ∈ sampleGames, g.fg_pct.isNumOrNull = true := by
  intro g hg
  simp only [sampleGames, List.mem_cons, List.mem_singleton, List.not_mem_nil, or_false] at hg
  rcases hg with rfl | rfl | rfl <;> rfl

theorem sampleGames_pts : ∀ g ∈ sampleGames, g.pts.isNumOrNull = true := by
  intro g hg
  simp only [sampleGames, List.mem_cons, List.mem_singleton, List.not_mem_nil, or_false] at hg
  rcases hg with rfl | rfl | rfl <;> rfl

theorem sampleGames_min : ∀ g ∈ sampleGames, g.min.isNumOrNull = true := by
  intro g hg
  simp only [sampleGames, List.mem_cons, List.mem_singleton, List.not_mem_nil, or_false] at hg
  rcases hg with rfl | rfl | rfl <;> rfl

theorem rollingMean_eq_null_iff (fgs : List JSVal) (i : Nat) :
    rollingMean fgs i = null ↔ windowValues fgs i = [] := by
  unfold rollingMean
  by_cases he : windowValues fgs i = [] <;> simp [he]

theorem asNum?_eq_none_iff {v : JSVal} (h : v.isNumOrNull = true) :
    v.asNum? = none ↔ v = null := by
  cases v <;> simp_all [isNumOrNull, asNum?]

/-! ## The claims -/

/-- C1: for a non-empty sequence of games whose `fg_pct` fields are numbers or null,
`chart3Data` has the length of the input; entry `i` carries the date and `fg_pct` of
game `i`; its `fg_pct_roll` is the mean of the non-null `fg_pct` values at the indices
`max(0, i-2) .. i` (divisor: their number), and is `null` exactly when every `fg_pct`
in that window is `null`; with `fg_pct` null everywhere every rolling value is `null`. -/
theorem chart3Data_rolling (games : List GameRecord) (hne : games ≠ [])
    (hnum : ∀ g ∈ games, g.fg_pct.isNumOrNull = true) :
    ∃ out, chart3Data games = some out ∧ out.length = games.length ∧
      (∀ (i : Nat) (hi : i < games.length), ∃ p, out[i]? = some p ∧
        p.date = games[i].date ∧ p.fg_pct = games[i].fg_pct ∧
        p.fg_pct_roll = rollingMean (games.map fun g => g.fg_pct) i ∧
        (p.fg_pct_roll = null ↔
          ∀ (j : Nat) (hj : j < games.length), i - 2 ≤ j → j ≤ i → games[j].fg_pct = null)) ∧
      ((∀ g ∈ games, g.fg_pct = null) → ∀ p ∈ out, p.fg_pct_roll = null) := by
  have hmain : ∀ (i : Nat) (hi : i < games.length),
      (rollingMean (games.map fun g => g.fg_pct) i = null ↔
        ∀ (j : Nat) (hj : j < games.length), i - 2 ≤ j → j ≤ i → games[j].fg_pct = null) := by
    intro i hi
    rw [rollingMean_eq_null_iff]
    unfold windowValues
    rw [List.filterMap_eq_nil_iff]
    constructor
    · intro h j hj h1 h2
      have hj2 : j ∈ List.Ico (i - 2) (i + 1) := by
        rw [List.Ico.mem]
        omega
      have h3 := h j hj2
      have h4 : ((games.map fun g => g.fg_pct).getD j null) = games[j].fg_pct := by
        simp [List.getD_eq_getElem?_getD, hj]
      rw [h4] at h3
      exact (asNum?_eq_none_iff (hnum _ (List.getElem_mem hj))).1 h3
    · intro h j hj
      rw [List.Ico.mem] at hj
      have hj2 : j < games.length := by omega
      have h4 : ((games.map fun g => g.fg_pct).getD j null) = games[j].fg_pct := by
        simp [List.getD_eq_getElem?_getD, hj2]
      rw [h4, h j hj2 hj.1 (by omega)]
      rfl
  have hidx : ∀ (i : Nat) (hi : i < games.length),
      (games.enum.map fun ig =>
        ({ date := ig.2.date, fg_pct := ig.2.fg_pct,
           fg_pct_roll := rollingMean (games.map fun g => g.fg_pct) ig.1 } : ChartPoint))[i]?
      = some { date := games[i].date, fg_pct := games[i].fg_pct,
               fg_pct_roll := rollingMean (games.map fun g => g.fg_pct) i } := by
    intro i hi
    simp [List.getElem?_map, List.getElem?_enum, hi]
  refine ⟨_, chart3Data_eq games hne hnum, by simp, ?_, ?_⟩
  · intro i hi
    exact ⟨_, hidx i hi, rfl, rfl, rfl, hmain i hi⟩
  · intro hall p hp
    obtain ⟨i, hi, hpi⟩ := List.getElem_of_mem hp
    have hi2 : i < games.length := by simpa using hi
    have h5 := hidx i hi2
    rw [List.getElem?_eq_getElem hi, hpi] at h5
    rw [Option.some.inj h5]
    exact (hmain i hi2).2 fun j hj _ _ => hall _ (List.getElem_mem hj)

/-- Witness for C1: the three sample games, whose middle `fg_pct` is null. -/
theorem chart3Data_rolling_witness :
    ∃ out, chart3Data sampleGames = some out ∧ out.length = sampleGames.length ∧
      (∀ (i : Nat) (hi : i < sampleGames.length), ∃ p, out[i]? = some p ∧
        p.date = sampleGames[i].date ∧ p.fg_pct = sampleGames[i].fg_pct ∧
        p.fg_pct_roll = rollingMean (sampleGames.map fun g => g.fg_pct) i ∧
        (p.fg_pct_roll = null ↔
          ∀ (j : Nat) (hj : j < sampleGames.length), i - 2 ≤ j → j ≤ i →
            sampleGames[j].fg_pct = null)) ∧
      ((∀ g ∈ sampleGames, g.fg_pct = null) → ∀ p ∈ out, p.fg_pct_roll = null) :=
  chart3Data_rolling sampleGames sampleGames_ne sampleGames_fg

/-- C2: for a non-empty sequence of games whose `pts` and `min` are numbers or null,
the summary has `avg_pts_5` equal to the sum of `pts` (null counted as 0) divided by
the number of games, and `avg_min_5` the same mean over `min`. -/
theorem computeFormSummary_means (games : List GameRecord) (hne : games ≠ [])
    (hpts : ∀ g ∈ games, g.pts.isNumOrNull = true)
    (hmin : ∀ g ∈ games, g.min.isNumOrNull = true) :
    ∃ s, computeFormSummary games = some s ∧
      s.avg_pts_5 = num (meanNullAsZero (fun g => g.pts) games) ∧
      s.avg_min_5 = num (meanNullAsZero (fun g => g.min) games) :=
  ⟨_, computeFormSummary_eq games hne hpts hmin, rfl, rfl⟩

/-- Witness for C2: points 10, 20, 30 give `avg_pts_5 = 20`; minutes 30, null, 36 give
`avg_min_5 = 22`. -/
theorem computeFormSummary_means_witness :
    ∃ s, computeFormSummary sampleGames = some s ∧ s.avg_pts_5 = num 20 ∧
      s.avg_min_5 = num 22 := by
  obtain ⟨s, hs, h1, h2⟩ :=
    computeFormSummary_means sampleGames sampleGames_ne sampleGames_pts sampleGames_min
  refine ⟨s, hs, ?_, ?_⟩
  · rw [h1]
    norm_num [meanNullAsZero, numOrZero, asNum?, sampleGames]
  · rw [h2]
    norm_num [meanNullAsZero, numOrZero, asNum?, sampleGames]

/-- C3: for a non-empty sequence of games of any length whose `pts` and `min` are
numbers or null, `pts_trend` is the points of the last game minus the points of the
first (null counted as 0); with exactly one game it is 0. -/
theorem computeFormSummary_trend (games : List GameRecord) (hne : games ≠ [])
    (hpts : ∀ g ∈ games, g.pts.isNumOrNull = true)
    (hmin : ∀ g ∈ games, g.min.isNumOrNull = true) :
    ∃ s, computeFormSummary games = some s ∧
      s.pts_trend = num (numOrZero (games.getLast hne).pts - numOrZero (games.head hne).pts) ∧
      (games.length = 1 → s.pts_trend = num 0) := by
  refine ⟨_, computeFormSummary_eq games hne hpts hmin, rfl, ?_⟩
  intro h1
  obtain ⟨g, rfl⟩ := List.length_eq_one.1 h1
  simp

/-- Witness for C3: points 10, 20, 30 give `pts_trend = 20`. -/
theorem computeFormSummary_trend_witness :
    ∃ s, computeFormSummary sampleGames = some s ∧ s.pts_trend = num 20 := by
  obtain ⟨s, hs, h1, _⟩ :=
    computeFormSummary_trend sampleGames sampleGames_ne sampleGames_pts sampleGames_min
  refine ⟨s, hs, ?_⟩
  rw [h1]
  norm_num [numOrZero, asNum?, sampleGames]

/-- C4: for every truthy confidence value (every confidence object in particular) the
gauge is rendered with percentage 100 for label "Large", 60 for "Medium" and 30 for
any other or missing label; the percentage is a natural number at most 100 and the
clamp `Math.min(100, Math.max(0, ...))` leaves the table value unchanged. -/
theorem ConfidenceGauge_percentage (confidence : JSVal) (h : confidence.truthy = true) :
    ∃ g, ConfidenceGauge confidence = some g ∧
      (confidence.getOwn "label" = str "Large" → g.percentage = 100) ∧
      (confidence.getOwn "label" = str "Medium" → g.percentage = 60) ∧
      (confidence.getOwn "label" ≠ str "Large" → confidence.getOwn "label" ≠ str "Medium" →
        g.percentage = 30) ∧
      (∃ n : ℕ, n ≤ 100 ∧ g.percentage = (n : ℚ)) ∧
      g.percentage = labelPercentage (confidence.getOwn "label") := by
  have hclamp : min 100 (max 0 (labelPercentage (confidence.getOwn "label")))
      = labelPercentage (confidence.getOwn "label") := by
    rcases labelPercentage_values (confidence.getOwn "label") with e | e | e <;>
      rw [e] <;> norm_num
  have hg : ConfidenceGauge confidence = some
      { percentage := min 100 (max 0 (labelPercentage (confidence.getOwn "label"))),
        gaugeColor :=
          if min 100 (max 0 (labelPercentage (confidence.getOwn "label"))) ≥ 70 then "#34d399"
          else if min 100 (max 0 (labelPercentage (confidence.getOwn "label"))) ≥ 40 then "#fbbf24"
          else "#ff6b6b" } := by
    simp only [ConfidenceGauge, h, Bool.not_true, Bool.false_eq_true, if_false]
  refine ⟨_, hg, ?_⟩
  simp only [hclamp]
  obtain ⟨a, b, c⟩ := labelPercentage_cases (confidence.getOwn "label")
  refine ⟨a, b, c, ?_, trivial⟩
  rcases labelPercentage_values (confidence.getOwn "label") with e | e | e
  · exact ⟨100, le_refl _, by rw [e]; norm_num⟩
  · exact ⟨60, by norm_num, by rw [e]; norm_num⟩
  · exact ⟨30, by norm_num, by rw [e]; norm_num⟩

/-- Witness for C4: the confidence object `{label: "Small", band: 3}` is truthy and its
gauge shows 30. -/
theorem ConfidenceGauge_percentage_witness :
    (obj [("label", str "Small"), ("band", num 3)]).truthy = true ∧
    ∃ g, ConfidenceGauge (obj [("label", str "Small"), ("band", num 3)]) = some g ∧
      g.percentage = 30 :=
  ⟨rfl,
    match ConfidenceGauge_percentage (obj [("label", str "Small"), ("band", num 3)]) rfl with
    | ⟨g, hg, _, _, h30, _⟩ =>
      ⟨g, hg, h30 (by simp [getOwn, List.lookup]) (by simp [getOwn, List.lookup])⟩⟩

/-- C5: the Dashboard players normalisation never throws; it normalises the payload
itself when it is an array, the array under `players` when the payload is an object
wrapping one, and the empty sequence for every other shape (`payloadItems`); items
that are not objects (null, numbers, strings, ...) are dropped without error. -/
theorem normalizePlayers_total :
    (∀ data : JSVal, App.normalizePlayers data = .ok (App.list (payloadItems data))) ∧
    (∀ xs : List JSVal, App.list xs = App.list (xs.filter isObject)) ∧
    App.normalizePlayers null = .ok [] ∧
    App.normalizePlayers (arr []) = .ok [] ∧
    App.normalizePlayers (obj [("players", arr [obj [("id", num 7), ("name", str "A")]])])
      = .ok [{ player_id := num 7, player_name := str "A" }] := by
  refine ⟨normalizePlayers_eq, ?_, rfl, rfl, rfl⟩
  intro xs
  rw [list_eq_filter_map, list_eq_filter_map, List.filter_filter]
  congr 1
  apply List.filter_congr
  intro p _
  cases hp : p.isObject
  · simp [retained_of_not_object hp]
  · simp

/-- C6: in the Dashboard and in Home the normalised `player_id` is the first non-null
of the item's `player_id`, `id`, `playerId` in that order, and `player_name` the first
non-null of `player_name`, `name`, `full_name`, `playerName` in that order; when none
is non-null the Dashboard gives `null` and `""`, Home the last alias read. -/
theorem mapPlayer_priority (p : JSVal) :
    (App.mapPlayer p).player_id
      = (firstNonNull [p.optChain "player_id", p.optChain "id", p.optChain "playerId"]).getD null ∧
    (App.mapPlayer p).player_name
      = (firstNonNull [p.optChain "player_name", p.optChain "name", p.optChain "full_name",
          p.optChain "playerName"]).getD (str "") ∧
    (Home.mapPlayer p).player_id
      = (firstNonNull [p.optChain "player_id", p.optChain "id", p.optChain "playerId"]).getD
          (p.optChain "playerId") ∧
    (Home.mapPlayer p).player_name
      = (firstNonNull [p.optChain "player_name", p.optChain "name", p.optChain "full_name",
          p.optChain "playerName"]).getD (p.optChain "playerName") := by
  refine ⟨coalesce3_eq_getD _ _ _ _, coalesce4_eq_getD _ _ _ _ _, ?_, ?_⟩
  · simp only [Home.mapPlayer, coalesce, firstNonNull]
    cases ha : (p.optChain "player_id").isNullish <;> cases hb : (p.optChain "id").isNullish <;>
      cases hc : (p.optChain "playerId").isNullish <;> simp [List.find?, ha, hb, hc]
  · simp only [Home.mapPlayer, coalesce, firstNonNull]
    cases ha : (p.optChain "player_name").isNullish <;>
      cases hb : (p.optChain "name").isNullish <;>
      cases hc : (p.optChain "full_name").isNullish <;>
      cases hd : (p.optChain "playerName").isNullish <;> simp [List.find?, ha, hb, hc, hd]

/-- C7: the Dashboard list is exactly the retained items (an id resolves and a name
other than `""` resolves), normalised, in source order; every entry carries the
resolved id and name of a payload item, its id is not null and its name is not `""`. -/
theorem list_retained (raw : List JSVal) :
    App.list raw = (raw.filter retained).map App.mapPlayer ∧
    ∀ r ∈ App.list raw,
      (∃ p ∈ raw, resolvedId p = some r.player_id ∧ resolvedName p = some r.player_name) ∧
      r.player_id.isNullish = false ∧ r.player_name ≠ str "" := by
  refine ⟨list_eq_filter_map raw, ?_⟩
  intro r hr
  rw [list_eq_filter_map, List.mem_map] at hr
  obtain ⟨p, hp, rfl⟩ := hr
  rw [List.mem_filter] at hp
  obtain ⟨hmem, hret⟩ := hp
  rw [mapPlayer_id, mapPlayer_name]
  unfold retained at hret
  cases hi : resolvedId p with
  | none => simp [hi] at hret
  | some v =>
    cases hn : resolvedName p with
    | none => simp [hn] at hret
    | some w =>
      simp only [hi, hn, Option.isSome_some, Bool.true_and, Bool.not_eq_true'] at hret
      refine ⟨⟨p, hmem, by simp [hi], by simp [hn]⟩, firstNonNull_not_nullish hi, ?_⟩
      intro hw
      simp only [Option.getD_some] at hw
      rw [hw] at hret
      simp [strictEqStr] at hret

/-- Witness for C7: a payload with a complete item, a null item, an item without a
name and an item with an empty name keeps the complete item only. -/
theorem list_retained_witness :
    App.list [obj [("id", num 1), ("name", str "A")], null, obj [("id", num 2)],
        obj [("id", num 3), ("name", str "")]]
      = [{ player_id := num 1, player_name := str "A" }] ∧
    ∀ r ∈ App.list [obj [("id", num 1), ("name", str "A")], null, obj [("id", num 2)],
        obj [("id", num 3), ("name", str "")]],
      r.player_id.isNullish = false ∧ r.player_name ≠ str "" :=
  ⟨rfl, fun r hr => ((list_retained _).2 r hr).2⟩

/-- C8 fails as stated: two payload items resolving to the same id are both kept, so
the normalised list carries the id twice. -/
theorem normalizePlayers_duplicate_ids :
    App.normalizePlayers (arr [obj [("id", num 1), ("name", str "A")],
        obj [("id", num 1), ("name", str "B")]])
      = .ok [{ player_id := num 1, player_name := str "A" },
             { player_id := num 1, player_name := str "B" }] ∧
    ¬ (([{ player_id := num 1, player_name := str "A" },
         { player_id := num 1, player_name := str "B" }] : List PlayerRef).map
        fun r => r.player_id).Nodup := by
  refine ⟨rfl, ?_⟩
  simp

/-- C8 amended: for every players payload the ids of the normalised list are the
resolved ids of the retained payload items, in order and with multiplicity (nothing is
de-duplicated); they are pairwise distinct exactly when no two retained items resolve
to the same id. -/
theorem normalizePlayers_ids_nodup (data : JSVal) :
    ∃ l, App.normalizePlayers data = .ok l ∧
      (l.map fun r => r.player_id)
        = ((payloadItems data).filter retained).map (fun p => (resolvedId p).getD null) ∧
      ((l.map fun r => r.player_id).Nodup ↔
        (((payloadItems data).filter retained).map resolvedId).Nodup) := by
  have hl : (App.list (payloadItems data)).map (fun r => r.player_id)
      = ((payloadItems data).filter retained).map (fun p => (resolvedId p).getD null) := by
    rw [list_eq_filter_map, List.map_map]
    apply List.map_congr_left
    intro p _
    simp [mapPlayer_id]
  have hs : ((payloadItems data).filter retained).map resolvedId
      = (((payloadItems data).filter retained).map
          (fun p => (resolvedId p).getD null)).map some := by
    rw [List.map_map]
    apply List.map_congr_left
    intro p hp
    have hp2 : retained p = true := (List.mem_filter.1 hp).2
    unfold retained at hp2
    cases hi : resolvedId p with
    | none => simp [hi] at hp2
    | some v => simp [hi]
  refine ⟨_, normalizePlayers_eq data, hl, ?_⟩
  rw [hl, hs]
  exact (List.nodup_map_iff (Option.some_injective JSVal)).symm

/-- Witness for C8 amended: two items resolving to the ids 1 and 2 give the ids 1, 2,
which are distinct. -/
theorem normalizePlayers_ids_nodup_witness :
    ∃ l, App.normalizePlayers (arr [obj [("id", num 1), ("name", str "A")],
        obj [("playerId", num 2), ("full_name", str "B")]]) = .ok l ∧
      (l.map fun r => r.player_id) = [num 1, num 2] ∧
      (l.map fun r => r.player_id).Nodup :=
  match normalizePlayers_ids_nodup (arr [obj [("id", num 1), ("name", str "A")],
        obj [("playerId", num 2), ("full_name", str "B")]]) with
  | ⟨l, hl, hids, hiff⟩ =>
    ⟨l, hl, hids.trans (by
      simp [payloadItems, retained, resolvedId, resolvedName, firstNonNull, optChain, getOwn,
        isNullish, List.lookup, strictEqStr, List.filter, List.find?]),
      hiff.2 (by
      simp [payloadItems, retained, resolvedId, resolvedName, firstNonNull, optChain, getOwn,
        isNullish, List.lookup, strictEqStr, List.filter, List.find?])⟩

/-- C9 fails on the code: `normalizeGames` reads `g.date` without a guard, so an
array holding a `null` element makes it throw a `TypeError`. -/
theorem normalizeGames_null_element_throws :
    normalizeGames (arr [obj [("date", str "2024-01-01"), ("pts", num 10)], null])
      = .error .typeError ∧
    normalizeGames (arr [undefined]) = .error .typeError := by
  exact ⟨rfl, rfl⟩

/-- C10: for every raw game object `normalizeGames` gives `date` the first non-null of
`date`, `game_date`, `gameDate`, gives `fg_pct` the first non-null of `fg_pct`,
`fgPct`, gives `pts` and `min` the `pts` and `min` of the object, and `null` to a field
with no non-null alias. -/
theorem normalizeGame_aliases (fields : List (String × JSVal)) :
    ∃ r, normalizeGames (arr [obj fields]) = .ok [r] ∧
      r.date = (firstNonNull [(obj fields).getOwn "date", (obj fields).getOwn "game_date",
        (obj fields).getOwn "gameDate"]).getD null ∧
      r.fg_pct = (firstNonNull [(obj fields).getOwn "fg_pct",
        (obj fields).getOwn "fgPct"]).getD null ∧
      r.pts = (firstNonNull [(obj fields).getOwn "pts"]).getD null ∧
      r.min = (firstNonNull [(obj fields).getOwn "min"]).getD null := by
  have h : (obj fields).isNullish = false := rfl
  refine ⟨{ date := (firstNonNull [(obj fields).getOwn "date", (obj fields).getOwn "game_date",
              (obj fields).getOwn "gameDate"]).getD null,
            pts := (firstNonNull [(obj fields).getOwn "pts"]).getD null,
            min := (firstNonNull [(obj fields).getOwn "min"]).getD null,
            fg_pct := (firstNonNull [(obj fields).getOwn "fg_pct",
              (obj fields).getOwn "fgPct"]).getD null }, ?_, rfl, rfl, rfl, rfl⟩
  simp only [normalizeGames, mapThrow, normalizeGame_not_nullish h]

/-! ## Facts used by the claims on normalisation order, idempotence and locality -/

theorem isNullish_of_isObject {g : JSVal} (h : g.isObject = true) : g.isNullish = false := by
  cases g <;> simp_all [isObject, isNullish]

theorem normalizeGames_singleton {g : JSVal} (h : g.isNullish = false) :
    normalizeGames (arr [g]) = .ok [normalizedGame g] := by
  have := normalizeGames_of_not_nullish [g] (by simpa using h)
  simpa using this

theorem firstNonNull_head_getD (v : JSVal) (hv : v ≠ undefined) (rest : List JSVal)
    (hrest : ∀ w ∈ rest, w = undefined) : (firstNonNull (v :: rest)).getD null = v := by
  unfold firstNonNull
  cases v with
  | undefined => exact absurd rfl hv
  | null =>
    have : rest.find? (fun v => !v.isNullish) = none := by
      rw [List.find?_eq_none]
      intro w hw
      rw [hrest w hw]
      simp [isNullish]
    simp only [List.find?_cons, show (null : JSVal).isNullish = true from rfl, Bool.not_true,
      this, Option.getD_none]
  | _ => simp [List.find?, isNullish]

theorem normalizedGame_toJS (r : GameRecord) (h1 : r.date ≠ undefined) (h2 : r.pts ≠ undefined)
    (h3 : r.min ≠ undefined) (h4 : r.fg_pct ≠ undefined) :
    normalizedGame r.toJS = r := by
  have e1 : r.toJS.getOwn "date" = r.date := by simp [GameRecord.toJS, getOwn, List.lookup]
  have e2 : r.toJS.getOwn "game_date" = undefined := by
    simp [GameRecord.toJS, getOwn, List.lookup]
  have e3 : r.toJS.getOwn "gameDate" = undefined := by
    simp [GameRecord.toJS, getOwn, List.lookup]
  have e4 : r.toJS.getOwn "pts" = r.pts := by simp [GameRecord.toJS, getOwn, List.lookup]
  have e5 : r.toJS.getOwn "min" = r.min := by simp [GameRecord.toJS, getOwn, List.lookup]
  have e6 : r.toJS.getOwn "fg_pct" = r.fg_pct := by simp [GameRecord.toJS, getOwn, List.lookup]
  have e7 : r.toJS.getOwn "fgPct" = undefined := by simp [GameRecord.toJS, getOwn, List.lookup]
  unfold normalizedGame
  rw [e1, e2, e3, e4, e5, e6, e7]
  rw [firstNonNull_head_getD _ h1 _ (by simp), firstNonNull_head_getD _ h2 _ (by simp),
    firstNonNull_head_getD _ h3 _ (by simp), firstNonNull_head_getD _ h4 _ (by simp)]

theorem normalizeGames_idem (gs : List JSVal) :
    normalizeGames (arr ((gs.map normalizedGame).map GameRecord.toJS))
      = .ok (gs.map normalizedGame) := by
  rw [normalizeGames_of_not_nullish]
  · rw [List.map_map, List.map_map]
    congr 1
    apply List.map_congr_left
    intro g _
    obtain ⟨h1, h2, h3, h4⟩ := normalizedGame_defined g
    exact normalizedGame_toJS _ h1 h2 h3 h4
  · intro g hg
    simp only [List.mem_map] at hg
    obtain ⟨r, -, rfl⟩ := hg
    rfl

theorem mapPlayer_toJS (r : PlayerRef) (h1 : r.player_id.isNullish = false)
    (h2 : r.player_name.isNullish = false) : App.mapPlayer r.toJS = r := by
  have e1 : r.toJS.optChain "player_id" = r.player_id := by
    simp [PlayerRef.toJS, optChain, isNullish, getOwn, List.lookup]
  have e2 : r.toJS.optChain "player_name" = r.player_name := by
    simp [PlayerRef.toJS, optChain, isNullish, getOwn, List.lookup]
  cases r with
  | mk id name =>
    simp only at h1 h2 e1 e2
    simp [App.mapPlayer, e1, e2, coalesce, h1, h2]

theorem list_idem (raw : List JSVal) :
    App.list ((App.list raw).map PlayerRef.toJS) = App.list raw := by
  have hkeep : ∀ r ∈ App.list raw, App.mapPlayer r.toJS = r ∧ App.keepPlayer r = true := by
    intro r hr
    have hk : App.keepPlayer r = true := by
      unfold App.list at hr
      exact (List.mem_filter.1 hr).2
    rw [list_eq_filter_map, List.mem_map] at hr
    obtain ⟨p, hp, rfl⟩ := hr
    have hret : retained p = true := (List.mem_filter.1 hp).2
    refine ⟨?_, hk⟩
    apply mapPlayer_toJS
    · have := hk
      simp only [App.keepPlayer, Bool.and_eq_true, Bool.not_eq_true'] at this
      exact this.1
    · rw [mapPlayer_name]
      unfold retained at hret
      cases hn : resolvedName p with
      | none => simp [hn] at hret
      | some w => simpa using firstNonNull_not_nullish hn
  generalize App.list raw = l at hkeep
  induction l with
  | nil => rfl
  | cons r rs ih =>
    have hr := hkeep r (List.mem_cons_self _ _)
    have ih2 := ih fun x hx => hkeep x (List.mem_cons_of_mem _ hx)
    unfold App.list at ih2 ⊢
    simp only [List.map_cons, List.filter_cons, hr.1, hr.2, if_true, ih2]

theorem chart3Vals_getD (games : List GameRecord) (j : Nat) (hj : j < games.length) :
    (chart3Vals games).getD j null
      = if (games[j]).fg_pct.isNullish then null else (games[j]).fg_pct := by
  simp [chart3Vals, List.getD_eq_getElem?_getD, hj]

theorem rollingAvg_eq_window (vals : List JSVal) (i : Nat) :
    rollingAvg vals i =
      (if ((rollingWindow vals i).filter fun x => !x.isNullish).length ≠ 0 then
        (sumFrom (num 0) ((rollingWindow vals i).filter fun x => !x.isNullish)).bind fun s =>
          s.divLen ((rollingWindow vals i).filter fun x => !x.isNullish).length
      else some null) := rfl

theorem rollingWindow_congr (g1 g2 : List GameRecord) (hlen : g1.length = g2.length) (i : Nat)
    (hi : i < g1.length)
    (hagree : ∀ (j : Nat) (h1 : j < g1.length) (h2 : j < g2.length), i - 2 ≤ j → j ≤ i →
      (g1[j]).fg_pct = (g2[j]).fg_pct) :
    rollingWindow (chart3Vals g1) i = rollingWindow (chart3Vals g2) i := by
  unfold rollingWindow
  rw [slice_eq_map_Ico _ _ _ null (by simp [chart3Vals]; omega),
    slice_eq_map_Ico _ _ _ null (by simp [chart3Vals]; omega)]
  apply List.map_congr_left
  intro j hj
  rw [List.Ico.mem] at hj
  have hj1 : j < g1.length := by omega
  have hj2 : j < g2.length := by omega
  rw [chart3Vals_getD _ _ hj1, chart3Vals_getD _ _ hj2, hagree j hj1 hj2 (by omega) (by omega)]

theorem rollingWindow_length_le (vals : List JSVal) (i : Nat) :
    (rollingWindow vals i).length ≤ 3 := by
  unfold rollingWindow slice
  simp
  omega

theorem chart3Vals_eq_map (games : List GameRecord)
    (hnum : ∀ g ∈ games, g.fg_pct.isNumOrNull = true) :
    chart3Vals games = games.map fun g => g.fg_pct :=
  vals_eq_fg games hnum

theorem gaugeColor_of_label (confidence : JSVal) (h : confidence.truthy = true) :
    ∃ g, ConfidenceGauge confidence = some g ∧
      g.percentage = labelPercentage (confidence.getOwn "label") ∧
      g.gaugeColor = (if g.percentage ≥ 70 then "#34d399"
        else if g.percentage ≥ 40 then "#fbbf24" else "#ff6b6b") := by
  have hclamp : min 100 (max 0 (labelPercentage (confidence.getOwn "label")))
      = labelPercentage (confidence.getOwn "label") := by
    rcases labelPercentage_values (confidence.getOwn "label") with e | e | e <;>
      rw [e] <;> norm_num
  have hg : ConfidenceGauge confidence = some
      { percentage := min 100 (max 0 (labelPercentage (confidence.getOwn "label"))),
        gaugeColor :=
          if min 100 (max 0 (labelPercentage (confidence.getOwn "label"))) ≥ 70 then "#34d399"
          else if min 100 (max 0 (labelPercentage (confidence.getOwn "label"))) ≥ 40 then "#fbbf24"
          else "#ff6b6b" } := by
    simp only [ConfidenceGauge, h, Bool.not_true, Bool.false_eq_true, if_false]
  exact ⟨_, hg, hclamp, rfl⟩

/-! ## The claims on ordering, idempotence, locality and the gauge colour -/

/-- C11: for every array of raw game objects `normalizeGames` returns a sequence of
the same length whose record at index `i` is what `normalizeGames` returns for the
object at index `i` alone: nothing is dropped, duplicated or reordered. -/
theorem normalizeGames_pointwise (gs : List JSVal) (h : ∀ g ∈ gs, g.isObject = true) :
    ∃ l, normalizeGames (arr gs) = .ok l ∧ l.length = gs.length ∧
      ∀ (i : Nat) (hi : i < gs.length),
        ∃ r, l[i]? = some r ∧ normalizeGames (arr [gs[i]]) = .ok [r] := by
  have hn : ∀ g ∈ gs, g.isNullish = false := fun g hg => isNullish_of_isObject (h g hg)
  refine ⟨_, normalizeGames_of_not_nullish gs hn, by simp, ?_⟩
  intro i hi
  refine ⟨normalizedGame gs[i], by simp [hi], ?_⟩
  exact normalizeGames_singleton (hn _ (List.getElem_mem hi))

/-- Witness for C11: three raw game objects using the three date aliases. -/
theorem normalizeGames_pointwise_witness :
    ∃ l, normalizeGames (arr [obj [("date", str "d1"), ("pts", num 10)],
        obj [("game_date", str "d2"), ("fgPct", num (1 / 2))],
        obj [("gameDate", str "d3")]]) = .ok l ∧
      l.length = [obj [("date", str "d1"), ("pts", num 10)],
        obj [("game_date", str "d2"), ("fgPct", num (1 / 2))],
        obj [("gameDate", str "d3")]].length ∧
      ∀ (i : Nat) (hi : i < [obj [("date", str "d1"), ("pts", num 10)],
          obj [("game_date", str "d2"), ("fgPct", num (1 / 2))],
          obj [("gameDate", str "d3")]].length),
        ∃ r, l[i]? = some r ∧
          normalizeGames (arr [[obj [("date", str "d1"), ("pts", num 10)],
            obj [("game_date", str "d2"), ("fgPct", num (1 / 2))],
            obj [("gameDate", str "d3")]][i]]) = .ok [r] :=
  normalizeGames_pointwise _ (by
    intro g hg
    simp only [List.mem_cons, List.mem_singleton, List.not_mem_nil, or_false] at hg
    rcases hg with rfl | rfl | rfl <;> rfl)

/-- C12: normalisation is idempotent. For every array of raw game objects, applying
`normalizeGames` to the records it returned gives the same records; for every players
payload, applying the Dashboard players normalisation to its own output gives the
same list. -/
theorem normalization_idempotent :
    (∀ gs : List JSVal, (∀ g ∈ gs, g.isObject = true) →
      ∃ l, normalizeGames (arr gs) = .ok l ∧
        normalizeGames (arr (l.map GameRecord.toJS)) = .ok l) ∧
    (∀ data : JSVal,
      ∃ l, App.normalizePlayers data = .ok l ∧
        App.normalizePlayers (arr (l.map PlayerRef.toJS)) = .ok l) := by
  constructor
  · intro gs h
    have hn : ∀ g ∈ gs, g.isNullish = false := fun g hg => isNullish_of_isObject (h g hg)
    exact ⟨_, normalizeGames_of_not_nullish gs hn, normalizeGames_idem gs⟩
  · intro data
    refine ⟨_, normalizePlayers_eq data, ?_⟩
    rw [normalizePlayers_eq]
    simp only [payloadItems]
    rw [list_idem]

/-- Witness for C12: a game with aliased fields and the players payload
`{players: [{id: 7, name: "A"}, null]}`. -/
theorem normalization_idempotent_witness :
    (∃ l, normalizeGames (arr [obj [("gameDate", str "d1"), ("fgPct", num (1 / 2))]]) = .ok l ∧
      normalizeGames (arr (l.map GameRecord.toJS)) = .ok l) ∧
    (∃ l, App.normalizePlayers
        (obj [("players", arr [obj [("id", num 7), ("name", str "A")], null])]) = .ok l ∧
      App.normalizePlayers (arr (l.map PlayerRef.toJS)) = .ok l) :=
  ⟨normalization_idempotent.1 _ (by
      intro g hg
      simp only [List.mem_singleton] at hg
      rw [hg]
      rfl),
   normalization_idempotent.2 _⟩

/-- C13: the rolling value at index `i` depends only on the `fg_pct` values at the
indices `max(0, i-2) .. i`: two game sequences of the same length that agree there
have the same rolling value at `i` (for the value computed by the callback, and for
the entries of `chart3Data` when the `fg_pct` fields are numbers or null); the window
never holds more than 3 entries: index 0 uses index 0, index 2 uses 0..2, index 5
uses 3..5. -/
theorem rolling_window_locality :
    (∀ (g1 g2 : List GameRecord) (i : Nat), g1.length = g2.length → i < g1.length →
      (∀ (j : Nat) (h1 : j < g1.length) (h2 : j < g2.length), i - 2 ≤ j → j ≤ i →
        (g1[j]).fg_pct = (g2[j]).fg_pct) →
      rollingAvg (chart3Vals g1) i = rollingAvg (chart3Vals g2) i) ∧
    (∀ (g1 g2 : List GameRecord) (i : Nat), g1.length = g2.length → i < g1.length →
      (∀ (j : Nat) (h1 : j < g1.length) (h2 : j < g2.length), i - 2 ≤ j → j ≤ i →
        (g1[j]).fg_pct = (g2[j]).fg_pct) →
      (∀ g ∈ g1, g.fg_pct.isNumOrNull = true) → (∀ g ∈ g2, g.fg_pct.isNumOrNull = true) →
      ∃ o1 o2 p1 p2, chart3Data g1 = some o1 ∧ chart3Data g2 = some o2 ∧
        o1[i]? = some p1 ∧ o2[i]? = some p2 ∧ p1.fg_pct_roll = p2.fg_pct_roll) ∧
    (∀ (vals : List JSVal) (i : Nat), (rollingWindow vals i).length ≤ 3) ∧
    (∀ (v0 v1 v2 v3 v4 v5 : JSVal) (rest : List JSVal),
      rollingWindow (v0 :: v1 :: v2 :: v3 :: v4 :: v5 :: rest) 0 = [v0] ∧
      rollingWindow (v0 :: v1 :: v2 :: v3 :: v4 :: v5 :: rest) 2 = [v0, v1, v2] ∧
      rollingWindow (v0 :: v1 :: v2 :: v3 :: v4 :: v5 :: rest) 5 = [v3, v4, v5]) := by
  have hloc : ∀ (g1 g2 : List GameRecord) (i : Nat), g1.length = g2.length → i < g1.length →
      (∀ (j : Nat) (h1 : j < g1.length) (h2 : j < g2.length), i - 2 ≤ j → j ≤ i →
        (g1[j]).fg_pct = (g2[j]).fg_pct) →
      rollingAvg (chart3Vals g1) i = rollingAvg (chart3Vals g2) i := by
    intro g1 g2 i hlen hi hagree
    rw [rollingAvg_eq_window, rollingAvg_eq_window, rollingWindow_congr g1 g2 hlen i hi hagree]
  refine ⟨hloc, ?_, rollingWindow_length_le, ?_⟩
  · intro g1 g2 i hlen hi hagree hn1 hn2
    have hi2 : i < g2.length := by omega
    have hne1 : g1 ≠ [] := by
      intro h0
      rw [h0] at hi
      exact Nat.not_lt_zero _ hi
    have hne2 : g2 ≠ [] := by
      intro h0
      rw [h0] at hi2
      exact Nat.not_lt_zero _ hi2
    have hall : ∀ (g : List GameRecord), (∀ x ∈ g, x.fg_pct.isNumOrNull = true) →
        ∀ v ∈ (g.map fun x => x.fg_pct), v.isNumOrNull = true := by
      intro g hg v hv
      obtain ⟨x, hx, rfl⟩ := List.mem_map.1 hv
      exact hg x hx
    have hr : rollingMean (g1.map fun g => g.fg_pct) i = rollingMean (g2.map fun g => g.fg_pct) i := by
      have e := hloc g1 g2 i hlen hi hagree
      rw [chart3Vals_eq_map g1 hn1, chart3Vals_eq_map g2 hn2,
        rollingAvg_eq _ (hall g1 hn1) i (by simpa using hi),
        rollingAvg_eq _ (hall g2 hn2) i (by simpa using hi2)] at e
      exact Option.some.inj e
    refine ⟨_, _,
      { date := (g1[i]).date, fg_pct := (g1[i]).fg_pct,
        fg_pct_roll := rollingMean (g1.map fun g => g.fg_pct) i },
      { date := (g2[i]).date, fg_pct := (g2[i]).fg_pct,
        fg_pct_roll := rollingMean (g2.map fun g => g.fg_pct) i },
      chart3Data_eq g1 hne1 hn1, chart3Data_eq g2 hne2 hn2, ?_, ?_, hr⟩
    · simp [List.getElem?_map, List.getElem?_enum, hi]
    · simp [List.getElem?_map, List.getElem?_enum, hi2]
  · intro v0 v1 v2 v3 v4 v5 rest
    exact ⟨rfl, rfl, rfl⟩

/-- Witness for C13: six games and a copy whose first game has another `fg_pct` agree
on the window 3..5 of index 5, hence have the same rolling value there. -/
theorem rolling_window_locality_witness :
    rollingAvg (chart3Vals (sampleGames ++ sampleGames)) 5
      = rollingAvg (chart3Vals
          ({ date := str "2023-12-30", pts := null, min := null, fg_pct := num 1 } ::
            (sampleGames.drop 1 ++ sampleGames))) 5 :=
  rolling_window_locality.1 (sampleGames ++ sampleGames)
    ({ date := str "2023-12-30", pts := null, min := null, fg_pct := num 1 } ::
      (sampleGames.drop 1 ++ sampleGames)) 5
    (by simp [sampleGames]) (by simp [sampleGames]) (by
      intro j h1 h2 h3 h4
      have hj : j = 3 ∨ j = 4 ∨ j = 5 := by omega
      rcases hj with rfl | rfl | rfl <;> rfl)

/-- C14: for every truthy confidence value the gauge colour follows the percentage by
the thresholds `>= 70` (`#34d399`), `>= 40` (`#fbbf24`), else `#ff6b6b`; with the label
table this is `#34d399` exactly for label "Large", `#fbbf24` exactly for "Medium"
and `#ff6b6b` for every other label. -/
theorem ConfidenceGauge_color (confidence : JSVal) (h : confidence.truthy = true) :
    ∃ g, ConfidenceGauge confidence = some g ∧
      g.gaugeColor = (if g.percentage ≥ 70 then "#34d399"
        else if g.percentage ≥ 40 then "#fbbf24" else "#ff6b6b") ∧
      (g.gaugeColor = "#34d399" ↔ confidence.getOwn "label" = str "Large") ∧
      (g.gaugeColor = "#fbbf24" ↔ confidence.getOwn "label" = str "Medium") ∧
      (g.gaugeColor = "#ff6b6b" ↔
        (confidence.getOwn "label" ≠ str "Large" ∧ confidence.getOwn "label" ≠ str "Medium")) := by
  obtain ⟨g, hg, hp, hc⟩ := gaugeColor_of_label confidence h
  obtain ⟨a, b, c⟩ := labelPercentage_cases (confidence.getOwn "label")
  refine ⟨g, hg, hc, ?_⟩
  by_cases hL : confidence.getOwn "label" = str "Large"
  · have hcol : g.gaugeColor = "#34d399" := by
      rw [hc, hp, a hL]
      norm_num
    rw [hcol, hL]
    simp
  · by_cases hM : confidence.getOwn "label" = str "Medium"
    · have hcol : g.gaugeColor = "#fbbf24" := by
        rw [hc, hp, b hM]
        norm_num
      rw [hcol, hM]
      simp
    · have hcol : g.gaugeColor = "#ff6b6b" := by
        rw [hc, hp, c hL hM]
        norm_num
      rw [hcol]
      simp [hL, hM]

/-- Witness for C14: the confidence object `{label: "Medium", band: 4}` gets the
colour `#fbbf24`. -/
theorem ConfidenceGauge_color_witness :
    ∃ g, ConfidenceGauge (obj [("label", str "Medium"), ("band", num 4)]) = some g ∧
      g.gaugeColor = "#fbbf24" :=
  match ConfidenceGauge_color (obj [("label", str "Medium"), ("band", num 4)]) rfl with
  | ⟨g, hg, _, _, hm, _⟩ => ⟨g, hg, hm.2 (by simp [getOwn, List.lookup])⟩

/-! ## The stat breakdown -/

theorem StatBreakdown_nums (p m : ℚ) (hp : p ≠ 0) (hm : m ≠ 0) :
    StatBreakdown (num p) (num m) = some (some
      [{ label := "Model Base", value := m, color := "#60a5fa", width := 40,
         barWidth := m / p * 100 },
       { label := "Form Adjustment", value := |p - m|,
         color := if p - m > 0 then "#34d399" else "#ff6b6b", width := 20,
         barWidth := |p - m| / p * 100 }]) := by
  simp [StatBreakdown, truthy, hp, hm, allSome, quotient]

theorem StatBreakdown_zero_prediction (modelPrediction : JSVal) :
    StatBreakdown (num 0) modelPrediction = some none := by
  simp [StatBreakdown, truthy]

theorem StatBreakdown_zero_model (p : ℚ) : StatBreakdown (num p) (num 0) = some none := by
  simp [StatBreakdown, truthy]

/-- C15 fails as stated: when `predicted = modelBase` the adjustment is coloured
`#ff6b6b`, the colour of a negative adjustment; the direction has two cases, not
three. -/
theorem StatBreakdown_zero_shown_as_negative :
    ∃ b1 a1 b2 a2,
      StatBreakdown (num 20) (num 20) = some (some [b1, a1]) ∧
      StatBreakdown (num 19) (num 20) = some (some [b2, a2]) ∧
      a1.color = "#ff6b6b" ∧ a2.color = "#ff6b6b" ∧ a1.color = a2.color := by
  refine ⟨_, _, _, _, StatBreakdown_nums 20 20 (by norm_num) (by norm_num),
    StatBreakdown_nums 19 20 (by norm_num) (by norm_num), ?_, ?_, ?_⟩ <;> norm_num

/-- C15 amended: when the breakdown is shown (both numbers are not zero) the base
share is `modelBase`, the adjustment share is `|predicted - modelBase|`, and the
adjustment colour has two cases: `#34d399` when `predicted > modelBase`, `#ff6b6b`
when `predicted <= modelBase` (zero is shown as negative). -/
theorem StatBreakdown_shares (p m : ℚ) (hp : p ≠ 0) (hm : m ≠ 0) :
    ∃ base adj, StatBreakdown (num p) (num m) = some (some [base, adj]) ∧
      base.value = m ∧ adj.value = |p - m| ∧
      (m < p → adj.color = "#34d399") ∧ (p ≤ m → adj.color = "#ff6b6b") := by
  refine ⟨_, _, StatBreakdown_nums p m hp hm, rfl, rfl, ?_, ?_⟩
  · intro h
    have : p - m > 0 := by linarith
    simp [this]
  · intro h
    have : ¬ (p - m > 0) := by
      intro h2
      linarith
    simp only [this, if_false]

/-- Witness for C15 amended: prediction 25 over a model base of 20. -/
theorem StatBreakdown_shares_witness :
    ∃ base adj, StatBreakdown (num 25) (num 20) = some (some [base, adj]) ∧
      base.value = 20 ∧ adj.value = 5 ∧ adj.color = "#34d399" := by
  obtain ⟨base, adj, h, h1, h2, h3, _⟩ :=
    StatBreakdown_shares 25 20 (by norm_num) (by norm_num)
  refine ⟨base, adj, h, h1, ?_, h3 (by norm_num)⟩
  rw [h2]
  norm_num

/-- C16 fails as stated: with `predicted = 0` the component returns `null`, so no
bar exists whose width could be 0%. -/
theorem StatBreakdown_zero_prediction_renders_nothing :
    StatBreakdown (num 0) (num 20) = some none ∧
    ¬ ∃ fs, StatBreakdown (num 0) (num 20) = some (some fs) := by
  have h := StatBreakdown_zero_prediction (num 20)
  refine ⟨h, ?_⟩
  rintro ⟨fs, hfs⟩
  rw [h] at hfs
  exact Option.noConfusion (Option.some.inj hfs)

/-- C16 amended: for every model base, a prediction of 0 makes `StatBreakdown` render
nothing; for all numbers the component never divides by zero: it ends inside the
modelled numbers, and whenever bars are rendered the prediction is not zero and
every bar width is `value / predicted * 100`. -/
theorem StatBreakdown_no_zero_division :
    (∀ modelBase : JSVal, StatBreakdown (num 0) modelBase = some none) ∧
    (∀ p m : ℚ, ∃ r, StatBreakdown (num p) (num m) = some r ∧
      ∀ fs, r = some fs → p ≠ 0 ∧ ∀ f ∈ fs, f.barWidth = f.value / p * 100) := by
  refine ⟨StatBreakdown_zero_prediction, ?_⟩
  intro p m
  by_cases hp : p = 0
  · subst hp
    exact ⟨_, StatBreakdown_zero_prediction (num m), fun fs h => Option.noConfusion h⟩
  · by_cases hm : m = 0
    · subst hm
      exact ⟨_, StatBreakdown_zero_model p, fun fs h => Option.noConfusion h⟩
    · refine ⟨_, StatBreakdown_nums p m hp hm, ?_⟩
      intro fs h
      have h2 := Option.some.inj h
      subst h2
      refine ⟨hp, ?_⟩
      intro f hf
      simp only [List.mem_cons, List.mem_singleton, List.not_mem_nil, or_false] at hf
      rcases hf with rfl | rfl <;> rfl

/-- Witness for C16 amended: prediction 25 over a model base of 20 renders bars whose
widths are quotients by 25. -/
theorem StatBreakdown_no_zero_division_witness :
    ∃ r, StatBreakdown (num 25) (num 20) = some r ∧
      ∀ fs, r = some fs → (25 : ℚ) ≠ 0 ∧ ∀ f ∈ fs, f.barWidth = f.value / 25 * 100 :=
  StatBreakdown_no_zero_division.2 25 20

/-! ## The charts gate and the recent-games fetch -/

theorem normalizedGame_pts_numOrNull {g : JSVal} (h : (g.getOwn "pts").isNumOrMissing = true) :
    (normalizedGame g).pts.isNumOrNull = true := by
  unfold normalizedGame firstNonNull
  cases hv : g.getOwn "pts" <;> simp_all [isNumOrMissing, isNullish, isNumOrNull, List.find?]

theorem normalizedGame_min_numOrNull {g : JSVal} (h : (g.getOwn "min").isNumOrMissing = true) :
    (normalizedGame g).min.isNumOrNull = true := by
  unfold normalizedGame firstNonNull
  cases hv : g.getOwn "min" <;> simp_all [isNumOrMissing, isNullish, isNumOrNull, List.find?]

theorem fetchRecentDone_ok (s : DashState) (status : Nat) (gs : List JSVal)
    (hs : statusOk status = true) (hne : gs ≠ [])
    (hobj : ∀ g ∈ gs, g.isObject = true)
    (hpts : ∀ g ∈ gs, (g.getOwn "pts").isNumOrMissing = true)
    (hmin : ∀ g ∈ gs, (g.getOwn "min").isNumOrMissing = true) :
    ∃ sm, computeFormSummary (gs.map normalizedGame) = some sm ∧
      (∃ q, sm.avg_pts_5 = num q) ∧
      fetchRecentDone s (.response status (.ok (arr gs))) = some
        { s with recentGames := gs.map normalizedGame, summary := sm.toJS,
                 recentAvgPoints := sm.avg_pts_5, gamesLoading := false } := by
  have hn : ∀ g ∈ gs, g.isNullish = false := fun g hg => isNullish_of_isObject (hobj g hg)
  have hne2 : gs.map normalizedGame ≠ [] := by simpa using hne
  have hlen : 0 < (gs.map normalizedGame).length := List.length_pos.2 hne2
  have hsum := computeFormSummary_eq (gs.map normalizedGame) hne2
    (by
      intro r hr
      obtain ⟨g, hg, rfl⟩ := List.mem_map.1 hr
      exact normalizedGame_pts_numOrNull (hpts g hg))
    (by
      intro r hr
      obtain ⟨g, hg, rfl⟩ := List.mem_map.1 hr
      exact normalizedGame_min_numOrNull (hmin g hg))
  refine ⟨_, hsum, ⟨_, rfl⟩, ?_⟩
  simp only [fetchRecentDone, hs, Bool.not_true, Bool.false_eq_true, if_false,
    normalizeGames_of_not_nullish gs hn, gt_iff_lt, hlen, if_true, hsum, Option.map_some']

theorem chartsSection_selected (s : DashState) (h : s.selectedPlayerId.truthy = true) :
    (chartsSection s = .charts ↔ 5 ≤ s.recentGames.length) ∧
    (chartsSection s = .needMoreGames ↔ s.recentGames.length < 5) := by
  unfold chartsSection hasEnoughGames
  by_cases h5 : 5 ≤ s.recentGames.length
  · simp [h, h5]
  · simp [h, h5]
    omega

/-- C17: with a player selected the charts section shows the charts exactly when the
recent games hold at least 5 entries and the message "Need at least 5 games for
charts." exactly when they hold fewer; a successful recent-games fetch returning 6
game objects (numeric fields numbers or missing) stores 6 records, enables the charts
and computes a number for `avg_pts_5`. -/
theorem charts_gate :
    (∀ s : DashState, s.selectedPlayerId.truthy = true →
      (chartsSection s = .charts ↔ 5 ≤ s.recentGames.length) ∧
      (chartsSection s = .needMoreGames ↔ s.recentGames.length < 5)) ∧
    (∀ (s : DashState) (status : Nat) (gs : List JSVal), statusOk status = true →
      gs.length = 6 → (∀ g ∈ gs, g.isObject = true) →
      (∀ g ∈ gs, (g.getOwn "pts").isNumOrMissing = true) →
      (∀ g ∈ gs, (g.getOwn "min").isNumOrMissing = true) →
      ∃ s2, fetchRecentDone s (.response status (.ok (arr gs))) = some s2 ∧
        s2.selectedPlayerId = s.selectedPlayerId ∧
        s2.recentGames.length = 6 ∧ hasEnoughGames s2.recentGames = true ∧
        (∃ q, s2.summary.getOwn "avg_pts_5" = num q) ∧
        (s.selectedPlayerId.truthy = true → chartsSection s2 = .charts)) := by
  refine ⟨chartsSection_selected, ?_⟩
  intro s status gs hs hlen hobj hpts hmin
  have hne : gs ≠ [] := by
    intro h0
    rw [h0] at hlen
    exact absurd hlen (by decide)
  obtain ⟨sm, -, ⟨q, hq⟩, hdone⟩ := fetchRecentDone_ok s status gs hs hne hobj hpts hmin
  refine ⟨_, hdone, rfl, by simp [hlen], by simp [hasEnoughGames, hlen], ⟨q, ?_⟩, ?_⟩
  · simp [Summary.toJS, getOwn, List.lookup, hq]
  · intro hsel
    simp [chartsSection, hasEnoughGames, hlen, hsel]

/-- Witness for C17: the players payload `[{player_id: 1, player_name: "X"}]`, the
selection of player 1 and a recent-games response with six game objects: the charts
are shown and `avg_pts_5` is a number. -/
theorem charts_gate_witness :
    App.normalizePlayers (arr [obj [("player_id", num 1), ("player_name", str "X")]])
      = .ok [{ player_id := num 1, player_name := str "X" }] ∧
    ∃ s2, fetchRecentDone
        (selectPlayer { DashState.initial with
          players := [{ player_id := num 1, player_name := str "X" }] } (str "1"))
        (.response 200 (.ok (arr sixRawGames))) = some s2 ∧
      chartsSection s2 = .charts ∧ ∃ q, s2.summary.getOwn "avg_pts_5" = num q := by
  refine ⟨rfl, ?_⟩
  obtain ⟨s2, h1, h2, _, _, h5, h6⟩ := charts_gate.2
    (selectPlayer { DashState.initial with
      players := [{ player_id := num 1, player_name := str "X" }] } (str "1"))
    200 sixRawGames (by decide) rfl
    (by
      intro g hg
      simp only [sixRawGames, List.mem_cons, List.mem_singleton, List.not_mem_nil, or_false] at hg
      rcases hg with rfl | rfl | rfl | rfl | rfl | rfl <;> rfl)
    (by
      intro g hg
      simp only [sixRawGames, List.mem_cons, List.mem_singleton, List.not_mem_nil, or_false] at hg
      rcases hg with rfl | rfl | rfl | rfl | rfl | rfl <;> rfl)
    (by
      intro g hg
      simp only [sixRawGames, List.mem_cons, List.mem_singleton, List.not_mem_nil, or_false] at hg
      rcases hg with rfl | rfl | rfl | rfl | rfl | rfl <;> rfl)
  exact ⟨s2, h1, h6 (by rfl), h5⟩

/-! ## The prediction request -/

theorem requestFailed_ne_empty (status : Nat) : requestFailed status ≠ "" := by
  intro h
  have hl := congrArg String.length h
  simp only [requestFailed, String.length_append] at hl
  have h16 : "Request failed: ".length = 16 := by decide
  have h0 : "".length = 0 := by decide
  omega

theorem messageOr_of_ne_empty {m : String} (h : m ≠ "") (d : String) : messageOr m d = m := by
  simp [messageOr, h]

theorem onPredict_not_ok (s : DashState) (playerId : JSVal) (isSecondary : Bool)
    (teamMap : JSVal → Option (List (String × JSVal))) (status : Nat)
    (body : Except String JSVal) (hid : playerId.truthy = true)
    (hs : statusOk status = false) :
    onPredict s playerId isSecondary teamMap (.response status body)
      = { s with predictError := some (requestFailed status), predictLoading := false } := by
  simp [onPredict, onPredictBody, hid, hs, messageOr_of_ne_empty (requestFailed_ne_empty status)]

/-- C18 fails as stated: a Dashboard holding the prediction 25 of a previous player
still holds 25, not `null`, after the prediction request for player "2" ends with
HTTP 500. -/
theorem stale_prediction_after_failed_request :
    (onPredict { DashState.initial with selectedPlayerId := str "2", prediction := num 25 }
      (str "2") false TEAM_MAP
      (.response 500 (.ok (obj [("detail", str "Internal Server Error")])))).prediction
      = num 25 ∧
    (onPredict { DashState.initial with selectedPlayerId := str "2", prediction := num 25 }
      (str "2") false TEAM_MAP
      (.response 500 (.ok (obj [("detail", str "Internal Server Error")])))).prediction
      ≠ null := by
  rw [onPredict_not_ok _ (str "2") false TEAM_MAP 500 _ rfl (by decide)]
  exact ⟨rfl, fun h => JSVal.noConfusion h⟩

/-- C18 amended: for every Dashboard state, a primary prediction request that ends
with a status outside 200-299 leaves `predictError` set to the non-empty message
"Request failed: <status>", `predictLoading` false and the prediction state
unchanged: `null` when no prediction was held before, the previous value
otherwise. -/
theorem onPredict_failure (s : DashState) (playerId : JSVal)
    (teamMap : JSVal → Option (List (String × JSVal))) (status : Nat)
    (body : Except String JSVal) (hid : playerId.truthy = true)
    (hs : statusOk status = false) :
    (onPredict s playerId false teamMap (.response status body)).predictError
      = some (requestFailed status) ∧
    requestFailed status ≠ "" ∧
    (onPredict s playerId false teamMap (.response status body)).predictLoading = false ∧
    (onPredict s playerId false teamMap (.response status body)).prediction = s.prediction ∧
    (s.prediction = null →
      (onPredict s playerId false teamMap (.response status body)).prediction = null) := by
  rw [onPredict_not_ok s playerId false teamMap status body hid hs]
  exact ⟨rfl, requestFailed_ne_empty status, rfl, rfl, fun h => h⟩

/-- Witness for C18 amended: the first prediction request of a session ends with
HTTP 500. -/
theorem onPredict_failure_witness :
    (onPredict { DashState.initial with selectedPlayerId := str "2" } (str "2") false TEAM_MAP
      (.response 500 (.error "Unexpected token"))).predictError = some (requestFailed 500) ∧
    (onPredict { DashState.initial with selectedPlayerId := str "2" } (str "2") false TEAM_MAP
      (.response 500 (.error "Unexpected token"))).prediction = null :=
  match onPredict_failure { DashState.initial with selectedPlayerId := str "2" } (str "2")
    TEAM_MAP 500 (.error "Unexpected token") rfl (by decide) with
  | ⟨h1, _, _, _, h5⟩ => ⟨h1, h5 rfl⟩

/-! ## Team details -/

theorem lookup_append_fields (ov base : List (String × JSVal)) (k : String) :
    (ov ++ base).lookup k = (ov.lookup k).orElse fun _ => base.lookup k := by
  induction ov with
  | nil => simp [List.lookup]
  | cons kv ov ih =>
    obtain ⟨k2, v⟩ := kv
    by_cases h : k = k2
    · subst h
      simp [List.lookup]
    · have hb : (k == k2) = false := by simpa using h
      simp [List.lookup, hb, ih]

theorem getOwn_append (ov base : List (String × JSVal)) (k : String) :
    (obj (ov ++ base)).getOwn k =
      match ov.lookup k with
      | some v => v
      | none => (obj base).getOwn k := by
  simp only [getOwn, lookup_append_fields]
  cases ov.lookup k <;> simp

theorem findThrow_eq_findPlayer (players : List JSVal) (playerId : JSVal)
    (hp : ∀ p ∈ players, p.isNullish = false) :
    findThrow (matchesPlayer playerId) players
      = .ok ((findPlayer players playerId).getD undefined) := by
  induction players with
  | nil => rfl
  | cons p ps ih =>
    have hp1 := hp p (List.mem_cons_self _ _)
    have ih2 := ih fun q hq => hp q (List.mem_cons_of_mem _ hq)
    unfold findThrow findPlayer
    simp only [matchesPlayer, getProp_not_nullish hp1, List.find?_cons]
    cases hb : (p.getOwn "player_id").strictEq playerId
    · simp only
      rw [ih2]
      rfl
    · simp

theorem truthy_of_found {players : List JSVal} {playerId p : JSVal}
    (hid : playerId.truthy = true) (h : findPlayer players playerId = some p) :
    p.truthy = true := by
  have hfound := List.find?_some h
  cases p with
  | obj fields => rfl
  | _ =>
    all_goals
      simp only [getOwn] at hfound
      cases playerId <;> simp_all [JSVal.strictEq, truthy]

theorem truthy_null : (null : JSVal).truthy = false := rfl

theorem truthy_obj (fields : List (String × JSVal)) : (obj fields).truthy = true := rfl

theorem teamBlock_of_fallback (data : JSVal) (players : List JSVal) (playerId : JSVal)
    (mapped : Option (List (String × JSVal))) (hd : data.isNullish = false) (td : JSVal)
    (h : playerFallback (apiRecord (teamSrc data)) players playerId = .ok td) :
    teamBlock data players playerId mapped = .ok (orNullRecord (applyOverride td mapped)) := by
  unfold teamSrc at h
  simp only [teamBlock, getProp_not_nullish hd, h]

theorem override_obj (fields : List (String × JSVal)) (mapped : Option (List (String × JSVal))) :
    orNullRecord (applyOverride (obj fields) mapped) = obj (mapped.getD [] ++ fields) := by
  cases mapped <;>
    simp [applyOverride, orNullRecord, spreadFields, JSVal.or, truthy_obj]

theorem override_null (mapped : Option (List (String × JSVal))) :
    orNullRecord (applyOverride null mapped)
      = obj (match mapped with
          | some m => m
          | none => nullTeamFields) := by
  cases mapped <;>
    simp [applyOverride, orNullRecord, spreadFields, JSVal.or, truthy_obj, truthy_null]

theorem teamBlock_api (data : JSVal) (players : List JSVal) (playerId : JSVal)
    (mapped : Option (List (String × JSVal))) (hd : data.isNullish = false)
    (hany : (apiTeamFields (teamSrc data)).any (fun kv => kv.2.truthy) = true) :
    teamBlock data players playerId mapped
      = .ok (obj (mapped.getD [] ++ apiTeamFields (teamSrc data))) := by
  have h1 : apiRecord (teamSrc data) = obj (apiTeamFields (teamSrc data)) := by
    simp only [apiRecord, hany, if_true]
  have h2 : playerFallback (apiRecord (teamSrc data)) players playerId
      = .ok (obj (apiTeamFields (teamSrc data))) := by
    rw [h1]
    simp [playerFallback, truthy_obj]
  rw [teamBlock_of_fallback data players playerId mapped hd _ h2, override_obj]

theorem teamBlock_player (data : JSVal) (players : List JSVal) (playerId : JSVal)
    (mapped : Option (List (String × JSVal))) (hd : data.isNullish = false)
    (hp : ∀ p ∈ players, p.isNullish = false) (hid : playerId.truthy = true)
    (hany : (apiTeamFields (teamSrc data)).any (fun kv => kv.2.truthy) = false)
    (p : JSVal) (hfound : findPlayer players playerId = some p) :
    teamBlock data players playerId mapped
      = .ok (obj (mapped.getD [] ++ playerTeamFields p)) := by
  have hpt := truthy_of_found hid hfound
  have hor : JSVal.or p null = p := by simp only [JSVal.or, hpt, if_true]
  have h1 : apiRecord (teamSrc data) = null := by
    simp only [apiRecord, hany, Bool.false_eq_true, if_false]
  have h2 : playerFallback (apiRecord (teamSrc data)) players playerId
      = .ok (obj (playerTeamFields p)) := by
    rw [h1]
    simp only [playerFallback, truthy_null, Bool.not_false, if_true,
      findThrow_eq_findPlayer players playerId hp, hfound, Option.getD_some, hor, hpt]
  rw [teamBlock_of_fallback data players playerId mapped hd _ h2, override_obj]

theorem teamBlock_none (data : JSVal) (players : List JSVal) (playerId : JSVal)
    (mapped : Option (List (String × JSVal))) (hd : data.isNullish = false)
    (hp : ∀ p ∈ players, p.isNullish = false)
    (hany : (apiTeamFields (teamSrc data)).any (fun kv => kv.2.truthy) = false)
    (hfound : findPlayer players playerId = none) :
    teamBlock data players playerId mapped
      = .ok (obj (match mapped with
          | some m => m
          | none => nullTeamFields)) := by
  have hor : JSVal.or undefined null = null := rfl
  have h1 : apiRecord (teamSrc data) = null := by
    simp only [apiRecord, hany, Bool.false_eq_true, if_false]
  have h2 : playerFallback (apiRecord (teamSrc data)) players playerId = .ok null := by
    rw [h1]
    simp only [playerFallback, truthy_null, Bool.not_false, if_true,
      findThrow_eq_findPlayer players playerId hp, hfound, Option.getD_none, hor,
      Bool.false_eq_true, if_false]
  rw [teamBlock_of_fallback data players playerId mapped hd _ h2, override_null]

theorem apiRecord_cases (src : JSVal) :
    (∃ fields, apiRecord src = obj fields) ∨ apiRecord src = null := by
  unfold apiRecord
  split
  · exact Or.inl ⟨_, rfl⟩
  · exact Or.inr rfl

theorem playerFallback_cases (td : JSVal) (players : List JSVal) (playerId : JSVal)
    (htd : (∃ fields, td = obj fields) ∨ td = null) (td1 : JSVal)
    (h : playerFallback td players playerId = .ok td1) :
    (∃ fields, td1 = obj fields) ∨ td1 = null := by
  rcases htd with ⟨fields, rfl⟩ | rfl
  · simp only [playerFallback, truthy_obj, Bool.not_true, Bool.false_eq_true, if_false] at h
    exact Or.inl ⟨fields, (Except.ok.inj h).symm⟩
  · simp only [playerFallback, truthy_null, Bool.not_false, if_true] at h
    cases hf : findThrow (matchesPlayer playerId) players with
    | error e =>
      rw [hf] at h
      exact Except.noConfusion h
    | ok found =>
      rw [hf] at h
      have h2 := (Except.ok.inj h).symm
      by_cases hp : (JSVal.or found null).truthy = true
      · simp only [hp, if_true] at h2
        exact Or.inl ⟨_, h2⟩
      · simp only [hp, if_false] at h2
        exact Or.inr h2

theorem override_isObject (td : JSVal) (mapped : Option (List (String × JSVal)))
    (htd : (∃ fields, td = obj fields) ∨ td = null) :
    ∃ fields, orNullRecord (applyOverride td mapped) = obj fields := by
  rcases htd with ⟨fields, rfl⟩ | rfl
  · exact ⟨_, override_obj fields mapped⟩
  · exact ⟨_, override_null mapped⟩

theorem teamDetailsFor_isObject (data : JSVal) (players : List JSVal) (playerId : JSVal)
    (mapped : Option (List (String × JSVal))) :
    ∃ fields, teamDetailsFor data players playerId mapped = obj fields := by
  unfold teamDetailsFor
  cases hb : teamBlock data players playerId mapped with
  | error e => exact ⟨_, rfl⟩
  | ok td =>
    simp only
    unfold teamBlock at hb
    cases hg : data.getProp "team" with
    | error e =>
      rw [hg] at hb
      exact Except.noConfusion hb
    | ok team =>
      rw [hg] at hb
      simp only at hb
      cases hf : playerFallback (apiRecord (JSVal.or team data)) players playerId with
      | error e =>
        rw [hf] at hb
        exact Except.noConfusion hb
      | ok td1 =>
        rw [hf] at hb
        simp only at hb
        have h2 := (Except.ok.inj hb).symm
        rw [h2]
        exact override_isObject td1 mapped
          (playerFallback_cases _ players playerId (apiRecord_cases _) td1 hf)

theorem teamDetailsFor_of_block {data : JSVal} {players : List JSVal} {playerId : JSVal}
    {mapped : Option (List (String × JSVal))} {td : JSVal}
    (h : teamBlock data players playerId mapped = .ok td) :
    teamDetailsFor data players playerId mapped = td := by
  simp only [teamDetailsFor, h]

theorem onPredict_success_teamDetails (s : DashState) (playerId : JSVal)
    (teamMap : JSVal → Option (List (String × JSVal))) (status : Nat) (data : JSVal)
    (hid : playerId.truthy = true) (hs : statusOk status = true)
    (hd : data.isNullish = false)
    (hg : ∀ g gs, data.getOwn "recent_games" = arr (g :: gs) →
      ∀ x ∈ g :: gs, x.isNullish = false) :
    (onPredict s playerId false teamMap (.response status (.ok data))).teamDetails
      = teamDetailsFor data (s.players.map PlayerRef.toJS) playerId (teamMap playerId) := by
  simp only [onPredict, onPredictBody, hid, hs, hd, Bool.not_true, Bool.false_eq_true, if_false]
  cases hrg : data.getOwn "recent_games" with
  | arr xs =>
    cases xs with
    | nil => split_ifs <;> rfl
    | cons g gs =>
      simp only [normalizeGames_of_not_nullish (g :: gs) (hg g gs hrg)]
  | _ => split_ifs <;> rfl

/-! ## The claims on team details -/

theorem lookup_mem (fields : List (String × JSVal)) (k : String) (v : JSVal)
    (h : fields.lookup k = some v) : (k, v) ∈ fields := by
  induction fields with
  | nil => simp [List.lookup] at h
  | cons kv rest ih =>
    obtain ⟨k2, v2⟩ := kv
    by_cases hk : k = k2
    · subst hk
      simp only [List.lookup, beq_self_eq_true, Option.some.injEq] at h
      rw [h]
      exact List.mem_cons_self _ _
    · have hb : (k == k2) = false := by simpa using hk
      simp only [List.lookup, hb] at h
      exact List.mem_cons_of_mem _ (ih h)

theorem lookup_nullish (fields : List (String × JSVal))
    (h : ∀ kv ∈ fields, kv.2.isNullish = true) (k : String) :
    ((fields.lookup k).getD undefined).isNullish = true := by
  cases hl : fields.lookup k with
  | none => rfl
  | some v => exact h (k, v) (lookup_mem fields k v hl)

theorem or_null_cases (x : JSVal) : (JSVal.or x null).truthy = true ∨ JSVal.or x null = null := by
  unfold JSVal.or
  by_cases hx : x.truthy = true
  · simp [hx]
  · simp [hx]

theorem apiTeamFields_nullish (src : JSVal)
    (hany : (apiTeamFields src).any (fun kv => kv.2.truthy) = false) :
    ∀ kv ∈ apiTeamFields src, kv.2.isNullish = true := by
  intro kv hkv
  have hnt : kv.2.truthy = false := by
    have h := List.any_eq_false.1 hany kv hkv
    simpa using h
  unfold apiTeamFields at hkv
  simp only [List.mem_cons, List.mem_singleton, List.not_mem_nil, or_false] at hkv
  rcases hkv with rfl | rfl | rfl | rfl | rfl | rfl
  all_goals
    simp only at hnt ⊢
    rcases or_null_cases _ with h | h
    · rw [h] at hnt
      exact absurd hnt (by decide)
    · rw [h]
      rfl

theorem playerTeamFields_toJS (r : PlayerRef) :
    ∀ kv ∈ playerTeamFields r.toJS, kv.2.isNullish = true := by
  intro kv hkv
  simp [playerTeamFields, PlayerRef.toJS, getOwn, List.lookup, JSVal.or, truthy] at hkv
  rcases hkv with rfl | rfl | rfl | rfl | rfl | rfl <;> rfl

theorem fallbackFields_nullish (players : List PlayerRef) (playerId : JSVal) :
    ∀ kv ∈ fallbackFields players playerId, kv.2.isNullish = true := by
  unfold fallbackFields
  cases hf : findPlayer (players.map PlayerRef.toJS) playerId with
  | none => simp
  | some p =>
    have hmem : p ∈ players.map PlayerRef.toJS := List.mem_of_find?_eq_some hf
    obtain ⟨r, _, rfl⟩ := List.mem_map.1 hmem
    exact playerTeamFields_toJS r

theorem nullTeamFields_nullish : ∀ kv ∈ nullTeamFields, kv.2.isNullish = true := by
  intro kv hkv
  simp [nullTeamFields] at hkv
  rcases hkv with rfl | rfl | rfl | rfl | rfl | rfl <;> rfl

theorem coalesce_of_nullish {a b : JSVal} (ha : a.isNullish = true) (hb : b.isNullish = true) :
    coalesce a null = coalesce b null := by
  simp [coalesce, ha, hb]

theorem teamDetailsFor_base (data : JSVal) (players : List PlayerRef) (playerId : JSVal)
    (mapped : Option (List (String × JSVal))) (hd : data.isNullish = false)
    (hid : playerId.truthy = true) :
    ∃ base, teamDetailsFor data (players.map PlayerRef.toJS) playerId mapped
        = obj (mapped.getD [] ++ base) ∧
      ∀ k, coalesce ((base.lookup k).getD undefined) null
        = coalesce (((apiTeamFields (teamSrc data)).lookup k).getD undefined) null := by
  have hp : ∀ p ∈ players.map PlayerRef.toJS, p.isNullish = false := by
    intro p hp
    obtain ⟨r, _, rfl⟩ := List.mem_map.1 hp
    rfl
  cases hany : (apiTeamFields (teamSrc data)).any (fun kv => kv.2.truthy)
  · have hA := apiTeamFields_nullish (teamSrc data) hany
    cases hf : findPlayer (players.map PlayerRef.toJS) playerId with
    | none =>
      have hb := teamDetailsFor_of_block
        (teamBlock_none data (players.map PlayerRef.toJS) playerId mapped hd hp hany hf)
      cases mapped with
      | none =>
        refine ⟨nullTeamFields, by simpa using hb, fun k => ?_⟩
        exact coalesce_of_nullish (lookup_nullish _ nullTeamFields_nullish k)
          (lookup_nullish _ hA k)
      | some m =>
        refine ⟨[], by simpa using hb, fun k => ?_⟩
        exact coalesce_of_nullish rfl (lookup_nullish _ hA k)
    | some p =>
      have hb := teamDetailsFor_of_block
        (teamBlock_player data (players.map PlayerRef.toJS) playerId mapped hd hp hid hany p hf)
      have hmem : p ∈ players.map PlayerRef.toJS := List.mem_of_find?_eq_some hf
      obtain ⟨r, _, rfl⟩ := List.mem_map.1 hmem
      refine ⟨_, hb, fun k => ?_⟩
      exact coalesce_of_nullish (lookup_nullish _ (playerTeamFields_toJS r) k)
        (lookup_nullish _ hA k)
  · exact ⟨_, teamDetailsFor_of_block
      (teamBlock_api data (players.map PlayerRef.toJS) playerId mapped hd hany), fun _ => rfl⟩

theorem mergedField_two (A F : List (String × JSVal)) (k : String)
    (hF : ((F.lookup k).getD undefined).isNullish = true) :
    mergedField [A, F] k = coalesce ((A.lookup k).getD undefined) null := by
  simp only [mergedField, List.reverse_cons, List.reverse_nil, List.nil_append,
    List.singleton_append, List.map_cons, List.map_nil, firstNonNull, List.find?, hF,
    Bool.not_true, coalesce]
  cases ha : ((A.lookup k).getD undefined).isNullish <;> simp

theorem mergedField_three (A F O : List (String × JSVal)) (k : String)
    (hF : ((F.lookup k).getD undefined).isNullish = true) :
    mergedField [A, F, O] k
      = coalesce ((O.lookup k).getD undefined) (coalesce ((A.lookup k).getD undefined) null) := by
  simp only [mergedField, List.reverse_cons, List.reverse_nil, List.nil_append,
    List.singleton_append, List.cons_append, List.map_cons, List.map_nil, firstNonNull,
    List.find?, hF, Bool.not_true, coalesce]
  cases ho : ((O.lookup k).getD undefined).isNullish <;>
    cases ha : ((A.lookup k).getD undefined).isNullish <;> simp

/-- C19: after a successful primary prediction (status 200-299, body not null, no null
element in `recent_games`) on any Dashboard state and with any override table, the
team details set by `onPredict` are the field-wise merge of the response fields, the
team fields of the players-list entry of that player and the override entry of that
player, in increasing priority: every property of the override entry replaces the
same field; a field the override entry does not have is the merge of the response
field and the players-list field; and when the override entry holds no null value,
every field is the merge of the three sources (the value of the last source holding
a value other than null, null when there is none). -/
theorem teamDetails_merge (s : DashState) (playerId : JSVal)
    (teamMap : JSVal → Option (List (String × JSVal))) (status : Nat) (data : JSVal)
    (hid : playerId.truthy = true) (hs : statusOk status = true)
    (hd : data.isNullish = false)
    (hg : ∀ g gs, data.getOwn "recent_games" = arr (g :: gs) →
      ∀ x ∈ g :: gs, x.isNullish = false) :
    (∀ k v, ((teamMap playerId).getD []).lookup k = some v →
      (onPredict s playerId false teamMap (.response status (.ok data))).teamDetails.getOwn k
        = v) ∧
    (∀ k, ((teamMap playerId).getD []).lookup k = none →
      coalesce
        ((onPredict s playerId false teamMap (.response status (.ok data))).teamDetails.getOwn k)
        null
        = mergedField [apiTeamFields (teamSrc data), fallbackFields s.players playerId] k) ∧
    ((∀ kv ∈ (teamMap playerId).getD [], kv.2.isNullish = false) →
      ∀ k, coalesce
        ((onPredict s playerId false teamMap (.response status (.ok data))).teamDetails.getOwn k)
        null
        = mergedField [apiTeamFields (teamSrc data), fallbackFields s.players playerId,
            (teamMap playerId).getD []] k) := by
  rw [onPredict_success_teamDetails s playerId teamMap status data hid hs hd hg]
  obtain ⟨base, hbase, hcoal⟩ := teamDetailsFor_base data s.players playerId (teamMap playerId)
    hd hid
  rw [hbase]
  have hF := fun k => lookup_nullish _ (fallbackFields_nullish s.players playerId) k
  refine ⟨?_, ?_, ?_⟩
  · intro k v hv
    rw [getOwn_append, hv]
  · intro k hk
    rw [getOwn_append, hk, mergedField_two _ _ k (hF k)]
    exact hcoal k
  · intro hov k
    rw [getOwn_append, mergedField_three _ _ _ k (hF k)]
    cases hl : ((teamMap playerId).getD []).lookup k with
    | none =>
      simp only [Option.getD_none]
      rw [show coalesce undefined
          (coalesce (((apiTeamFields (teamSrc data)).lookup k).getD undefined) null)
          = coalesce (((apiTeamFields (teamSrc data)).lookup k).getD undefined) null from rfl]
      exact hcoal k
    | some v =>
      have hv : v.isNullish = false := hov (k, v) (lookup_mem _ k v hl)
      simp [coalesce, hv]

/-- Witness for C19: the response `{team_name: "Lakers"}`, the Dashboard entry of
player 1 and the override `{city: "Los Angeles"}`: the team name comes from the
response and the city from the override. -/
theorem teamDetails_merge_witness :
    (onPredict { DashState.initial with
        players := [{ player_id := num 1, player_name := str "X" }] }
      (num 1) false (fun _ => some [("city", str "Los Angeles")])
      (.response 200 (.ok (obj [("predicted_points", num 25),
        ("team_name", str "Lakers")])))).teamDetails.getOwn "city" = str "Los Angeles" ∧
    coalesce ((onPredict { DashState.initial with
        players := [{ player_id := num 1, player_name := str "X" }] }
      (num 1) false (fun _ => some [("city", str "Los Angeles")])
      (.response 200 (.ok (obj [("predicted_points", num 25),
        ("team_name", str "Lakers")])))).teamDetails.getOwn "team_name") null
      = str "Lakers" :=
  match teamDetails_merge { DashState.initial with
        players := [{ player_id := num 1, player_name := str "X" }] }
      (num 1) (fun _ => some [("city", str "Los Angeles")]) 200
      (obj [("predicted_points", num 25), ("team_name", str "Lakers")])
      (by decide) (by decide) rfl
      (fun g gs h => by simp [getOwn, List.lookup] at h) with
  | ⟨h1, h2, _⟩ =>
    ⟨h1 "city" (str "Los Angeles") (by simp [List.lookup]),
     (h2 "team_name" (by simp [List.lookup])).trans (by
      simp [mergedField, firstNonNull, fallbackFields, findPlayer, PlayerRef.toJS,
        playerTeamFields, apiTeamFields, teamSrc, getOwn, optChain, List.lookup, JSVal.or,
        truthy, isNullish, JSVal.strictEq, DashState.initial, List.find?])⟩

/-- C20 fails as stated: after a successful prediction for player "2" the transition
that sets the selection to `""` leaves the team details record in place; it is not
reset to `null`. -/
theorem teamDetails_kept_on_empty_selection :
    ∃ fields,
      (selectPlayer
        (onPredict { DashState.initial with selectedPlayerId := str "2" } (str "2") false
          TEAM_MAP
          (.response 200 (.ok (obj [("predicted_points", num 25),
            ("team_name", str "Lakers")]))))
        (str "")).teamDetails = obj fields ∧
      (selectPlayer
        (onPredict { DashState.initial with selectedPlayerId := str "2" } (str "2") false
          TEAM_MAP
          (.response 200 (.ok (obj [("predicted_points", num 25),
            ("team_name", str "Lakers")]))))
        (str "")).selectedPlayerId = str "" ∧
      (selectPlayer
        (onPredict { DashState.initial with selectedPlayerId := str "2" } (str "2") false
          TEAM_MAP
          (.response 200 (.ok (obj [("predicted_points", num 25),
            ("team_name", str "Lakers")]))))
        (str "")).teamDetails ≠ null := by
  have h : ∀ s : DashState, (selectPlayer s (str "")).teamDetails = s.teamDetails := by
    intro s
    rfl
  have h2 := onPredict_success_teamDetails
    { DashState.initial with selectedPlayerId := str "2" } (str "2") TEAM_MAP 200
    (obj [("predicted_points", num 25), ("team_name", str "Lakers")]) rfl (by decide) rfl
    (by
      intro g gs hg
      simp [getOwn, List.lookup] at hg)
  obtain ⟨fields, hf⟩ := teamDetailsFor_isObject
    (obj [("predicted_points", num 25), ("team_name", str "Lakers")])
    (({ DashState.initial with selectedPlayerId := str "2" } : DashState).players.map
      PlayerRef.toJS) (str "2") (TEAM_MAP (str "2"))
  refine ⟨fields, ?_, rfl, ?_⟩
  · rw [h, h2, hf]
  · rw [h, h2, hf]
    exact fun hn => JSVal.noConfusion hn

/-- C20 amended: the team details are set to a record by every successful primary
prediction whose body is not null and whose `recent_games` holds no null element;
no change of the selection, the change to `""` included, resets them: the team
details after the change are those before it. -/
theorem teamDetails_lifecycle :
    (∀ (s : DashState) (playerId : JSVal) (teamMap : JSVal → Option (List (String × JSVal)))
      (status : Nat) (data : JSVal), playerId.truthy = true → statusOk status = true →
      data.isNullish = false →
      (∀ g gs, data.getOwn "recent_games" = arr (g :: gs) →
        ∀ x ∈ g :: gs, x.isNullish = false) →
      ∃ fields,
        (onPredict s playerId false teamMap (.response status (.ok data))).teamDetails
          = obj fields ∧
        obj fields
          = teamDetailsFor data (s.players.map PlayerRef.toJS) playerId (teamMap playerId)) ∧
    (∀ (s : DashState) (id : JSVal), (selectPlayer s id).teamDetails = s.teamDetails) ∧
    (∀ s : DashState,
      (selectPlayer s (str "")).recentGames = [] ∧ (selectPlayer s (str "")).summary = null ∧
      (selectPlayer s (str "")).recentAvgPoints = null) := by
  refine ⟨?_, ?_, ?_⟩
  · intro s playerId teamMap status data hid hs hd hg
    obtain ⟨fields, hf⟩ := teamDetailsFor_isObject data (s.players.map PlayerRef.toJS)
      playerId (teamMap playerId)
    refine ⟨fields, ?_, hf.symm⟩
    rw [onPredict_success_teamDetails s playerId teamMap status data hid hs hd hg, hf]
  · intro s id
    unfold selectPlayer recentGamesEffect
    split_ifs <;> rfl
  · intro s
    exact ⟨rfl, rfl, rfl⟩

/-- Witness for C20 amended: a successful prediction for player "2" sets a record. -/
theorem teamDetails_lifecycle_witness :
    ∃ fields,
      (onPredict { DashState.initial with selectedPlayerId := str "2" } (str "2") false
        TEAM_MAP
        (.response 200 (.ok (obj [("predicted_points", num 25),
          ("team_name", str "Lakers")])))).teamDetails = obj fields ∧
      obj fields
        = teamDetailsFor (obj [("predicted_points", num 25), ("team_name", str "Lakers")])
            (({ DashState.initial with selectedPlayerId := str "2" } : DashState).players.map
              PlayerRef.toJS) (str "2") (TEAM_MAP (str "2")) :=
  teamDetails_lifecycle.1 { DashState.initial with selectedPlayerId := str "2" } (str "2")
    TEAM_MAP 200 (obj [("predicted_points", num 25), ("team_name", str "Lakers")]) rfl
    (by decide) rfl
    (by
      intro g gs hg
      simp [getOwn, List.lookup] at hg)

/-! ## Frame facts of `onPredict`, `selectPlayer` and `fetchRecentDone` -/

theorem onPredict_no_id (s : DashState) (playerId : JSVal) (isSecondary : Bool)
    (teamMap : JSVal → Option (List (String × JSVal))) (out : FetchOutcome)
    (hid : playerId.truthy = false) : onPredict s playerId isSecondary teamMap out = s := by
  simp [onPredict, hid]

theorem onPredict_rejected (s : DashState) (playerId : JSVal) (isSecondary : Bool)
    (teamMap : JSVal → Option (List (String × JSVal))) (msg : String)
    (hid : playerId.truthy = true) :
    onPredict s playerId isSecondary teamMap (.rejected msg)
      = { s with predictError := some (messageOr msg "Prediction failed"),
                 predictLoading := false } := by
  simp [onPredict, onPredictBody, hid]

theorem onPredict_secondary_ok (s : DashState) (playerId : JSVal)
    (teamMap : JSVal → Option (List (String × JSVal))) (status : Nat) (data : JSVal)
    (hid : playerId.truthy = true) (hs : statusOk status = true)
    (hd : data.isNullish = false) :
    onPredict s playerId true teamMap (.response status (.ok data))
      = { s with secondaryData := secondaryRecord data s.players playerId,
                 predictError := none, predictLoading := false } := by
  simp [onPredict, onPredictBody, hid, hs, hd]

theorem onPredict_games_frame (s : DashState) (playerId : JSVal) (isSecondary : Bool)
    (teamMap : JSVal → Option (List (String × JSVal))) (out : FetchOutcome) :
    (onPredict s playerId isSecondary teamMap out).gamesLoading = s.gamesLoading ∧
    (onPredict s playerId isSecondary teamMap out).gamesError = s.gamesError := by
  cases hid : playerId.truthy
  · rw [onPredict_no_id s playerId isSecondary teamMap out hid]
    exact ⟨rfl, rfl⟩
  · cases out with
    | rejected msg =>
      rw [onPredict_rejected s playerId isSecondary teamMap msg hid]
      exact ⟨rfl, rfl⟩
    | response status body =>
      cases hs : statusOk status
      · rw [onPredict_not_ok s playerId isSecondary teamMap status body hid hs]
        exact ⟨rfl, rfl⟩
      · cases body with
        | error msg =>
          simp [onPredict, onPredictBody, hid, hs]
        | ok data =>
          cases hd : data.isNullish
          · cases isSecondary
            · simp only [onPredict, onPredictBody, hid, hs, hd, Bool.not_true,
                Bool.false_eq_true, if_false]
              cases hrg : data.getOwn "recent_games" with
              | arr xs =>
                cases xs with
                | nil => split_ifs <;> exact ⟨rfl, rfl⟩
                | cons g gs =>
                  cases hn : normalizeGames (arr (g :: gs)) with
                  | error e => simp [hn]
                  | ok norm =>
                    simp only [hn]
                    split_ifs <;> exact ⟨rfl, rfl⟩
              | _ => split_ifs <;> exact ⟨rfl, rfl⟩
            · rw [onPredict_secondary_ok s playerId teamMap status data hid hs hd]
              exact ⟨rfl, rfl⟩
          · simp [onPredict, onPredictBody, hid, hs, hd]

theorem onPredict_primary_fields (s : DashState) (playerId : JSVal)
    (teamMap : JSVal → Option (List (String × JSVal))) (status : Nat) (data : JSVal)
    (hid : playerId.truthy = true) (hs : statusOk status = true)
    (hd : data.isNullish = false) :
    (onPredict s playerId false teamMap (.response status (.ok data))).prediction
      = coalesce (data.getOwn "predicted_points") null ∧
    (onPredict s playerId false teamMap (.response status (.ok data))).modelPrediction
      = coalesce (data.getOwn "model_prediction") null ∧
    (onPredict s playerId false teamMap (.response status (.ok data))).recentAvgPoints
      = coalesce (data.getOwn "recent_avg_points") null ∧
    (onPredict s playerId false teamMap (.response status (.ok data))).selectedPlayerId
      = s.selectedPlayerId := by
  simp only [onPredict, onPredictBody, hid, hs, hd, Bool.not_true, Bool.false_eq_true, if_false]
  cases hrg : data.getOwn "recent_games" with
  | arr xs =>
    cases xs with
    | nil => split_ifs <;> exact ⟨rfl, rfl, rfl, rfl⟩
    | cons g gs =>
      cases hn : normalizeGames (arr (g :: gs)) with
      | error e => simp [hn]
      | ok norm =>
        simp only [hn]
        split_ifs <;> exact ⟨rfl, rfl, rfl, rfl⟩
  | _ => split_ifs <;> exact ⟨rfl, rfl, rfl, rfl⟩

theorem onPredict_primary_games (s : DashState) (playerId : JSVal)
    (teamMap : JSVal → Option (List (String × JSVal))) (status : Nat) (data : JSVal)
    (g : JSVal) (gs : List JSVal)
    (hid : playerId.truthy = true) (hs : statusOk status = true)
    (hd : data.isNullish = false) (hrg : data.getOwn "recent_games" = arr (g :: gs))
    (hn : ∀ x ∈ g :: gs, x.isNullish = false) :
    (onPredict s playerId false teamMap (.response status (.ok data))).recentGames
      = (g :: gs).map normalizedGame := by
  simp only [onPredict, onPredictBody, hid, hs, hd, Bool.not_true, Bool.false_eq_true, if_false,
    hrg, normalizeGames_of_not_nullish (g :: gs) hn]
  split_ifs <;> rfl

theorem selectPlayer_frame (s : DashState) (id : JSVal) :
    (selectPlayer s id).prediction = s.prediction ∧
    (selectPlayer s id).modelPrediction = s.modelPrediction ∧
    (selectPlayer s id).confidence = s.confidence ∧
    (selectPlayer s id).explanation = s.explanation ∧
    (selectPlayer s id).formSummary = s.formSummary ∧
    (selectPlayer s id).avgError = s.avgError ∧
    (selectPlayer s id).selectedPlayerId = id := by
  unfold selectPlayer recentGamesEffect
  split_ifs <;> exact ⟨rfl, rfl, rfl, rfl, rfl, rfl, rfl⟩

theorem normalizeGames_empty (data : JSVal) (h : ∀ g gs, data ≠ arr (g :: gs)) :
    normalizeGames data = .ok [] := by
  cases data with
  | arr xs =>
    cases xs with
    | nil => rfl
    | cons g gs => exact absurd rfl (h g gs)
  | _ => rfl

theorem fetchRecentDone_empty (s : DashState) (status : Nat) (data : JSVal)
    (hs : statusOk status = true) (h : ∀ g gs, data ≠ arr (g :: gs)) :
    fetchRecentDone s (.response status (.ok data))
      = some { s with recentGames := [], gamesLoading := false } := by
  simp [fetchRecentDone, hs, normalizeGames_empty data h]

theorem onPredict_primary_summary (s : DashState) (playerId : JSVal)
    (teamMap : JSVal → Option (List (String × JSVal))) (status : Nat) (data : JSVal)
    (hid : playerId.truthy = true) (hs : statusOk status = true)
    (hd : data.isNullish = false)
    (hnn : ∀ g gs, data.getOwn "recent_games" = arr (g :: gs) →
      ∀ x ∈ g :: gs, x.isNullish = false) :
    (onPredict s playerId false teamMap (.response status (.ok data))).summary
      = (if (data.getOwn "summary").truthy then data.getOwn "summary" else s.summary) ∧
    ((∀ g gs, data.getOwn "recent_games" ≠ arr (g :: gs)) →
      (onPredict s playerId false teamMap (.response status (.ok data))).recentGames
        = s.recentGames) := by
  simp only [onPredict, onPredictBody, hid, hs, hd, Bool.not_true, Bool.false_eq_true, if_false]
  cases hrg : data.getOwn "recent_games" with
  | arr xs =>
    cases xs with
    | nil => split_ifs <;> exact ⟨rfl, fun _ => rfl⟩
    | cons g gs =>
      simp only [normalizeGames_of_not_nullish (g :: gs) (hnn g gs hrg)]
      split_ifs <;> exact ⟨rfl, fun h => absurd rfl (h g gs)⟩
  | _ => split_ifs <;> exact ⟨rfl, fun _ => rfl⟩

theorem onPredict_primary_throw (s : DashState) (playerId : JSVal)
    (teamMap : JSVal → Option (List (String × JSVal))) (status : Nat) (data : JSVal)
    (xs : List JSVal)
    (hid : playerId.truthy = true) (hs : statusOk status = true)
    (hd : data.isNullish = false) (hrg : data.getOwn "recent_games" = arr xs)
    (hx : ∃ x ∈ xs, x.isNullish = true) :
    (onPredict s playerId false teamMap (.response status (.ok data))).recentGames
      = s.recentGames ∧
    (onPredict s playerId false teamMap (.response status (.ok data))).summary = s.summary ∧
    (onPredict s playerId false teamMap (.response status (.ok data))).predictError
      = some JSError.typeError.message := by
  cases xs with
  | nil =>
    obtain ⟨x, hmem, _⟩ := hx
    simp at hmem
  | cons g gs =>
    simp only [onPredict, onPredictBody, hid, hs, hd, Bool.not_true, Bool.false_eq_true,
      if_false, hrg, normalizeGames_of_nullish (g :: gs) hx]
    simp [messageOr, JSError.message]

theorem onPredict_no_body (s : DashState) (playerId : JSVal) (isSecondary : Bool)
    (teamMap : JSVal → Option (List (String × JSVal))) (status : Nat) (msg : String)
    (hid : playerId.truthy = true) (hs : statusOk status = true) :
    onPredict s playerId isSecondary teamMap (.response status (.error msg))
      = { s with predictError := some (messageOr msg "Prediction failed"),
                 predictLoading := false } ∧
    onPredict s playerId isSecondary teamMap (.response status (.ok null))
      = { s with predictError := some JSError.typeError.message, predictLoading := false } := by
  constructor
  · simp [onPredict, onPredictBody, hid, hs]
  · simp [onPredict, onPredictBody, hid, hs, isNullish, messageOr, JSError.message]

/-! ## The claims on the frames of the prediction and recent-games flows -/

/-- C21 fails as stated: a successful primary prediction overwrites `recentAvgPoints`
(18 becomes `null` when the response has no `recent_avg_points`) and replaces
`recentGames` by the `recent_games` of the response. -/
theorem onPredict_writes_recent_games_state :
    (onPredict { DashState.initial with selectedPlayerId := str "2", recentAvgPoints := num 18 }
      (str "2") false TEAM_MAP
      (.response 200 (.ok (obj [("predicted_points", num 25),
        ("recent_games", arr [obj [("date", str "2024-01-01"), ("pts", num 31)]])])))).recentAvgPoints
      = null ∧
    (onPredict { DashState.initial with selectedPlayerId := str "2", recentAvgPoints := num 18 }
      (str "2") false TEAM_MAP
      (.response 200 (.ok (obj [("predicted_points", num 25),
        ("recent_games", arr [obj [("date", str "2024-01-01"), ("pts", num 31)]])])))).recentGames
      = [{ date := str "2024-01-01", pts := num 31, min := null, fg_pct := null }] := by
  refine ⟨?_, ?_⟩
  · rw [(onPredict_primary_fields _ (str "2") TEAM_MAP 200
      (obj [("predicted_points", num 25),
        ("recent_games", arr [obj [("date", str "2024-01-01"), ("pts", num 31)]])])
      rfl (by decide) rfl).2.2.1]
    rfl
  · rw [onPredict_primary_games _ (str "2") TEAM_MAP 200
      (obj [("predicted_points", num 25),
        ("recent_games", arr [obj [("date", str "2024-01-01"), ("pts", num 31)]])])
      (obj [("date", str "2024-01-01"), ("pts", num 31)]) [] rfl (by decide) rfl rfl
      (by
        intro x hx
        simp only [List.mem_singleton] at hx
        rw [hx]
        rfl)]
    rfl

/-- C21 amended: `onPredict` never changes `gamesLoading` or `gamesError`; when the
request is rejected, ends with a status outside 200-299, or ends with a body that does
not parse or is `null`, it leaves `recentGames`, `summary` and `recentAvgPoints`
unchanged; on a successful primary response with a body that is not null it sets
`recentAvgPoints` to `data.recent_avg_points ?? null`; when `data.recent_games` holds
no `null` or `undefined` element it replaces `recentGames` by the normalised
`data.recent_games` if that is a non-empty array and leaves `recentGames` unchanged
otherwise, and it replaces `summary` by `data.summary` if that is truthy and leaves
`summary` unchanged otherwise; when `data.recent_games` is an array holding a `null`
or `undefined` element, `recentGames` and `summary` are left unchanged and
`predictError` is set. -/
theorem onPredict_recent_games_frame :
    (∀ (s : DashState) (playerId : JSVal) (isSecondary : Bool)
      (teamMap : JSVal → Option (List (String × JSVal))) (out : FetchOutcome),
      (onPredict s playerId isSecondary teamMap out).gamesLoading = s.gamesLoading ∧
      (onPredict s playerId isSecondary teamMap out).gamesError = s.gamesError) ∧
    (∀ (s : DashState) (playerId : JSVal) (teamMap : JSVal → Option (List (String × JSVal)))
      (status : Nat) (body : Except String JSVal), playerId.truthy = true →
      statusOk status = false →
      (onPredict s playerId false teamMap (.response status body)).recentGames = s.recentGames ∧
      (onPredict s playerId false teamMap (.response status body)).summary = s.summary ∧
      (onPredict s playerId false teamMap (.response status body)).recentAvgPoints
        = s.recentAvgPoints) ∧
    (∀ (s : DashState) (playerId : JSVal) (teamMap : JSVal → Option (List (String × JSVal)))
      (msg : String), playerId.truthy = true →
      (onPredict s playerId false teamMap (.rejected msg)).recentGames = s.recentGames ∧
      (onPredict s playerId false teamMap (.rejected msg)).summary = s.summary ∧
      (onPredict s playerId false teamMap (.rejected msg)).recentAvgPoints = s.recentAvgPoints) ∧
    (∀ (s : DashState) (playerId : JSVal) (teamMap : JSVal → Option (List (String × JSVal)))
      (status : Nat) (body : Except String JSVal), playerId.truthy = true →
      statusOk status = true → (∀ data, body = .ok data → data = null) →
      (onPredict s playerId false teamMap (.response status body)).recentGames = s.recentGames ∧
      (onPredict s playerId false teamMap (.response status body)).summary = s.summary ∧
      (onPredict s playerId false teamMap (.response status body)).recentAvgPoints
        = s.recentAvgPoints) ∧
    (∀ (s : DashState) (playerId : JSVal) (teamMap : JSVal → Option (List (String × JSVal)))
      (status : Nat) (data : JSVal), playerId.truthy = true → statusOk status = true →
      data.isNullish = false →
      (onPredict s playerId false teamMap (.response status (.ok data))).recentAvgPoints
        = coalesce (data.getOwn "recent_avg_points") null) ∧
    (∀ (s : DashState) (playerId : JSVal) (teamMap : JSVal → Option (List (String × JSVal)))
      (status : Nat) (data g : JSVal) (gs : List JSVal), playerId.truthy = true →
      statusOk status = true → data.isNullish = false →
      data.getOwn "recent_games" = arr (g :: gs) → (∀ x ∈ g :: gs, x.isNullish = false) →
      (onPredict s playerId false teamMap (.response status (.ok data))).recentGames
        = (g :: gs).map normalizedGame) ∧
    (∀ (s : DashState) (playerId : JSVal) (teamMap : JSVal → Option (List (String × JSVal)))
      (status : Nat) (data : JSVal), playerId.truthy = true →
      statusOk status = true → data.isNullish = false →
      (∀ g gs, data.getOwn "recent_games" ≠ arr (g :: gs)) →
      (onPredict s playerId false teamMap (.response status (.ok data))).recentGames
        = s.recentGames) ∧
    (∀ (s : DashState) (playerId : JSVal) (teamMap : JSVal → Option (List (String × JSVal)))
      (status : Nat) (data : JSVal), playerId.truthy = true →
      statusOk status = true → data.isNullish = false →
      (∀ g gs, data.getOwn "recent_games" = arr (g :: gs) →
        ∀ x ∈ g :: gs, x.isNullish = false) →
      ((data.getOwn "summary").truthy = true →
        (onPredict s playerId false teamMap (.response status (.ok data))).summary
          = data.getOwn "summary") ∧
      ((data.getOwn "summary").truthy = false →
        (onPredict s playerId false teamMap (.response status (.ok data))).summary
          = s.summary)) ∧
    (∀ (s : DashState) (playerId : JSVal) (teamMap : JSVal → Option (List (String × JSVal)))
      (status : Nat) (data : JSVal) (xs : List JSVal), playerId.truthy = true →
      statusOk status = true → data.isNullish = false →
      data.getOwn "recent_games" = arr xs → (∃ x ∈ xs, x.isNullish = true) →
      (onPredict s playerId false teamMap (.response status (.ok data))).recentGames
        = s.recentGames ∧
      (onPredict s playerId false teamMap (.response status (.ok data))).summary = s.summary ∧
      (onPredict s playerId false teamMap (.response status (.ok data))).predictError
        = some JSError.typeError.message) := by
  refine ⟨onPredict_games_frame, ?_, ?_, ?_, ?_, ?_, ?_, ?_, ?_⟩
  · intro s playerId teamMap status body hid hs
    rw [onPredict_not_ok s playerId false teamMap status body hid hs]
    exact ⟨rfl, rfl, rfl⟩
  · intro s playerId teamMap msg hid
    rw [onPredict_rejected s playerId false teamMap msg hid]
    exact ⟨rfl, rfl, rfl⟩
  · intro s playerId teamMap status body hid hs hb
    cases body with
    | error msg =>
      rw [(onPredict_no_body s playerId false teamMap status msg hid hs).1]
      exact ⟨rfl, rfl, rfl⟩
    | ok data =>
      rw [hb data rfl, (onPredict_no_body s playerId false teamMap status "" hid hs).2]
      exact ⟨rfl, rfl, rfl⟩
  · intro s playerId teamMap status data hid hs hd
    exact (onPredict_primary_fields s playerId teamMap status data hid hs hd).2.2.1
  · intro s playerId teamMap status data g gs hid hs hd hrg hn
    exact onPredict_primary_games s playerId teamMap status data g gs hid hs hd hrg hn
  · intro s playerId teamMap status data hid hs hd hrg
    exact (onPredict_primary_summary s playerId teamMap status data hid hs hd
      (fun g gs h => absurd h (hrg g gs))).2 hrg
  · intro s playerId teamMap status data hid hs hd hnn
    have h := (onPredict_primary_summary s playerId teamMap status data hid hs hd hnn).1
    constructor
    · intro ht
      rw [h, if_pos ht]
    · intro hf
      rw [h, hf]
      rfl
  · intro s playerId teamMap status data xs hid hs hd hrg hx
    exact onPredict_primary_throw s playerId teamMap status data xs hid hs hd hrg hx

/-- Witness for C21 amended: a prediction request ending with HTTP 503 leaves the
recent-games values of the state in place, and a successful response carrying a
summary replaces the summary held. -/
theorem onPredict_recent_games_frame_witness :
    (onPredict { DashState.initial with selectedPlayerId := str "2", recentAvgPoints := num 18 }
      (str "2") false TEAM_MAP (.response 503 (.error "Unexpected token"))).recentAvgPoints
      = num 18 ∧
    (onPredict { DashState.initial with selectedPlayerId := str "2", summary := num 1 }
      (str "2") false TEAM_MAP
      (.response 200 (.ok (obj [("summary", obj [("avg_pts_5", num 20)])])))).summary
      = obj [("avg_pts_5", num 20)] :=
  ⟨(onPredict_recent_games_frame.2.1
    { DashState.initial with selectedPlayerId := str "2", recentAvgPoints := num 18 }
    (str "2") TEAM_MAP 503 (.error "Unexpected token") rfl (by decide)).2.2,
   (onPredict_recent_games_frame.2.2.2.2.2.2.2.1
    { DashState.initial with selectedPlayerId := str "2", summary := num 1 }
    (str "2") TEAM_MAP 200 (obj [("summary", obj [("avg_pts_5", num 20)])]) rfl (by decide) rfl
    (fun g gs h => by simp [getOwn, List.lookup] at h)).1 rfl⟩

/-- C24: a change of the selection to any value leaves `prediction`,
`modelPrediction`, `confidence`, `explanation`, `formSummary` and `avgError`
unchanged; after a successful prediction for player A with a non-null
`predicted_points`, selecting a player B keeps the main card shown
(`selectedPlayerId && prediction != null`) with the prediction of A. -/
theorem selection_keeps_prediction :
    (∀ (s : DashState) (id : JSVal),
      (selectPlayer s id).prediction = s.prediction ∧
      (selectPlayer s id).modelPrediction = s.modelPrediction ∧
      (selectPlayer s id).confidence = s.confidence ∧
      (selectPlayer s id).explanation = s.explanation ∧
      (selectPlayer s id).formSummary = s.formSummary ∧
      (selectPlayer s id).avgError = s.avgError) ∧
    (∀ (s : DashState) (a b : JSVal) (teamMap : JSVal → Option (List (String × JSVal)))
      (status : Nat) (data : JSVal), a.truthy = true → b.truthy = true →
      statusOk status = true → data.isNullish = false →
      (data.getOwn "predicted_points").isNullish = false →
      (selectPlayer (onPredict s a false teamMap (.response status (.ok data))) b).selectedPlayerId
        = b ∧
      (selectPlayer (onPredict s a false teamMap (.response status (.ok data))) b).prediction
        = data.getOwn "predicted_points" ∧
      mainCardShown (selectPlayer (onPredict s a false teamMap (.response status (.ok data))) b)
        = true) := by
  constructor
  · intro s id
    obtain ⟨h1, h2, h3, h4, h5, h6, _⟩ := selectPlayer_frame s id
    exact ⟨h1, h2, h3, h4, h5, h6⟩
  · intro s a b teamMap status data ha hb hs hd hp
    obtain ⟨h1, _, _, _, _, _, h7⟩ :=
      selectPlayer_frame (onPredict s a false teamMap (.response status (.ok data))) b
    have h8 := (onPredict_primary_fields s a teamMap status data ha hs hd).1
    have h9 : coalesce (data.getOwn "predicted_points") null = data.getOwn "predicted_points" := by
      simp [coalesce, hp]
    refine ⟨h7, ?_, ?_⟩
    · rw [h1, h8, h9]
    · unfold mainCardShown
      rw [h7, h1, h8, h9, hb, hp]
      rfl

/-- Witness for C24: player "1" is predicted at 25 points, then player "2" is
selected: the card is shown for "2" with the value 25. -/
theorem selection_keeps_prediction_witness :
    (selectPlayer (onPredict { DashState.initial with selectedPlayerId := str "1" } (str "1")
      false TEAM_MAP (.response 200 (.ok (obj [("predicted_points", num 25)]))))
      (str "2")).selectedPlayerId = str "2" ∧
    (selectPlayer (onPredict { DashState.initial with selectedPlayerId := str "1" } (str "1")
      false TEAM_MAP (.response 200 (.ok (obj [("predicted_points", num 25)]))))
      (str "2")).prediction = (obj [("predicted_points", num 25)]).getOwn "predicted_points" ∧
    mainCardShown (selectPlayer (onPredict { DashState.initial with selectedPlayerId := str "1" }
      (str "1") false TEAM_MAP (.response 200 (.ok (obj [("predicted_points", num 25)]))))
      (str "2")) = true :=
  selection_keeps_prediction.2 { DashState.initial with selectedPlayerId := str "1" }
    (str "1") (str "2") TEAM_MAP 200 (obj [("predicted_points", num 25)]) rfl rfl (by decide)
    rfl rfl

/-- C28: when a recent-games request succeeds with a body that normalises to the empty
sequence (an empty array or any body that is not an array), `recentGames` becomes
`[]` and `summary` and `recentAvgPoints` keep the values they had before. -/
theorem fetchRecent_empty_keeps_summary (s : DashState) (status : Nat) (data : JSVal)
    (hs : statusOk status = true) (h : ∀ g gs, data ≠ arr (g :: gs)) :
    ∃ s2, fetchRecentDone s (.response status (.ok data)) = some s2 ∧
      s2.recentGames = [] ∧ s2.summary = s.summary ∧
      s2.recentAvgPoints = s.recentAvgPoints ∧ s2.gamesLoading = false ∧
      s2.gamesError = s.gamesError :=
  ⟨_, fetchRecentDone_empty s status data hs h, rfl, rfl, rfl, rfl, rfl⟩

/-- Witness for C28: a state holding the summary of a previous player receives the
body `{}` for the new one. -/
theorem fetchRecent_empty_keeps_summary_witness :
    ∃ s2, fetchRecentDone
        staleSummaryState
        (.response 200 (.ok (obj []))) = some s2 ∧
      s2.recentGames = [] ∧ s2.summary = obj [("avg_pts_5", num 20)] ∧
      s2.recentAvgPoints = num 20 ∧ s2.gamesLoading = false ∧ s2.gamesError = none :=
  fetchRecent_empty_keeps_summary
    staleSummaryState
    200 (obj []) (by decide) (fun _ _ h => JSVal.noConfusion h)

/-- C30: a comparison prediction that succeeds (body not null) sets `secondaryData`
and leaves `prediction`, `modelPrediction`, `recentAvgPoints`, `confidence`,
`explanation`, `formSummary`, `avgError`, `teamDetails`, `recentGames` and `summary`
unchanged; `onPredict` with an empty (falsy) player id returns the state as it is. -/
theorem onPredict_secondary_frame :
    (∀ (s : DashState) (playerId : JSVal) (teamMap : JSVal → Option (List (String × JSVal)))
      (status : Nat) (data : JSVal), playerId.truthy = true → statusOk status = true →
      data.isNullish = false →
      (onPredict s playerId true teamMap (.response status (.ok data))).secondaryData
        = secondaryRecord data s.players playerId ∧
      (onPredict s playerId true teamMap (.response status (.ok data))).prediction
        = s.prediction ∧
      (onPredict s playerId true teamMap (.response status (.ok data))).modelPrediction
        = s.modelPrediction ∧
      (onPredict s playerId true teamMap (.response status (.ok data))).recentAvgPoints
        = s.recentAvgPoints ∧
      (onPredict s playerId true teamMap (.response status (.ok data))).confidence
        = s.confidence ∧
      (onPredict s playerId true teamMap (.response status (.ok data))).explanation
        = s.explanation ∧
      (onPredict s playerId true teamMap (.response status (.ok data))).formSummary
        = s.formSummary ∧
      (onPredict s playerId true teamMap (.response status (.ok data))).avgError = s.avgError ∧
      (onPredict s playerId true teamMap (.response status (.ok data))).teamDetails
        = s.teamDetails ∧
      (onPredict s playerId true teamMap (.response status (.ok data))).recentGames
        = s.recentGames ∧
      (onPredict s playerId true teamMap (.response status (.ok data))).summary = s.summary) ∧
    (∀ (s : DashState) (playerId : JSVal) (isSecondary : Bool)
      (teamMap : JSVal → Option (List (String × JSVal))) (out : FetchOutcome),
      playerId.truthy = false → onPredict s playerId isSecondary teamMap out = s) := by
  refine ⟨?_, onPredict_no_id⟩
  intro s playerId teamMap status data hid hs hd
  rw [onPredict_secondary_ok s playerId teamMap status data hid hs hd]
  exact ⟨rfl, rfl, rfl, rfl, rfl, rfl, rfl, rfl, rfl, rfl, rfl⟩

/-- Witness for C30: `onPredict` called with the empty id `""` changes nothing. -/
theorem onPredict_secondary_frame_witness :
    onPredict { DashState.initial with prediction := num 25 } (str "") true TEAM_MAP
      (.response 200 (.ok (obj [("predicted_points", num 30)])))
      = { DashState.initial with prediction := num 25 } :=
  onPredict_secondary_frame.2 { DashState.initial with prediction := num 25 } (str "") true
    TEAM_MAP (.response 200 (.ok (obj [("predicted_points", num 30)]))) rfl

/-! ## The rendering condition of the breakdown -/

/-- C27: for a prediction and a model prediction that are numbers or null,
`StatBreakdown` renders a breakdown exactly when both are not null and not zero, and
renders nothing otherwise; a prediction that is not zero with a model prediction of 0
renders nothing; whenever bars are rendered the divisor `prediction` is a number
other than zero. -/
theorem StatBreakdown_renders_iff (prediction modelPrediction : JSVal)
    (h1 : prediction.isNumOrNull = true) (h2 : modelPrediction.isNumOrNull = true) :
    ((∃ fs, StatBreakdown prediction modelPrediction = some (some fs)) ↔
      (prediction ≠ null ∧ prediction ≠ num 0 ∧ modelPrediction ≠ null ∧
        modelPrediction ≠ num 0)) ∧
    ((¬ ∃ fs, StatBreakdown prediction modelPrediction = some (some fs)) →
      StatBreakdown prediction modelPrediction = some none) ∧
    (∀ p : ℚ, p ≠ 0 → StatBreakdown (num p) (num 0) = some none) ∧
    (∀ fs, StatBreakdown prediction modelPrediction = some (some fs) →
      ∃ p : ℚ, prediction = num p ∧ p ≠ 0) := by
  have hnull : ∀ v : JSVal, StatBreakdown null v = some none := by
    intro v
    simp [StatBreakdown, truthy_null]
  have hnull2 : ∀ v : JSVal, StatBreakdown v null = some none := by
    intro v
    simp [StatBreakdown, truthy_null]
  have hno : ∀ {a b : JSVal}, StatBreakdown a b = some none →
      ¬ ∃ fs, StatBreakdown a b = some (some fs) := by
    intro a b h
    rintro ⟨fs, hfs⟩
    rw [h] at hfs
    exact Option.noConfusion (Option.some.inj hfs)
  refine ⟨?_, ?_, fun p _ => StatBreakdown_zero_model p, ?_⟩
  · cases prediction with
    | null =>
      constructor
      · intro h
        exact absurd h (hno (hnull _))
      · intro h
        exact absurd rfl h.1
    | num p =>
      cases modelPrediction with
      | null =>
        constructor
        · intro h
          exact absurd h (hno (hnull2 _))
        · intro h
          exact absurd rfl h.2.2.1
      | num m =>
        by_cases hp : p = 0
        · subst hp
          constructor
          · intro h
            exact absurd h (hno (StatBreakdown_zero_prediction _))
          · intro h
            exact absurd rfl h.2.1
        · by_cases hm : m = 0
          · subst hm
            constructor
            · intro h
              exact absurd h (hno (StatBreakdown_zero_model _))
            · intro h
              exact absurd rfl h.2.2.2
          · constructor
            · intro _
              refine ⟨fun h => JSVal.noConfusion h, ?_, fun h => JSVal.noConfusion h, ?_⟩
              · intro h
                exact hp (JSVal.num.inj h)
              · intro h
                exact hm (JSVal.num.inj h)
            · intro _
              exact ⟨_, StatBreakdown_nums p m hp hm⟩
      | _ => simp [isNumOrNull] at h2
    | _ => simp [isNumOrNull] at h1
  · intro hnot
    cases prediction with
    | null => exact hnull _
    | num p =>
      cases modelPrediction with
      | null => exact hnull2 _
      | num m =>
        by_cases hp : p = 0
        · subst hp
          exact StatBreakdown_zero_prediction _
        · by_cases hm : m = 0
          · subst hm
            exact StatBreakdown_zero_model _
          · exact absurd ⟨_, StatBreakdown_nums p m hp hm⟩ hnot
      | _ => simp [isNumOrNull] at h2
    | _ => simp [isNumOrNull] at h1
  · intro fs hfs
    cases prediction with
    | null => exact absurd ⟨fs, hfs⟩ (hno (hnull _))
    | num p =>
      refine ⟨p, rfl, ?_⟩
      intro hp
      subst hp
      exact absurd ⟨fs, hfs⟩ (hno (StatBreakdown_zero_prediction _))
    | _ => simp [isNumOrNull] at h1

/-- Witness for C27: a prediction of 25 with a model prediction of 0 renders nothing. -/
theorem StatBreakdown_renders_iff_witness :
    StatBreakdown (num 25) (num 0) = some none :=
  (StatBreakdown_renders_iff (num 25) (num 0) rfl rfl).2.1 (by
    rintro ⟨fs, hfs⟩
    rw [StatBreakdown_zero_model 25] at hfs
    exact Option.noConfusion (Option.some.inj hfs))

/-! ## Late responses and bounds of the rolling value -/

theorem sixRawGames_obj : ∀ g ∈ sixRawGames, g.isObject = true := by
  intro g hg
  simp only [sixRawGames, List.mem_cons, List.mem_singleton, List.not_mem_nil, or_false] at hg
  rcases hg with rfl | rfl | rfl | rfl | rfl | rfl <;> rfl

theorem sixRawGames_pts : ∀ g ∈ sixRawGames, (g.getOwn "pts").isNumOrMissing = true := by
  intro g hg
  simp only [sixRawGames, List.mem_cons, List.mem_singleton, List.not_mem_nil, or_false] at hg
  rcases hg with rfl | rfl | rfl | rfl | rfl | rfl <;> rfl

theorem sixRawGames_min : ∀ g ∈ sixRawGames, (g.getOwn "min").isNumOrMissing = true := by
  intro g hg
  simp only [sixRawGames, List.mem_cons, List.mem_singleton, List.not_mem_nil, or_false] at hg
  rcases hg with rfl | rfl | rfl | rfl | rfl | rfl <;> rfl

theorem sixRawGames_ne : sixRawGames ≠ [] := by
  simp [sixRawGames]

theorem dashStep_arrive_ok (s : DashState) (issuedFor : JSVal) (status : Nat) (gs : List JSVal)
    (hs : statusOk status = true) (hne : gs ≠ [])
    (hobj : ∀ g ∈ gs, g.isObject = true)
    (hpts : ∀ g ∈ gs, (g.getOwn "pts").isNumOrMissing = true)
    (hmin : ∀ g ∈ gs, (g.getOwn "min").isNumOrMissing = true) :
    ∃ s2, dashStep s (.recentGamesArrive issuedFor (.response status (.ok (arr gs)))) = some s2 ∧
      s2.selectedPlayerId = s.selectedPlayerId ∧
      s2.recentGames = gs.map normalizedGame ∧
      (∃ sm, computeFormSummary (gs.map normalizedGame) = some sm ∧ s2.summary = sm.toJS ∧
        s2.recentAvgPoints = sm.avg_pts_5) := by
  obtain ⟨sm, hsm, _, hdone⟩ := fetchRecentDone_ok s status gs hs hne hobj hpts hmin
  exact ⟨_, hdone, rfl, rfl, sm, hsm, rfl, rfl⟩

/-- C23 fails as stated: player "1" is selected, then player "2", then the response
issued for player "1" arrives: it is applied, and the Dashboard holds the six games of
player "1" while player "2" is selected. -/
theorem late_response_is_applied :
    ∃ s, dashRun DashState.initial
        [.select (str "1"), .select (str "2"),
         .recentGamesArrive (str "1") (.response 200 (.ok (arr sixRawGames)))] = some s ∧
      s.selectedPlayerId = str "2" ∧
      s.recentGames = sixRawGames.map normalizedGame ∧
      s.recentGames.length = 6 := by
  obtain ⟨s2, h, h1, h2, _⟩ := dashStep_arrive_ok
    (selectPlayer (selectPlayer DashState.initial (str "1")) (str "2")) (str "1") 200
    sixRawGames (by decide) sixRawGames_ne sixRawGames_obj sixRawGames_pts sixRawGames_min
  refine ⟨s2, ?_, ?_, h2, ?_⟩
  · simp only [dashStep] at h
    simp only [dashRun, dashStep, Option.some_bind, h]
  · rw [h1]
    rfl
  · rw [h2]
    rfl

/-- C23 amended: no recent-games response is discarded on account of the selection.
The effect of an arriving response does not depend on the player it was issued for,
does not depend on the selection at that time, and leaves the selection unchanged; a
response with a status in 200-299 carrying a non-empty array of game objects whose
`pts` and `min` are numbers or missing leaves `recentGames`, `summary` and
`recentAvgPoints` holding the data of that response. -/
theorem response_applied_regardless :
    (∀ (s : DashState) (p q : JSVal) (out : FetchOutcome),
      dashStep s (.recentGamesArrive p out) = dashStep s (.recentGamesArrive q out)) ∧
    (∀ (s : DashState) (x p : JSVal) (out : FetchOutcome),
      dashStep { s with selectedPlayerId := x } (.recentGamesArrive p out)
        = (dashStep s (.recentGamesArrive p out)).map
            fun s2 => { s2 with selectedPlayerId := x }) ∧
    (∀ (s s2 : DashState) (p : JSVal) (out : FetchOutcome),
      dashStep s (.recentGamesArrive p out) = some s2 →
      s2.selectedPlayerId = s.selectedPlayerId) ∧
    (∀ (s : DashState) (issuedFor : JSVal) (status : Nat) (gs : List JSVal),
      statusOk status = true → gs ≠ [] → (∀ g ∈ gs, g.isObject = true) →
      (∀ g ∈ gs, (g.getOwn "pts").isNumOrMissing = true) →
      (∀ g ∈ gs, (g.getOwn "min").isNumOrMissing = true) →
      ∃ s2, dashStep s (.recentGamesArrive issuedFor (.response status (.ok (arr gs))))
          = some s2 ∧
        s2.selectedPlayerId = s.selectedPlayerId ∧
        s2.recentGames = gs.map normalizedGame ∧
        (∃ sm, computeFormSummary (gs.map normalizedGame) = some sm ∧ s2.summary = sm.toJS ∧
          s2.recentAvgPoints = sm.avg_pts_5)) := by
  refine ⟨fun _ _ _ _ => rfl, ?_, ?_, ?_⟩
  · intro s x p out
    cases out with
    | rejected msg => rfl
    | response status body =>
      cases hs : statusOk status
      · simp [dashStep, fetchRecentDone, hs]
      · cases body with
        | error msg => simp [dashStep, fetchRecentDone, hs]
        | ok data =>
          cases hn : normalizeGames data with
          | error e => simp [dashStep, fetchRecentDone, hs, hn]
          | ok norm =>
            cases hc : computeFormSummary norm <;>
              by_cases hl : 0 < norm.length <;>
              simp [dashStep, fetchRecentDone, hs, hn, hc, hl]
  · intro s s2 p out h
    cases out with
    | rejected msg =>
      simp only [dashStep, fetchRecentDone, Option.some.injEq] at h
      rw [← h]
    | response status body =>
      cases hs : statusOk status
      · simp only [dashStep, fetchRecentDone, hs, Bool.not_false, if_true,
          Option.some.injEq] at h
        rw [← h]
      · cases body with
        | error msg =>
          simp only [dashStep, fetchRecentDone, hs, Bool.not_true, Bool.false_eq_true, if_false,
            Option.some.injEq] at h
          rw [← h]
        | ok data =>
          cases hn : normalizeGames data with
          | error e =>
            simp only [dashStep, fetchRecentDone, hs, Bool.not_true, Bool.false_eq_true,
              if_false, hn, Option.some.injEq] at h
            rw [← h]
          | ok norm =>
            simp only [dashStep, fetchRecentDone, hs, Bool.not_true, Bool.false_eq_true,
              if_false, hn] at h
            split_ifs at h
            · cases hc : computeFormSummary norm with
              | none => simp [hc] at h
              | some sm =>
                simp only [hc, Option.map_some', Option.some.injEq] at h
                rw [← h]
            · simp only [Option.some.injEq] at h
              rw [← h]
  · intro s issuedFor status gs hs hne hobj hpts hmin
    exact dashStep_arrive_ok s issuedFor status gs hs hne hobj hpts hmin

/-- Witness for C23 amended: the response issued for player "1" arrives in a state
where player "2" is selected. -/
theorem response_applied_regardless_witness :
    ∃ s2, dashStep staleSummaryState
        (.recentGamesArrive (str "1") (.response 200 (.ok (arr sixRawGames)))) = some s2 ∧
      s2.selectedPlayerId = staleSummaryState.selectedPlayerId ∧
      s2.recentGames = sixRawGames.map normalizedGame ∧
      (∃ sm, computeFormSummary (sixRawGames.map normalizedGame) = some sm ∧
        s2.summary = sm.toJS ∧ s2.recentAvgPoints = sm.avg_pts_5) :=
  response_applied_regardless.2.2.2 staleSummaryState (str "1") 200 sixRawGames (by decide)
    sixRawGames_ne sixRawGames_obj sixRawGames_pts sixRawGames_min

theorem exists_least (l : List ℚ) (hne : l ≠ []) : ∃ a ∈ l, ∀ v ∈ l, a ≤ v := by
  induction l with
  | nil => exact absurd rfl hne
  | cons x xs ih =>
    by_cases hxs : xs = []
    · subst hxs
      exact ⟨x, List.mem_cons_self _ _, by simp⟩
    · obtain ⟨a, ha, hmin⟩ := ih hxs
      rcases le_total x a with hxa | hax
      · refine ⟨x, List.mem_cons_self _ _, ?_⟩
        intro v hv
        rcases List.mem_cons.1 hv with rfl | hv2
        · exact le_refl _
        · exact le_trans hxa (hmin v hv2)
      · refine ⟨a, List.mem_cons_of_mem _ ha, ?_⟩
        intro v hv
        rcases List.mem_cons.1 hv with rfl | hv2
        · exact hax
        · exact hmin v hv2

theorem exists_greatest (l : List ℚ) (hne : l ≠ []) : ∃ b ∈ l, ∀ v ∈ l, v ≤ b := by
  induction l with
  | nil => exact absurd rfl hne
  | cons x xs ih =>
    by_cases hxs : xs = []
    · subst hxs
      exact ⟨x, List.mem_cons_self _ _, by simp⟩
    · obtain ⟨b, hb, hmax⟩ := ih hxs
      rcases le_total b x with hbx | hxb
      · refine ⟨x, List.mem_cons_self _ _, ?_⟩
        intro v hv
        rcases List.mem_cons.1 hv with rfl | hv2
        · exact le_refl _
        · exact le_trans (hmax v hv2) hbx
      · refine ⟨b, List.mem_cons_of_mem _ hb, ?_⟩
        intro v hv
        rcases List.mem_cons.1 hv with rfl | hv2
        · exact hxb
        · exact hmax v hv2

/-! ## Games by date -/

theorem addDate_midnight (cal : Calendar)
    (hmid : ∀ d : ℤ, cal.localTime (cal.utc (d * msPerDay)) = d * msPerDay) (d n : ℤ) :
    addDate cal (cal.utc (d * msPerDay)) n = cal.utc ((d + n) * msPerDay) := by
  have h0 : msPerDay ≠ 0 := by decide
  simp only [addDate, hmid, Int.mul_ediv_cancel _ h0, Int.mul_emod_left, add_zero]

theorem placeGame_cases (cal : Calendar)
    (hmid : ∀ d : ℤ, cal.localTime (cal.utc (d * msPerDay)) = d * msPerDay)
    (hmono : StrictMono fun d : ℤ => cal.utc (d * msPerDay)) (now : ℤ)
    (groups : Groups) (game start : JSVal) :
    placeGame cal now groups game start =
      match groupOfDay (localDay cal now) ((dateValue cal start).map (localDay cal)) with
      | none => groups
      | some k =>
        if k = 0 then { groups with yesterday := groups.yesterday ++ [game] }
        else if k = 1 then { groups with today := groups.today ++ [game] }
        else { groups with upcoming := groups.upcoming ++ [game] } := by
  have hy : addDate cal (setHoursZero cal now) (-1)
      = cal.utc ((localDay cal now - 1) * msPerDay) := by
    rw [setHoursZero, addDate_midnight cal hmid]
    rfl
  have ht : addDate cal (setHoursZero cal now) 1
      = cal.utc ((localDay cal now + 1) * msPerDay) := by
    rw [setHoursZero, addDate_midnight cal hmid]
    rfl
  simp only [placeGame, hy, ht]
  cases hd : dateValue cal start with
  | none => rfl
  | some tv =>
    simp only [Option.map_some', groupOfDay]
    have hg : setHoursZero cal tv = cal.utc (localDay cal tv * msPerDay) := rfl
    have hn : setHoursZero cal now = cal.utc (localDay cal now * msPerDay) := rfl
    rw [hg, hn]
    generalize localDay cal tv = d
    generalize localDay cal now = todayDay
    by_cases h1 : d = todayDay - 1
    · subst h1
      simp
    · have e1 : cal.utc (d * msPerDay) ≠ cal.utc ((todayDay - 1) * msPerDay) :=
        hmono.injective.ne h1
      by_cases h2 : d = todayDay
      · subst h2
        simp [e1, h1]
      · have e2 : cal.utc (d * msPerDay) ≠ cal.utc (todayDay * msPerDay) :=
          hmono.injective.ne h2
        by_cases h3 : todayDay + 1 ≤ d
        · have e3 : cal.utc (d * msPerDay) ≥ cal.utc ((todayDay + 1) * msPerDay) :=
            hmono.monotone h3
          simp [e1, e2, e3, h1, h2, h3]
        · have e3 : ¬ cal.utc (d * msPerDay) ≥ cal.utc ((todayDay + 1) * msPerDay) := by
            intro hge
            exact h3 (hmono.le_iff_le.1 hge)
          simp [e1, e2, e3, h1, h2, h3]

theorem groupLoop_eq (cal : Calendar)
    (hmid : ∀ d : ℤ, cal.localTime (cal.utc (d * msPerDay)) = d * msPerDay)
    (hmono : StrictMono fun d : ℤ => cal.utc (d * msPerDay)) (now : ℤ)
    (games : List JSVal) (hg : ∀ g ∈ games, g.isNullish = false) (groups : Groups) :
    groupLoop cal now games groups = .ok
      { yesterday := groups.yesterday ++
          games.filter fun g => decide (groupOfDay (localDay cal now) (gameDay cal g) = some 0),
        today := groups.today ++
          games.filter fun g => decide (groupOfDay (localDay cal now) (gameDay cal g) = some 1),
        upcoming := groups.upcoming ++
          games.filter fun g =>
            decide (groupOfDay (localDay cal now) (gameDay cal g) = some 2) } := by
  induction games generalizing groups with
  | nil => simp [groupLoop]
  | cons game rest ih =>
    have hgame := hg game (List.mem_cons_self _ _)
    have ih2 := ih fun g h => hg g (List.mem_cons_of_mem _ h)
    simp only [groupLoop, getProp_not_nullish hgame]
    rw [ih2, placeGame_cases cal hmid hmono]
    cases hk : groupOfDay (localDay cal now)
        ((dateValue cal (game.getOwn "start_time_utc")).map (localDay cal)) with
    | none => simp [List.filter_cons, gameDay, hk]
    | some k =>
      fin_cases k <;> simp [List.filter_cons, gameDay, hk]

theorem filter_groups_length {α : Type} (f : α → Option (Fin 3)) (l : List α) :
    (l.filter fun g => decide (f g = some 0)).length +
      (l.filter fun g => decide (f g = some 1)).length +
      (l.filter fun g => decide (f g = some 2)).length ≤ l.length := by
  induction l with
  | nil => simp
  | cons x xs ih =>
    cases hk : f x with
    | none =>
      simp only [List.filter_cons, hk, List.length_cons]
      simp only [reduceCtorEq, decide_False, Bool.false_eq_true, if_false]
      omega
    | some k =>
      fin_cases k <;> simp [List.filter_cons, hk] <;> omega

theorem groupOfDay_cases (todayDay d : ℤ) :
    (d < todayDay - 1 ∧ groupOfDay todayDay (some d) = none) ∨
    (d = todayDay - 1 ∧ groupOfDay todayDay (some d) = some 0) ∨
    (d = todayDay ∧ groupOfDay todayDay (some d) = some 1) ∨
    (todayDay + 1 ≤ d ∧ groupOfDay todayDay (some d) = some 2) := by
  have hdef : groupOfDay todayDay (some d) =
      if d = todayDay - 1 then some 0
      else if d = todayDay then some 1
      else if todayDay + 1 ≤ d then some 2
      else none := rfl
  rw [hdef]
  by_cases h1 : d = todayDay - 1
  · exact Or.inr (Or.inl ⟨h1, by rw [if_pos h1]⟩)
  · by_cases h2 : d = todayDay
    · exact Or.inr (Or.inr (Or.inl ⟨h2, by rw [if_neg h1, if_pos h2]⟩))
    · by_cases h3 : todayDay + 1 ≤ d
      · exact Or.inr (Or.inr (Or.inr ⟨h3, by rw [if_neg h1, if_neg h2, if_pos h3]⟩))
      · exact Or.inl ⟨by omega, by rw [if_neg h1, if_neg h2, if_neg h3]⟩

/-- In a calendar where the local reading 00:00 of every day exists and the local
midnights increase with the day, `groupGamesByDate` returns, for game objects, the
games whose local day is yesterday, today, and tomorrow or later, in source order. -/
theorem groupGamesByDate_regular_days (cal : Calendar)
    (hmid : ∀ d : ℤ, cal.localTime (cal.utc (d * msPerDay)) = d * msPerDay)
    (hmono : StrictMono fun d : ℤ => cal.utc (d * msPerDay)) (now : ℤ)
    (games : List JSVal) (hg : ∀ g ∈ games, g.isNullish = false) :
    ∃ groups, groupGamesByDate cal now games = .ok groups ∧
      groups.yesterday = games.filter
        (fun g => decide (groupOfDay (localDay cal now) (gameDay cal g) = some 0)) ∧
      groups.today = games.filter
        (fun g => decide (groupOfDay (localDay cal now) (gameDay cal g) = some 1)) ∧
      groups.upcoming = games.filter
        (fun g => decide (groupOfDay (localDay cal now) (gameDay cal g) = some 2)) ∧
      groups.yesterday.length + groups.today.length + groups.upcoming.length
        ≤ games.length := by
  have hloop := groupLoop_eq cal hmid hmono now games hg
    { yesterday := [], today := [], upcoming := [] }
  simp only [List.nil_append] at hloop
  exact ⟨_, hloop, rfl, rfl, rfl, filter_groups_length _ games⟩

theorem timeClip_intCast (n : ℤ) (h : |n| ≤ 8640000000000000) :
    timeClip (n : ℚ) = some n := by
  have h2 : |(n : ℚ)| ≤ 8640000000000000 := by exact_mod_cast h
  simp [timeClip, h2]

/-- C29 fails on the code: in a browser in the zone America/Santiago at
2024-09-08T15:00:00Z (12:00 local on 8 September, a day whose local midnight does not
exist), a game starting at 2024-09-07T23:00:00Z (19:00 local on 7 September, the day
before) and a game starting at 2024-09-09T23:00:00Z (20:00 local on 9 September, the
day after) are placed in no group: `yesterday` and `tomorrow` keep the time of day
01:00 of `today`, while the day of a game is brought to 00:00. The start times are given
as ISO strings read by `Date.parse`, and as numbers of milliseconds. -/
theorem groupGamesByDate_skipped_midnight :
    (∀ parseText : JSVal → Option ℤ,
      parseText (str "2024-09-07T23:00:00Z") = some 1725750000000 →
      parseText (str "2024-09-09T23:00:00Z") = some 1725922800000 →
      groupGamesByDate (santiagoCalendar parseText) 1725807600000
          [obj [("game_id", num 1), ("start_time_utc", str "2024-09-07T23:00:00Z")],
           obj [("game_id", num 2), ("start_time_utc", str "2024-09-09T23:00:00Z")]]
        = .ok { yesterday := [], today := [], upcoming := [] } ∧
      gameDay (santiagoCalendar parseText)
          (obj [("game_id", num 1), ("start_time_utc", str "2024-09-07T23:00:00Z")])
        = some (localDay (santiagoCalendar parseText) 1725807600000 - 1) ∧
      gameDay (santiagoCalendar parseText)
          (obj [("game_id", num 2), ("start_time_utc", str "2024-09-09T23:00:00Z")])
        = some (localDay (santiagoCalendar parseText) 1725807600000 + 1)) ∧
    (∀ parseText : JSVal → Option ℤ,
      groupGamesByDate (santiagoCalendar parseText) 1725807600000
          [obj [("game_id", num 1), ("start_time_utc", num 1725750000000)],
           obj [("game_id", num 2), ("start_time_utc", num 1725922800000)]]
        = .ok { yesterday := [], today := [], upcoming := [] } ∧
      gameDay (santiagoCalendar parseText)
          (obj [("game_id", num 1), ("start_time_utc", num 1725750000000)])
        = some (localDay (santiagoCalendar parseText) 1725807600000 - 1) ∧
      gameDay (santiagoCalendar parseText)
          (obj [("game_id", num 2), ("start_time_utc", num 1725922800000)])
        = some (localDay (santiagoCalendar parseText) 1725807600000 + 1)) := by
  have c1 : timeClip (1725750000000 : ℚ) = some 1725750000000 := by
    have h := timeClip_intCast 1725750000000 (by decide)
    simpa using h
  have c2 : timeClip (1725922800000 : ℚ) = some 1725922800000 := by
    have h := timeClip_intCast 1725922800000 (by decide)
    simpa using h
  constructor
  · intro parseText h1 h2
    refine ⟨?_, ?_, ?_⟩
    · simp [groupGamesByDate, groupLoop, getProp, isNullish, getOwn, List.lookup, placeGame,
        dateValue, setHoursZero, addDate, santiagoCalendar, msPerDay, h1, h2]
    · simp [gameDay, localDay, getOwn, List.lookup, dateValue, santiagoCalendar, msPerDay, h1]
    · simp [gameDay, localDay, getOwn, List.lookup, dateValue, santiagoCalendar, msPerDay, h2]
  · intro parseText
    refine ⟨?_, ?_, ?_⟩
    · simp [groupGamesByDate, groupLoop, getProp, isNullish, getOwn, List.lookup, placeGame,
        dateValue, setHoursZero, addDate, santiagoCalendar, msPerDay, c1, c2]
    · simp [gameDay, localDay, getOwn, List.lookup, dateValue, santiagoCalendar, msPerDay, c1]
    · simp [gameDay, localDay, getOwn, List.lookup, dateValue, santiagoCalendar, msPerDay, c2]

/-- Witness for C29: a `Date.parse` that reads the two ISO strings. -/
theorem groupGamesByDate_skipped_midnight_witness :
    groupGamesByDate
        (santiagoCalendar fun v =>
          match v with
          | str s =>
            if s = "2024-09-07T23:00:00Z" then some 1725750000000
            else if s = "2024-09-09T23:00:00Z" then some 1725922800000
            else none
          | _ => none)
        1725807600000
        [obj [("game_id", num 1), ("start_time_utc", str "2024-09-07T23:00:00Z")],
         obj [("game_id", num 2), ("start_time_utc", str "2024-09-09T23:00:00Z")]]
      = .ok { yesterday := [], today := [], upcoming := [] } :=
  (groupGamesByDate_skipped_midnight.1
    (fun v =>
      match v with
      | str s =>
        if s = "2024-09-07T23:00:00Z" then some 1725750000000
        else if s = "2024-09-09T23:00:00Z" then some 1725922800000
        else none
      | _ => none)
    (by simp) (by simp)).1

/-! ## Rounding to binary64 -/

theorem roundHalfEven_ge (x : ℚ) : x - 1 / 2 ≤ roundHalfEven x := by
  unfold roundHalfEven
  have h1 := Int.floor_le x
  have h2 := Int.lt_floor_add_one x
  split_ifs <;> push_cast <;> linarith

theorem roundHalfEven_le (x : ℚ) : (roundHalfEven x : ℚ) ≤ x + 1 / 2 := by
  unfold roundHalfEven
  have h1 := Int.floor_le x
  have h2 := Int.lt_floor_add_one x
  split_ifs <;> push_cast <;> linarith

theorem roundHalfEven_intCast (n : ℤ) : roundHalfEven (n : ℚ) = n := by
  simp [roundHalfEven]

theorem roundHalfEven_floor_le (x : ℚ) : ⌊x⌋ ≤ roundHalfEven x := by
  unfold roundHalfEven
  split_ifs <;> omega

theorem roundHalfEven_le_floor (x : ℚ) : roundHalfEven x ≤ ⌊x⌋ + 1 := by
  unfold roundHalfEven
  split_ifs <;> omega

theorem roundHalfEven_mono {x y : ℚ} (h : x ≤ y) : roundHalfEven x ≤ roundHalfEven y := by
  have hf : ⌊x⌋ ≤ ⌊y⌋ := Int.floor_mono h
  rcases lt_or_eq_of_le hf with hlt | heq
  · calc roundHalfEven x ≤ ⌊x⌋ + 1 := roundHalfEven_le_floor x
      _ ≤ ⌊y⌋ := hlt
      _ ≤ roundHalfEven y := roundHalfEven_floor_le y
  · unfold roundHalfEven
    rw [heq]
    have hxy : x - ⌊y⌋ ≤ y - ⌊y⌋ := by linarith
    split_ifs <;> first | omega | linarith

theorem roundHalfEven_neg (x : ℚ) : roundHalfEven (-x) = -roundHalfEven x := by
  by_cases hx : (⌊x⌋ : ℚ) = x
  · rw [← hx, ← Int.cast_neg, roundHalfEven_intCast, roundHalfEven_intCast]
  · have h1 := Int.floor_le x
    have h2 := Int.lt_floor_add_one x
    have h3 : (⌊x⌋ : ℚ) < x := lt_of_le_of_ne h1 hx
    have hf : ⌊-x⌋ = -⌊x⌋ - 1 := by
      rw [Int.floor_eq_iff]
      push_cast
      constructor <;> linarith
    unfold roundHalfEven
    rw [hf]
    push_cast
    split_ifs <;> first | omega | linarith


theorem roundHalfEven_eq_of_close (x : ℚ) (n : ℤ) (h1 : (n : ℚ) - 1 / 2 < x)
    (h2 : x < n + 1 / 2) : roundHalfEven x = n := by
  have h3 := roundHalfEven_ge x
  have h4 := roundHalfEven_le x
  have h5 : ((n - 1 : ℤ) : ℚ) < roundHalfEven x := by
    push_cast
    linarith
  have h6 : (roundHalfEven x : ℚ) < ((n + 1 : ℤ) : ℚ) := by
    push_cast
    linarith
  have h7 := Int.cast_lt.1 h5
  have h8 := Int.cast_lt.1 h6
  omega

theorem two_zpow_pos (k : ℤ) : (0 : ℚ) < 2 ^ k := zpow_pos (by norm_num) k

theorem two_zpow_le {a b : ℤ} (h : a ≤ b) : (2 : ℚ) ^ a ≤ 2 ^ b :=
  zpow_le_zpow_right₀ (by norm_num) h

theorem zpow_log_le_abs {q : ℚ} (hq : q ≠ 0) : (2 : ℚ) ^ Int.log 2 |q| ≤ |q| := by
  have h := Int.zpow_log_le_self (b := 2) (by norm_num) (abs_pos.2 hq)
  simpa using h

theorem abs_lt_zpow_log (q : ℚ) : |q| < (2 : ℚ) ^ (Int.log 2 |q| + 1) := by
  have h := Int.lt_zpow_succ_log_self (b := 2) (by norm_num) |q|
  simpa using h

theorem log_lt_of_abs_lt {q : ℚ} (hq : q ≠ 0) {a : ℤ} (h : |q| < 2 ^ a) : Int.log 2 |q| < a := by
  have h2 := (Int.lt_zpow_iff_log_lt (b := 2) (by norm_num) (abs_pos.2 hq) (x := a)).1
    (by simpa using h)
  exact h2

theorem le_log_of_le_abs {q : ℚ} (hq : q ≠ 0) {a : ℤ} (h : (2 : ℚ) ^ a ≤ |q|) :
    a ≤ Int.log 2 |q| :=
  (Int.zpow_le_iff_le_log (b := 2) (by norm_num) (abs_pos.2 hq) (x := a)).1 (by simpa using h)

theorem log_eq_of_bounds {q : ℚ} {e : ℤ} (h1 : (2 : ℚ) ^ e ≤ |q|) (h2 : |q| < 2 ^ (e + 1)) :
    Int.log 2 |q| = e := by
  have hq : q ≠ 0 := by
    intro h0
    rw [h0, abs_zero] at h1
    exact absurd h1 (not_le.2 (two_zpow_pos e))
  have h3 := log_lt_of_abs_lt hq h2
  have h4 := le_log_of_le_abs hq h1
  omega

theorem ulpExp_neg (q : ℚ) : ulpExp (-q) = ulpExp q := by
  simp [ulpExp]

theorem ulpExp_ge (q : ℚ) : -1074 ≤ ulpExp q := le_max_right _ _

theorem fl_zero : fl 0 = 0 := by
  simp [fl, roundHalfEven]

theorem fl_neg (q : ℚ) : fl (-q) = -fl q := by
  simp only [fl, ulpExp_neg, neg_div, roundHalfEven_neg, Int.cast_neg, neg_mul]

theorem zpow_split {a k : ℤ} (h : k ≤ a) :
    (2 : ℚ) ^ a = (2 : ℚ) ^ (a - k).toNat * 2 ^ k := by
  have h1 : a = ((a - k).toNat : ℤ) + k := by
    rw [Int.toNat_of_nonneg (by omega)]
    omega
  conv_lhs => rw [h1]
  rw [zpow_add₀ (by norm_num), zpow_natCast]

theorem fl_le_of_le_grid (x : ℚ) (N a : ℤ) (ha : ulpExp x ≤ a) (h : x ≤ N * 2 ^ a) :
    fl x ≤ N * 2 ^ a := by
  have hp := two_zpow_pos (ulpExp x)
  rw [zpow_split ha, ← mul_assoc] at h ⊢
  have hM : ((N * 2 ^ (a - ulpExp x).toNat : ℤ) : ℚ) = N * 2 ^ (a - ulpExp x).toNat := by
    push_cast
    rfl
  rw [← hM] at h ⊢
  have h2 : x / 2 ^ ulpExp x ≤ ((N * 2 ^ (a - ulpExp x).toNat : ℤ) : ℚ) := by
    rw [div_le_iff₀ hp]
    exact h
  have h3 := roundHalfEven_mono h2
  rw [roundHalfEven_intCast] at h3
  unfold fl
  exact mul_le_mul_of_nonneg_right (Int.cast_le.2 h3) hp.le

theorem fl_ge_of_ge_grid (x : ℚ) (N a : ℤ) (ha : ulpExp x ≤ a) (h : (N : ℚ) * 2 ^ a ≤ x) :
    (N : ℚ) * 2 ^ a ≤ fl x := by
  have h1 := fl_le_of_le_grid (-x) (-N) a (by rw [ulpExp_neg]; exact ha)
    (by push_cast; linarith)
  rw [fl_neg] at h1
  push_cast at h1
  linarith

theorem fl_eq_of_grid (x : ℚ) (N a : ℤ) (ha : ulpExp x ≤ a) (h : x = N * 2 ^ a) : fl x = x :=
  le_antisymm (by
      have := fl_le_of_le_grid x N a ha h.le
      rwa [← h] at this)
    (by
      have := fl_ge_of_ge_grid x N a ha h.ge
      rwa [← h] at this)

theorem ulpExp_le_of_abs_lt {x : ℚ} {a : ℤ} (hx : x ≠ 0) (ha : -1074 ≤ a)
    (h : |x| < 2 ^ (a + 53)) : ulpExp x ≤ a := by
  unfold ulpExp
  have := log_lt_of_abs_lt hx h
  simp only [max_le_iff]
  omega

/-- A multiple of `2 ^ a` of magnitude below `2 ^ (a + 53)`, with `a` at least -1074,
is a binary64 number. -/
theorem fl_eq_self (x : ℚ) (N a : ℤ) (ha : -1074 ≤ a) (h : x = N * 2 ^ a)
    (hlt : |x| < 2 ^ (a + 53)) : fl x = x := by
  by_cases hx : x = 0
  · rw [hx, fl_zero]
  · exact fl_eq_of_grid x N a (ulpExp_le_of_abs_lt hx ha hlt) h

theorem fl_nonneg {x : ℚ} (h : 0 ≤ x) : 0 ≤ fl x := by
  have := fl_ge_of_ge_grid x 0 (ulpExp x) le_rfl (by simpa using h)
  simpa using this

theorem fl_nonpos {x : ℚ} (h : x ≤ 0) : fl x ≤ 0 := by
  have := fl_le_of_le_grid x 0 (ulpExp x) le_rfl (by simpa using h)
  simpa using this

theorem ulpExp_mono_pos {x y : ℚ} (hx : 0 < x) (h : x ≤ y) : ulpExp x ≤ ulpExp y := by
  unfold ulpExp
  have hy : 0 < y := lt_of_lt_of_le hx h
  rw [abs_of_pos hx, abs_of_pos hy]
  have := Int.log_mono_right (b := 2) hx h
  exact max_le_max (by omega) le_rfl

theorem fl_mono_pos {x y : ℚ} (hx : 0 < x) (h : x ≤ y) : fl x ≤ fl y := by
  have hy : 0 < y := lt_of_lt_of_le hx h
  have hk := ulpExp_mono_pos hx h
  rcases lt_or_eq_of_le hk with hlt | heq
  · -- the binades differ: a power of two separates the two numbers
    have hky : ulpExp y = Int.log 2 |y| - 52 := by
      unfold ulpExp at hlt ⊢
      have := ulpExp_ge x
      unfold ulpExp at this
      rcases max_cases (Int.log 2 |y| - 52) (-1074) with ⟨h1, _⟩ | ⟨h1, _⟩
      · exact h1
      · rw [h1] at hlt
        omega
    have hkx : Int.log 2 |x| - 52 ≤ ulpExp x := le_max_left _ _
    have hlog : Int.log 2 |x| + 1 ≤ Int.log 2 |y| := by omega
    have hxB : x ≤ ((1 : ℤ) : ℚ) * 2 ^ Int.log 2 |y| := by
      have h1 := abs_lt_zpow_log x
      have h0 := le_abs_self x
      have h2 := two_zpow_le hlog
      push_cast
      linarith
    have hBy : ((1 : ℤ) : ℚ) * 2 ^ Int.log 2 |y| ≤ y := by
      have h1 := zpow_log_le_abs hy.ne'
      have h0 : |y| = y := abs_of_pos hy
      push_cast
      linarith
    have h3 := fl_le_of_le_grid x 1 (Int.log 2 |y|) (by omega) hxB
    have h4 := fl_ge_of_ge_grid y 1 (Int.log 2 |y|) (by omega) hBy
    linarith
  · unfold fl
    rw [heq]
    have hp := two_zpow_pos (ulpExp y)
    have h1 : x / 2 ^ ulpExp y ≤ y / 2 ^ ulpExp y := div_le_div_of_nonneg_right h hp.le
    have h2 : (roundHalfEven (x / 2 ^ ulpExp y) : ℚ) ≤ roundHalfEven (y / 2 ^ ulpExp y) :=
      Int.cast_le.2 (roundHalfEven_mono h1)
    exact mul_le_mul_of_nonneg_right h2 hp.le

/-- Rounding to binary64 is monotone. -/
theorem fl_mono {x y : ℚ} (h : x ≤ y) : fl x ≤ fl y := by
  rcases lt_or_le 0 x with hx | hx
  · exact fl_mono_pos hx h
  · rcases le_or_lt 0 y with hy | hy
    · exact le_trans (fl_nonpos hx) (fl_nonneg hy)
    · have h1 := fl_mono_pos (x := -y) (y := -x) (by linarith) (by linarith)
      rw [fl_neg, fl_neg] at h1
      linarith

theorem abs_fl_le (z : ℚ) : |fl z| ≤ 2 ^ (ulpExp z + 53) := by
  have hk : Int.log 2 |z| + 1 ≤ ulpExp z + 53 := by
    have : Int.log 2 |z| - 52 ≤ ulpExp z := le_max_left _ _
    omega
  have hz : |z| ≤ ((1 : ℤ) : ℚ) * 2 ^ (ulpExp z + 53) := by
    have h1 := abs_lt_zpow_log z
    have h2 := two_zpow_le hk
    push_cast
    linarith
  rw [abs_le]
  constructor
  · have h1 := fl_ge_of_ge_grid z (-1) (ulpExp z + 53) (by omega)
      (by
        push_cast
        push_cast at hz
        linarith [neg_abs_le z])
    push_cast at h1
    linarith
  · have h1 := fl_le_of_le_grid z 1 (ulpExp z + 53) (by omega)
      (le_trans (le_abs_self z) hz)
    push_cast at h1
    linarith

/-- The result of a rounding is a binary64 number: rounding it again changes nothing. -/
theorem fl_fl (z : ℚ) : fl (fl z) = fl z := by
  rcases lt_or_eq_of_le (abs_fl_le z) with hlt | heq
  · exact fl_eq_self (fl z) (roundHalfEven (z / 2 ^ ulpExp z)) (ulpExp z) (ulpExp_ge z) rfl hlt
  · have hcases : fl z = ((1 : ℤ) : ℚ) * 2 ^ (ulpExp z + 53) ∨
        fl z = ((-1 : ℤ) : ℚ) * 2 ^ (ulpExp z + 53) := by
      rcases abs_cases (fl z) with ⟨h1, _⟩ | ⟨h1, _⟩
      · left
        rw [← heq, h1]
        push_cast
        ring
      · right
        rw [← heq, h1]
        push_cast
        ring
    have hb : |fl z| < 2 ^ (ulpExp z + 53 + 53) := by
      rw [heq]
      exact zpow_lt_zpow_right₀ (by norm_num) (by omega)
    have hz := ulpExp_ge z
    rcases hcases with h | h
    · exact fl_eq_self (fl z) 1 (ulpExp z + 53) (by omega) h hb
    · exact fl_eq_self (fl z) (-1) (ulpExp z + 53) (by omega) h hb

theorem fl_eval (q u : ℚ) (e n : ℤ) (he : -1022 ≤ e) (hu : u = 2 ^ (e - 52))
    (h1 : 2 ^ (52 : ℕ) * u ≤ |q|) (h2 : |q| < 2 ^ (53 : ℕ) * u)
    (h3 : (n : ℚ) * u - u / 2 < q) (h4 : q < n * u + u / 2) : fl q = n * u := by
  have hup : 0 < u := by
    rw [hu]
    exact two_zpow_pos _
  have e1 : (2 : ℚ) ^ e = 2 ^ (52 : ℕ) * u := by
    rw [hu, ← zpow_natCast, ← zpow_add₀ (by norm_num)]
    congr 1
    omega
  have e2 : (2 : ℚ) ^ (e + 1) = 2 ^ (53 : ℕ) * u := by
    rw [hu, ← zpow_natCast, ← zpow_add₀ (by norm_num)]
    congr 1
    omega
  have hlog : Int.log 2 |q| = e := log_eq_of_bounds (by rw [e1]; exact h1) (by rw [e2]; exact h2)
  have hk : ulpExp q = e - 52 := by
    unfold ulpExp
    rw [hlog]
    exact max_eq_left (by omega)
  unfold fl
  rw [hk, ← hu]
  congr 1
  have hr : roundHalfEven (q / u) = n := by
    apply roundHalfEven_eq_of_close
    · rw [lt_div_iff₀ hup]
      linarith
    · rw [div_lt_iff₀ hup]
      linarith
  rw [hr]


theorem roundHalfEven_eq_of_tie (x : ℚ) (n : ℤ) (hn : n % 2 = 0)
    (h : x = n + 1 / 2 ∨ x = n - 1 / 2) : roundHalfEven x = n := by
  rcases h with h | h
  · have hf : ⌊x⌋ = n := by
      rw [Int.floor_eq_iff, h]
      constructor <;> linarith
    unfold roundHalfEven
    rw [hf, h]
    norm_num [hn]
  · have hf : ⌊x⌋ = n - 1 := by
      rw [Int.floor_eq_iff, h]
      push_cast
      constructor <;> linarith
    have hodd : (n - 1) % 2 ≠ 0 := by omega
    unfold roundHalfEven
    rw [hf, h]
    push_cast
    norm_num [hodd]

theorem double_eq_some {x y : ℚ} : double x = some y ↔ fl x = y ∧ |fl x| < 2 ^ (1024 : ℕ) := by
  unfold double
  split_ifs with h
  · simp [h]
  · simp only [reduceCtorEq, false_iff, not_and]
    intro _
    exact h

theorem double_of_fl {x y : ℚ} (h : fl x = y) (hy : |y| < 2 ^ (1024 : ℕ)) :
    double x = some y :=
  double_eq_some.2 ⟨h, by rw [h]; exact hy⟩

/-- A finite binary64 number is not changed by a rounding. -/
theorem fl_of_double {x : ℚ} (h : double x = some x) : fl x = x := (double_eq_some.1 h).1

theorem fl_of_result {x y : ℚ} (h : double x = some y) : fl y = y := by
  rw [← (double_eq_some.1 h).1, fl_fl]

theorem abs_of_result {x y : ℚ} (h : double x = some y) : |y| < 2 ^ (1024 : ℕ) := by
  have := double_eq_some.1 h
  rw [← this.1]
  exact this.2

theorem double_result {x y : ℚ} (h : double x = some y) : double y = some y :=
  double_of_fl (fl_of_result h) (abs_of_result h)

theorem ulpExp_eq_of_bounds {q : ℚ} {e : ℤ} (he : -1022 ≤ e) (h1 : (2 : ℚ) ^ e ≤ |q|)
    (h2 : |q| < 2 ^ (e + 1)) : ulpExp q = e - 52 := by
  unfold ulpExp
  rw [log_eq_of_bounds h1 h2]
  exact max_eq_left (by omega)

theorem double_eval_pos (q u : ℚ) (e n : ℤ) (he : -1022 ≤ e) (he2 : e ≤ 1022)
    (hu : u = 2 ^ (e - 52)) (h1 : 2 ^ (52 : ℕ) * u ≤ q) (h2 : q < 2 ^ (53 : ℕ) * u)
    (h3 : (n : ℚ) * u - u / 2 < q) (h4 : q < n * u + u / 2) : double q = some (n * u) := by
  have hup : 0 < u := by
    rw [hu]
    exact two_zpow_pos _
  have hq : 0 < q := lt_of_lt_of_le (by positivity) h1
  have habs : |q| = q := abs_of_pos hq
  have hfl := fl_eval q u e n he hu (by rw [habs]; exact h1) (by rw [habs]; exact h2) h3 h4
  apply double_of_fl hfl
  rw [← hfl]
  have hb := abs_fl_le q
  have e2 : (2 : ℚ) ^ (e + 1) = 2 ^ (53 : ℕ) * u := by
    rw [hu, ← zpow_natCast, ← zpow_add₀ (by norm_num)]
    congr 1
    omega
  have e1 : (2 : ℚ) ^ e = 2 ^ (52 : ℕ) * u := by
    rw [hu, ← zpow_natCast, ← zpow_add₀ (by norm_num)]
    congr 1
    omega
  have hk : ulpExp q = e - 52 :=
    ulpExp_eq_of_bounds he (by rw [e1, habs]; exact h1) (by rw [e2, habs]; exact h2)
  rw [hk] at hb
  have h5 : (2 : ℚ) ^ (e - 52 + 53) ≤ 2 ^ (1023 : ℤ) := two_zpow_le (by omega)
  have h6 : (2 : ℚ) ^ (1023 : ℤ) < 2 ^ (1024 : ℕ) := by
    rw [← zpow_natCast]
    exact zpow_lt_zpow_right₀ (by norm_num) (by norm_num)
  linarith

theorem double_tie_pos (q u : ℚ) (e n : ℤ) (he : -1022 ≤ e) (he2 : e ≤ 1022)
    (hu : u = 2 ^ (e - 52)) (h1 : 2 ^ (52 : ℕ) * u ≤ q) (h2 : q < 2 ^ (53 : ℕ) * u)
    (hn : n % 2 = 0) (h3 : q = n * u + u / 2 ∨ q = n * u - u / 2) :
    double q = some (n * u) := by
  have hup : 0 < u := by
    rw [hu]
    exact two_zpow_pos _
  have hq : 0 < q := lt_of_lt_of_le (by positivity) h1
  have habs : |q| = q := abs_of_pos hq
  have e2 : (2 : ℚ) ^ (e + 1) = 2 ^ (53 : ℕ) * u := by
    rw [hu, ← zpow_natCast, ← zpow_add₀ (by norm_num)]
    congr 1
    omega
  have e1 : (2 : ℚ) ^ e = 2 ^ (52 : ℕ) * u := by
    rw [hu, ← zpow_natCast, ← zpow_add₀ (by norm_num)]
    congr 1
    omega
  have hk : ulpExp q = e - 52 :=
    ulpExp_eq_of_bounds he (by rw [e1, habs]; exact h1) (by rw [e2, habs]; exact h2)
  have hr : roundHalfEven (q / u) = n := by
    apply roundHalfEven_eq_of_tie _ _ hn
    rcases h3 with h | h
    · left
      rw [h]
      field_simp
      ring
    · right
      rw [h]
      field_simp
      ring
  have hfl : fl q = n * u := by
    unfold fl
    rw [hk, ← hu, hr]
  apply double_of_fl hfl
  rw [← hfl]
  have hb := abs_fl_le q
  rw [hk] at hb
  have h5 : (2 : ℚ) ^ (e - 52 + 53) ≤ 2 ^ (1023 : ℤ) := two_zpow_le (by omega)
  have h6 : (2 : ℚ) ^ (1023 : ℤ) < 2 ^ (1024 : ℕ) := by
    rw [← zpow_natCast]
    exact zpow_lt_zpow_right₀ (by norm_num) (by norm_num)
  linarith


/-! ## The tween in binary64 arithmetic -/

theorem fl_eq_self_pos (x : ℚ) (N a : ℤ) (ha : -1074 ≤ a) (h : x = N * 2 ^ a) (h0 : 0 ≤ x)
    (hlt : x < 2 ^ (a + 53)) : fl x = x :=
  fl_eq_self x N a ha h (by rw [abs_of_nonneg h0]; exact hlt)

theorem fl_one : fl 1 = 1 :=
  fl_eq_self_pos 1 1 0 (by norm_num) (by norm_num) (by norm_num) (by norm_num)

/-- A binary64 number of magnitude at least `2 ^ j` is a multiple of `2 ^ (j - 52)`. -/
theorem double_grid (y : ℚ) (hy : fl y = y) (j : ℤ) (hj : (2 : ℚ) ^ j ≤ |y|) :
    ∃ M : ℤ, y = M * 2 ^ (j - 52) := by
  have hy0 : y ≠ 0 := by
    intro h0
    rw [h0, abs_zero] at hj
    exact absurd hj (not_le.2 (two_zpow_pos j))
  have hlog := le_log_of_le_abs hy0 hj
  have hk : j - 52 ≤ ulpExp y := by
    have : Int.log 2 |y| - 52 ≤ ulpExp y := le_max_left _ _
    omega
  refine ⟨roundHalfEven (y / 2 ^ ulpExp y) * 2 ^ (ulpExp y - (j - 52)).toNat, ?_⟩
  have h1 : y = roundHalfEven (y / 2 ^ ulpExp y) * 2 ^ ulpExp y := by
    conv_lhs => rw [← hy]
    rfl
  refine h1.trans ?_
  rw [zpow_split hk]
  push_cast
  ring

theorem fl_div_duration_lt_one (el : ℚ) (hfl : fl el = el) (h0 : 0 ≤ el) (h7 : el < 700) :
    fl (el / 700) < 1 := by
  by_cases h : el < 512
  · have h1 : el / 700 ≤ 3 / 4 := by
      rw [div_le_iff₀ (by norm_num)]
      linarith
    have h2 := fl_mono h1
    have h3 : fl (3 / 4) = 3 / 4 :=
      fl_eq_self_pos (3 / 4) 3 (-2) (by norm_num) (by norm_num) (by norm_num) (by norm_num)
    linarith
  · have h512 : (2 : ℚ) ^ (9 : ℤ) ≤ |el| := by
      rw [abs_of_nonneg h0]
      norm_num
      linarith
    obtain ⟨M, hM⟩ := double_grid el hfl 9 h512
    have hu : (2 : ℚ) ^ ((9 : ℤ) - 52) = 1 / 8796093022208 := by norm_num
    rw [hu] at hM
    have hMlt : (M : ℚ) < ((6157265115545600 : ℤ) : ℚ) := by
      push_cast
      rw [hM] at h7
      linarith
    have hMle : M ≤ 6157265115545599 := by
      have := Int.cast_lt.1 hMlt
      omega
    have hMle2 : (M : ℚ) ≤ 6157265115545599 := by exact_mod_cast hMle
    have h1 : el / 700 ≤ 9007199254740991 / 9007199254740992 := by
      rw [div_le_iff₀ (by norm_num), hM]
      linarith
    have h2 := fl_mono h1
    have h3 : fl (9007199254740991 / 9007199254740992) = 9007199254740991 / 9007199254740992 :=
      fl_eq_self_pos _ 9007199254740991 (-53) (by norm_num) (by norm_num) (by norm_num)
        (by norm_num)
    rw [h3] at h2
    have h4 : (9007199254740991 / 9007199254740992 : ℚ) < 1 := by norm_num
    linarith

theorem fl_between {lo x hi : ℚ} (hlo : fl lo = lo) (hhi : fl hi = hi) (h1 : lo ≤ x)
    (h2 : x ≤ hi) : lo ≤ fl x ∧ fl x ≤ hi := by
  have h3 := fl_mono h1
  have h4 := fl_mono h2
  rw [hlo] at h3
  rw [hhi] at h4
  exact ⟨h3, h4⟩

theorem abs_lt_of_between {lo x hi b : ℚ} (h1 : lo ≤ x) (h2 : x ≤ hi) (hlo : |lo| < b)
    (hhi : |hi| < b) : |x| < b := by
  rw [abs_lt] at hlo hhi ⊢
  constructor <;> linarith

/-- C22 amended: in binary64 arithmetic, for a start value that is a finite binary64
number, a computed `elapsed = ts - startTime >= 0`, a finite difference
`d = end - start` and a finite final value `final = start + d`, the step returns: its
value is `start + d * min(1, elapsed / 700)` with every operation rounded; it lies
between `start` and `final` inclusive; for `elapsed >= 700` it is `final` and no frame
is requested; another frame is requested exactly when `elapsed < 700`; and `final` is
`end` when `start` is 0 and `end` is a finite binary64 number. -/
theorem step_interpolates (start endValue startTime ts elapsed d final : ℚ)
    (hs : double start = some start)
    (hel : dsub ts startTime = some elapsed) (h0 : 0 ≤ elapsed)
    (hd : dsub endValue start = some d) (hf : dadd start d = some final) :
    ∃ q p fr, ddiv elapsed duration = some q ∧ dmul d (min 1 q) = some p ∧
      dadd start p = some fr.value ∧
      step start endValue startTime ts = some fr ∧
      min start final ≤ fr.value ∧ fr.value ≤ max start final ∧
      (700 ≤ elapsed → fr.value = final ∧ fr.again = false) ∧
      (fr.again = true ↔ elapsed < 700) ∧
      (start = 0 → double endValue = some endValue → final = endValue) := by
  have hfs := fl_of_double hs
  have has := abs_of_result hs
  have hfe := fl_of_result hel
  have hae := abs_of_result hel
  have hfd := fl_of_result hd
  have had := abs_of_result hd
  have hff := fl_of_result hf
  have haf := abs_of_result hf
  have hfin : fl (start + d) = final := (double_eq_some.1 hf).1
  have hfl0 : fl 0 = 0 := fl_zero
  -- the quotient
  have hq1 : 0 ≤ elapsed / 700 := div_nonneg h0 (by norm_num)
  have hq2 : elapsed / 700 ≤ elapsed := by
    rw [div_le_iff₀ (by norm_num)]
    linarith
  obtain ⟨hq3, hq4⟩ := fl_between hfl0 hfe hq1 hq2
  have hq : ddiv elapsed duration = some (fl (elapsed / 700)) := by
    unfold ddiv duration
    rw [if_neg (by norm_num)]
    exact double_of_fl rfl (abs_lt_of_between hq3 hq4 (by norm_num) hae)
  have ht0 : 0 ≤ min 1 (fl (elapsed / 700)) := le_min (by norm_num) hq3
  have ht1 : min 1 (fl (elapsed / 700)) ≤ 1 := min_le_left _ _
  -- the product lies between 0 and d
  have hp : (0 ≤ d → 0 ≤ fl (d * min 1 (fl (elapsed / 700))) ∧
      fl (d * min 1 (fl (elapsed / 700))) ≤ d) ∧
      (d ≤ 0 → d ≤ fl (d * min 1 (fl (elapsed / 700))) ∧
        fl (d * min 1 (fl (elapsed / 700))) ≤ 0) := by
    constructor
    · intro hd0
      exact fl_between hfl0 hfd (mul_nonneg hd0 ht0) (by nlinarith)
    · intro hd0
      exact fl_between hfd hfl0 (by nlinarith) (by nlinarith)
  have hpabs : |fl (d * min 1 (fl (elapsed / 700)))| < 2 ^ (1024 : ℕ) := by
    rcases le_total 0 d with hd0 | hd0
    · exact abs_lt_of_between (hp.1 hd0).1 (hp.1 hd0).2 (by norm_num) had
    · exact abs_lt_of_between (hp.2 hd0).1 (hp.2 hd0).2 had (by norm_num)
  have hpm : dmul d (min 1 (fl (elapsed / 700)))
      = some (fl (d * min 1 (fl (elapsed / 700)))) := double_of_fl rfl hpabs
  -- the value lies between start and final
  have hv : (0 ≤ d → start ≤ fl (start + fl (d * min 1 (fl (elapsed / 700)))) ∧
      fl (start + fl (d * min 1 (fl (elapsed / 700)))) ≤ final) ∧
      (d ≤ 0 → final ≤ fl (start + fl (d * min 1 (fl (elapsed / 700)))) ∧
        fl (start + fl (d * min 1 (fl (elapsed / 700)))) ≤ start) := by
    constructor
    · intro hd0
      have h1 := fl_mono (show start ≤ start + fl (d * min 1 (fl (elapsed / 700))) by
        linarith [(hp.1 hd0).1])
      have h2 := fl_mono (show start + fl (d * min 1 (fl (elapsed / 700))) ≤ start + d by
        linarith [(hp.1 hd0).2])
      rw [hfs] at h1
      rw [hfin] at h2
      exact ⟨h1, h2⟩
    · intro hd0
      have h1 := fl_mono (show start + d ≤ start + fl (d * min 1 (fl (elapsed / 700))) by
        linarith [(hp.2 hd0).1])
      have h2 := fl_mono (show start + fl (d * min 1 (fl (elapsed / 700))) ≤ start by
        linarith [(hp.2 hd0).2])
      rw [hfin] at h1
      rw [hfs] at h2
      exact ⟨h1, h2⟩
  have hvabs : |fl (start + fl (d * min 1 (fl (elapsed / 700))))| < 2 ^ (1024 : ℕ) := by
    rcases le_total 0 d with hd0 | hd0
    · exact abs_lt_of_between (hv.1 hd0).1 (hv.1 hd0).2 has haf
    · exact abs_lt_of_between (hv.2 hd0).1 (hv.2 hd0).2 haf has
  have hva : dadd start (fl (d * min 1 (fl (elapsed / 700))))
      = some (fl (start + fl (d * min 1 (fl (elapsed / 700))))) := double_of_fl rfl hvabs
  have hge : 700 ≤ elapsed → 1 ≤ fl (elapsed / 700) := by
    intro h7
    have h1 : (1 : ℚ) ≤ elapsed / 700 := by
      rw [le_div_iff₀ (by norm_num)]
      linarith
    have h2 := fl_mono h1
    rw [fl_one] at h2
    exact h2
  refine ⟨fl (elapsed / 700), fl (d * min 1 (fl (elapsed / 700))),
    { value := fl (start + fl (d * min 1 (fl (elapsed / 700)))),
      again := decide (min 1 (fl (elapsed / 700)) < 1) }, hq, hpm, hva, ?_, ?_, ?_, ?_, ?_, ?_⟩
  · simp only [step, hel, hq, hd, hpm, hva, Option.some_bind, Option.map_some']
  · rcases le_total 0 d with hd0 | hd0
    · exact le_trans (min_le_left _ _) (hv.1 hd0).1
    · exact le_trans (min_le_right _ _) (hv.2 hd0).1
  · rcases le_total 0 d with hd0 | hd0
    · exact le_trans (hv.1 hd0).2 (le_max_right _ _)
    · exact le_trans (hv.2 hd0).2 (le_max_left _ _)
  · intro h7
    have hmin : min 1 (fl (elapsed / 700)) = 1 := min_eq_left (hge h7)
    simp only [hmin, mul_one, hfd, hfin, lt_irrefl, decide_False, and_self]
  · simp only [decide_eq_true_eq, min_lt_iff, lt_irrefl, false_or]
    constructor
    · intro hlt
      by_contra hnot
      exact absurd (hge (not_lt.1 hnot)) (not_le.2 hlt)
    · intro hlt
      exact fl_div_duration_lt_one elapsed hfe h0 hlt
  · intro hs0 he
    have hde : d = endValue := by
      have h1 := (double_eq_some.1 hd).1
      rw [hs0, sub_zero, fl_of_double he] at h1
      exact h1.symm
    rw [← hfin, hs0, zero_add, hde, fl_of_double he]


/-- C22 fails as stated: a tween from 5.1 to 21.2 (the binary64 numbers nearest to
them), sampled 700 ms after its start, has the value 21.200000000000003 before the
2-decimal rounding: it is not `end` and it is above both `start` and `end`. -/
theorem step_overshoots_end :
    double (51 / 10) = some (2871044762448691 / 562949953421312) ∧
    double (212 / 10) = some (5967269506265907 / 281474976710656) ∧
    step (2871044762448691 / 562949953421312) (5967269506265907 / 281474976710656) 1000 1700
      = some { value := 1491817376566477 / 70368744177664, again := false } ∧
    (5967269506265907 / 281474976710656 : ℚ) < 1491817376566477 / 70368744177664 := by
  have hA : double (51 / 10) = some (2871044762448691 / 562949953421312) := by
    have h := double_eval_pos (51 / 10) (1 / 1125899906842624) (2) 5742089524897382
      (by norm_num) (by norm_num) (by norm_num) (by norm_num)
      (by norm_num) (by norm_num) (by norm_num)
    rw [h]
    norm_num
  have hB : double (212 / 10) = some (5967269506265907 / 281474976710656) := by
    have h := double_eval_pos (212 / 10) (1 / 281474976710656) (4) 5967269506265907
      (by norm_num) (by norm_num) (by norm_num) (by norm_num)
      (by norm_num) (by norm_num) (by norm_num)
    rw [h]
    norm_num
  have h1 : double (1700 - 1000) = some (700) := by
    have h := double_eval_pos (1700 - 1000) (1 / 8796093022208) (9) 6157265115545600
      (by norm_num) (by norm_num) (by norm_num) (by norm_num)
      (by norm_num) (by norm_num) (by norm_num)
    rw [h]
    norm_num
  have h2 : double (700 / 700) = some (1) := by
    have h := double_eval_pos (700 / 700) (1 / 4503599627370496) (0) 4503599627370496
      (by norm_num) (by norm_num) (by norm_num) (by norm_num)
      (by norm_num) (by norm_num) (by norm_num)
    rw [h]
    norm_num
  have h3 :
      double (5967269506265907 / 281474976710656 - 2871044762448691 / 562949953421312)
        = some (2265873562520781 / 140737488355328) := by
    have h := double_tie_pos
      (5967269506265907 / 281474976710656 - 2871044762448691 / 562949953421312)
      (1 / 281474976710656) (4) 4531747125041562
      (by norm_num) (by norm_num) (by norm_num) (by norm_num)
      (by norm_num) (by norm_num) (by norm_num)
    rw [h]
    norm_num
  have h4 :
      double (2265873562520781 / 140737488355328 * 1)
        = some (2265873562520781 / 140737488355328) := by
    have h := double_eval_pos
      (2265873562520781 / 140737488355328 * 1)
      (1 / 281474976710656) (4) 4531747125041562
      (by norm_num) (by norm_num) (by norm_num) (by norm_num)
      (by norm_num) (by norm_num) (by norm_num)
    rw [h]
    norm_num
  have h5 :
      double (2871044762448691 / 562949953421312 + 2265873562520781 / 140737488355328)
        = some (1491817376566477 / 70368744177664) := by
    have h := double_tie_pos
      (2871044762448691 / 562949953421312 + 2265873562520781 / 140737488355328)
      (1 / 281474976710656) (4) 5967269506265908
      (by norm_num) (by norm_num) (by norm_num) (by norm_num)
      (by norm_num) (by norm_num) (by norm_num)
    rw [h]
    norm_num
  refine ⟨hA, hB, ?_, by norm_num⟩
  simp only [step, dsub, ddiv, dmul, dadd, duration, h1, Option.some_bind]
  rw [if_neg (by norm_num), h2]
  simp only [Option.some_bind, min_self, h3, h4, h5, Option.map_some']
  norm_num


/-! ## The bar widths in binary64 arithmetic -/

/-- A binary64 number is a multiple of every power of two up to its unit in the last
place. -/
theorem double_grid_ulp (y : ℚ) (hy : fl y = y) (k : ℤ) (hk : k ≤ ulpExp y) :
    ∃ M : ℤ, y = M * 2 ^ k := by
  refine ⟨roundHalfEven (y / 2 ^ ulpExp y) * 2 ^ (ulpExp y - k).toNat, ?_⟩
  have h1 : y = roundHalfEven (y / 2 ^ ulpExp y) * 2 ^ ulpExp y := by
    conv_lhs => rw [← hy]
    rfl
  refine h1.trans ?_
  rw [zpow_split hk]
  push_cast
  ring

/-- Two binary64 numbers `0 < p < m` differ by more than `p * 2 ^ (-53)`. -/
theorem double_gap {p m : ℚ} (hp : fl p = p) (hm : fl m = m) (hp0 : 0 < p) (hpm : p < m) :
    p * (1 + 1 / 2 ^ (53 : ℕ)) < m := by
  obtain ⟨P, hP⟩ := double_grid_ulp p hp (ulpExp p) le_rfl
  obtain ⟨M, hM⟩ := double_grid_ulp m hm (ulpExp p) (ulpExp_mono_pos hp0 hpm.le)
  have hu := two_zpow_pos (ulpExp p)
  have hlt : (P : ℚ) < M := by
    have h1 : (P : ℚ) * 2 ^ ulpExp p < M * 2 ^ ulpExp p := by
      rw [← hP, ← hM]
      exact hpm
    exact lt_of_mul_lt_mul_right h1 hu.le
  have hle : (P : ℚ) + 1 ≤ M := by
    have h1 : P + 1 ≤ M := Int.cast_lt.1 hlt
    exact_mod_cast h1
  have hstep : p + 2 ^ ulpExp p ≤ m := by
    have h1 : (P : ℚ) * 2 ^ ulpExp p + 2 ^ ulpExp p ≤ M * 2 ^ ulpExp p := by nlinarith
    calc p + 2 ^ ulpExp p = (P : ℚ) * 2 ^ ulpExp p + 2 ^ ulpExp p := by rw [← hP]
      _ ≤ M * 2 ^ ulpExp p := h1
      _ = m := hM.symm
  have hsmall : p / 2 ^ (53 : ℕ) < 2 ^ ulpExp p := by
    have h1 := abs_lt_zpow_log p
    rw [abs_of_pos hp0] at h1
    have h2 : Int.log 2 p + 1 ≤ ulpExp p + 53 := by
      have h3 : Int.log 2 |p| - 52 ≤ ulpExp p := le_max_left _ _
      rw [abs_of_pos hp0] at h3
      omega
    have h4 := two_zpow_le h2
    have h5 : (2 : ℚ) ^ (ulpExp p + 53) = 2 ^ ulpExp p * 2 ^ (53 : ℕ) := by
      rw [zpow_add₀ (by norm_num)]
      norm_num
    rw [div_lt_iff₀ (by norm_num)]
    linarith
  have h6 : p * (1 + 1 / 2 ^ (53 : ℕ)) = p + p / 2 ^ (53 : ℕ) := by ring
  rw [h6]
  linarith

theorem fl_two : fl 2 = 2 :=
  fl_eq_self_pos 2 2 0 (by norm_num) (by norm_num) (by norm_num) (by norm_num)

/-- Above the midpoint between 1 and the next binary64 number the rounding is at least
that next number. -/
theorem fl_ge_succ_one {x : ℚ} (h : 1 + 1 / 2 ^ (53 : ℕ) < x) :
    1 + 1 / 2 ^ (52 : ℕ) ≤ fl x := by
  by_cases h2 : 2 ≤ x
  · have := fl_mono h2
    rw [fl_two] at this
    have h3 : (1 : ℚ) + 1 / 2 ^ (52 : ℕ) ≤ 2 := by norm_num
    linarith
  · have hx0 : 0 < x := by
      have : (0 : ℚ) < 1 + 1 / 2 ^ (53 : ℕ) := by norm_num
      linarith
    have habs : |x| = x := abs_of_pos hx0
    have hk : ulpExp x = 0 - 52 :=
      ulpExp_eq_of_bounds (by norm_num)
        (by
          rw [habs]
          have : (1 : ℚ) < 1 + 1 / 2 ^ (53 : ℕ) := by norm_num
          norm_num
          linarith)
        (by
          rw [habs]
          norm_num
          linarith [not_le.1 h2])
    have hu : (2 : ℚ) ^ ((0 : ℤ) - 52) = 1 / 2 ^ (52 : ℕ) := by norm_num
    unfold fl
    rw [hk, hu]
    have hr := roundHalfEven_ge (x / (1 / 2 ^ (52 : ℕ)))
    have hs : (2 : ℚ) ^ (52 : ℕ) + 1 / 2 < x / (1 / 2 ^ (52 : ℕ)) := by
      rw [lt_div_iff₀ (by norm_num)]
      have h3 : ((2 : ℚ) ^ (52 : ℕ) + 1 / 2) * (1 / 2 ^ (52 : ℕ)) = 1 + 1 / 2 ^ (53 : ℕ) := by
        norm_num
      rw [h3]
      exact h
    have hgt : ((2 ^ 52 : ℤ) : ℚ) < roundHalfEven (x / (1 / 2 ^ (52 : ℕ))) := by
      push_cast
      linarith
    have hge : (2 ^ 52 : ℤ) + 1 ≤ roundHalfEven (x / (1 / 2 ^ (52 : ℕ))) := Int.cast_lt.1 hgt
    have hge2 : ((2 : ℚ) ^ (52 : ℕ) + 1) ≤ roundHalfEven (x / (1 / 2 ^ (52 : ℕ))) := by
      exact_mod_cast hge
    have h4 : (1 : ℚ) + 1 / 2 ^ (52 : ℕ) = (2 ^ (52 : ℕ) + 1) * (1 / 2 ^ (52 : ℕ)) := by
      norm_num
    rw [h4]
    exact mul_le_mul_of_nonneg_right hge2 (by norm_num)


theorem fl_hundred : fl 100 = 100 :=
  fl_eq_self_pos 100 100 0 (by norm_num) (by norm_num) (by norm_num) (by norm_num)

theorem fl_succ_one_hundred :
    fl ((1 + 1 / 2 ^ (52 : ℕ)) * 100) = 100 + 1 / 2 ^ (45 : ℕ) := by
  have h := fl_eval ((1 + 1 / 2 ^ (52 : ℕ)) * 100) (1 / 2 ^ (46 : ℕ)) 6 7036874417766402
    (by norm_num) (by norm_num) (by rw [abs_of_pos (by norm_num)]; norm_num)
    (by rw [abs_of_pos (by norm_num)]; norm_num) (by norm_num) (by norm_num)
  rw [h]
  norm_num

theorem breakdownWidths_eq_some {p m w1 w2 : ℚ} (hp0 : p ≠ 0)
    (h : breakdownWidths p m = some (w1, w2)) :
    |fl (p - m)| < 2 ^ (1024 : ℕ) ∧ |fl (m / p)| < 2 ^ (1024 : ℕ) ∧
      w1 = fl (fl (m / p) * 100) ∧ w2 = fl (fl (|fl (p - m)| / p) * 100) := by
  simp only [breakdownWidths, barWidth, dsub, ddiv, dmul, hp0, if_false, Option.bind_eq_some,
    Option.map_eq_some', double_eq_some, Prod.mk.injEq] at h
  obtain ⟨adj, ⟨hadj, hadj2⟩, a1, ⟨r1, ⟨hr1, hr1b⟩, hw1, _⟩, a2, ⟨r2, ⟨hr2, _⟩, hw2, _⟩, e1, e2⟩ := h
  subst hadj hr1 hr2 hw1 hw2
  exact ⟨hadj2, hr1b, e1.symm, e2.symm⟩

/-! ## Rounding errors -/

theorem fl_err (x : ℚ) : |fl x - x| ≤ 2 ^ ulpExp x / 2 := by
  have hu := two_zpow_pos (ulpExp x)
  have h1 := roundHalfEven_ge (x / 2 ^ ulpExp x)
  have h2 := roundHalfEven_le (x / 2 ^ ulpExp x)
  have hx : x = x / 2 ^ ulpExp x * 2 ^ ulpExp x := by
    field_simp
  unfold fl
  rw [abs_le]
  constructor
  · have := mul_le_mul_of_nonneg_right h1 hu.le
    nlinarith
  · have := mul_le_mul_of_nonneg_right h2 hu.le
    nlinarith

theorem fl_rel_of_normal {x : ℚ} (hx : x ≠ 0) (hk : ulpExp x = Int.log 2 |x| - 52) :
    |fl x - x| ≤ |x| / 2 ^ (53 : ℕ) := by
  have h1 := fl_err x
  have h2 := zpow_log_le_abs hx
  have h3 : (2 : ℚ) ^ ulpExp x / 2 = 2 ^ Int.log 2 |x| / 2 ^ (53 : ℕ) := by
    rw [hk, zpow_sub₀ (by norm_num)]
    norm_num
    ring
  rw [h3] at h1
  have h4 : (2 : ℚ) ^ Int.log 2 |x| / 2 ^ (53 : ℕ) ≤ |x| / 2 ^ (53 : ℕ) :=
    div_le_div_of_nonneg_right h2 (by norm_num)
  linarith

/-- The error of a rounding: relative error at most `2 ^ (-53)`, or at most
`2 ^ (-1075)` in the subnormal range. -/
theorem fl_rel (x : ℚ) : |fl x - x| ≤ |x| / 2 ^ (53 : ℕ) + 1 / 2 ^ (1075 : ℕ) := by
  by_cases hx : x = 0
  · rw [hx, fl_zero]
    norm_num
  · rcases max_cases (Int.log 2 |x| - 52) (-1074) with ⟨h1, _⟩ | ⟨h1, _⟩
    · have := fl_rel_of_normal hx h1
      have h2 : (0 : ℚ) ≤ 1 / 2 ^ (1075 : ℕ) := by norm_num
      linarith
    · have h2 := fl_err x
      have h3 : ulpExp x = -1074 := h1
      rw [h3] at h2
      have h4 : (2 : ℚ) ^ (-1074 : ℤ) / 2 = 1 / 2 ^ (1075 : ℕ) := by
        rw [zpow_neg, zpow_ofNat]
        norm_num
      rw [h4] at h2
      have h5 : 0 ≤ |x| / 2 ^ (53 : ℕ) := div_nonneg (abs_nonneg x) (by norm_num)
      linarith

/-- The difference of two binary64 numbers is rounded with a relative error of at most
`2 ^ (-53)`: it is exact in the subnormal range. -/
theorem fl_sub_rel {a b : ℚ} (ha : fl a = a) (hb : fl b = b) :
    |fl (a - b) - (a - b)| ≤ |a - b| / 2 ^ (53 : ℕ) := by
  by_cases hx : a - b = 0
  · rw [hx, fl_zero]
    norm_num
  · rcases max_cases (Int.log 2 |a - b| - 52) (-1074) with ⟨h1, _⟩ | ⟨h1, _⟩
    · exact fl_rel_of_normal hx h1
    · have h3 : ulpExp (a - b) = -1074 := h1
      obtain ⟨A, hA⟩ := double_grid_ulp a ha (-1074) (ulpExp_ge a)
      obtain ⟨B, hB⟩ := double_grid_ulp b hb (-1074) (ulpExp_ge b)
      have hgrid : a - b = ((A - B : ℤ) : ℚ) * 2 ^ (-1074 : ℤ) := by
        push_cast
        rw [sub_mul, ← hA, ← hB]
      have hex : fl (a - b) = a - b := fl_eq_of_grid (a - b) (A - B) (-1074) (by omega) hgrid
      rw [hex, sub_self, abs_zero]
      exact div_nonneg (abs_nonneg _) (by norm_num)

/-- For binary64 numbers `0 < m ≤ p` the two bar widths sum to 100 within `2 ^ (-44)`. -/
theorem widths_sum_near_hundred {p m : ℚ} (hp : fl p = p) (hm : fl m = m) (hp0 : 0 < p)
    (hm0 : 0 < m) (hmp : m ≤ p) :
    |fl (fl (m / p) * 100) + fl (fl (fl (p - m) / p) * 100) - 100| ≤ 1 / 2 ^ (44 : ℕ) := by
  have hA0 : 0 ≤ m / p := div_nonneg hm0.le hp0.le
  have hB0 : 0 ≤ (p - m) / p := div_nonneg (by linarith) hp0.le
  have hAB : m / p + (p - m) / p = 1 := by
    field_simp
  have hA1 : m / p ≤ 1 := by linarith
  have hB1 : (p - m) / p ≤ 1 := by linarith
  -- the first width
  have hr1 := fl_rel (m / p)
  rw [abs_of_nonneg hA0] at hr1
  have hr1n : 0 ≤ fl (m / p) := fl_nonneg hA0
  have hw1 := fl_rel (fl (m / p) * 100)
  rw [abs_of_nonneg (mul_nonneg hr1n (by norm_num))] at hw1
  -- the second width
  have hd := fl_sub_rel hp hm
  rw [abs_of_nonneg (show 0 ≤ p - m by linarith)] at hd
  have hdn : 0 ≤ fl (p - m) := fl_nonneg (by linarith)
  have hq : |fl (p - m) / p - (p - m) / p| ≤ (p - m) / p / 2 ^ (53 : ℕ) := by
    have h1 : fl (p - m) / p - (p - m) / p = (fl (p - m) - (p - m)) / p := by ring
    rw [h1, abs_div, abs_of_pos hp0]
    have h2 : (p - m) / p / 2 ^ (53 : ℕ) = (p - m) / 2 ^ (53 : ℕ) / p := by ring
    rw [h2]
    exact div_le_div_of_nonneg_right hd hp0.le
  have hqn : 0 ≤ fl (p - m) / p := div_nonneg hdn hp0.le
  have hr2 := fl_rel (fl (p - m) / p)
  rw [abs_of_nonneg hqn] at hr2
  have hr2n : 0 ≤ fl (fl (p - m) / p) := fl_nonneg hqn
  have hw2 := fl_rel (fl (fl (p - m) / p) * 100)
  rw [abs_of_nonneg (mul_nonneg hr2n (by norm_num))] at hw2
  rw [abs_le] at hr1 hw1 hq hr2 hw2 ⊢
  norm_num at hr1 hw1 hq hr2 hw2 ⊢
  constructor <;> linarith


/-- C25 amended: for finite binary64 numbers `predicted > 0` and `modelBase > 0`, with
the two bar widths computed in binary64 arithmetic: when `predicted >= modelBase` the
widths exist, lie in `[0, 100]` and sum to 100 within `2 ^ (-44)`; when
`predicted = modelBase` they are 100 and 0; whenever the widths exist they are not
negative, `modelBase > predicted` makes the base bar alone wider than 100 (and the sum
larger than 100), and a sum of exactly 100 implies `predicted >= modelBase`. -/
theorem StatBreakdown_widths_sum (p m : ℚ) (hp : double p = some p) (hm : double m = some m)
    (hp0 : 0 < p) (hm0 : 0 < m) :
    (m ≤ p → ∃ w1 w2, breakdownWidths p m = some (w1, w2) ∧
      0 ≤ w1 ∧ w1 ≤ 100 ∧ 0 ≤ w2 ∧ w2 ≤ 100 ∧ |w1 + w2 - 100| ≤ 1 / 2 ^ (44 : ℕ)) ∧
    (m = p → breakdownWidths p m = some (100, 0)) ∧
    (∀ w1 w2, breakdownWidths p m = some (w1, w2) →
      0 ≤ w1 ∧ 0 ≤ w2 ∧ (p < m → 100 < w1 ∧ 100 < w1 + w2) ∧ (w1 + w2 = 100 → m ≤ p)) := by
  have hfp := fl_of_double hp
  have hfm := fl_of_double hm
  have hap := abs_of_result hp
  have hp1 : p ≠ 0 := ne_of_gt hp0
  have huge : (100 : ℚ) < 2 ^ (1024 : ℕ) := by norm_num
  have hone : (1 : ℚ) < 2 ^ (1024 : ℕ) := by norm_num
  have hzero : |(0 : ℚ)| < 2 ^ (1024 : ℕ) := by norm_num
  have hall : ∀ w1 w2, breakdownWidths p m = some (w1, w2) →
      0 ≤ w1 ∧ 0 ≤ w2 ∧ (p < m → 100 < w1 ∧ 100 < w1 + w2) := by
    intro w1 w2 h
    obtain ⟨_, _, e1, e2⟩ := breakdownWidths_eq_some hp1 h
    have hr1 : 0 ≤ fl (m / p) := fl_nonneg (div_nonneg hm0.le hp0.le)
    have hw1 : 0 ≤ w1 := by
      rw [e1]
      exact fl_nonneg (mul_nonneg hr1 (by norm_num))
    have hw2 : 0 ≤ w2 := by
      rw [e2]
      exact fl_nonneg (mul_nonneg (fl_nonneg (div_nonneg (abs_nonneg _) hp0.le)) (by norm_num))
    refine ⟨hw1, hw2, ?_⟩
    intro hpm
    have hgap := double_gap hfp hfm hp0 hpm
    have hq : 1 + 1 / 2 ^ (53 : ℕ) < m / p := by
      rw [lt_div_iff₀ hp0]
      linarith
    have hr := fl_ge_succ_one hq
    have hmono := fl_mono (show (1 + 1 / 2 ^ (52 : ℕ)) * 100 ≤ fl (m / p) * 100 by linarith)
    rw [fl_succ_one_hundred, ← e1] at hmono
    have hpos : (0 : ℚ) < 1 / 2 ^ (45 : ℕ) := by norm_num
    constructor <;> linarith
  refine ⟨?_, ?_, ?_⟩
  · intro hmp
    have hd1 : 0 ≤ p - m := by linarith
    have hd2 : p - m ≤ p := by linarith
    obtain ⟨ha1, ha2⟩ := fl_between fl_zero hfp hd1 hd2
    have hr11 : 0 ≤ m / p := div_nonneg hm0.le hp0.le
    have hr12 : m / p ≤ 1 := by
      rw [div_le_iff₀ hp0]
      linarith
    obtain ⟨hr1a, hr1b⟩ := fl_between fl_zero fl_one hr11 hr12
    obtain ⟨hw1a, hw1b⟩ := fl_between fl_zero fl_hundred
      (show 0 ≤ fl (m / p) * 100 by linarith) (show fl (m / p) * 100 ≤ 100 by linarith)
    have habs : |fl (p - m)| = fl (p - m) := abs_of_nonneg ha1
    have hr21 : 0 ≤ fl (p - m) / p := div_nonneg ha1 hp0.le
    have hr22 : fl (p - m) / p ≤ 1 := by
      rw [div_le_iff₀ hp0]
      linarith
    obtain ⟨hr2a, hr2b⟩ := fl_between fl_zero fl_one hr21 hr22
    obtain ⟨hw2a, hw2b⟩ := fl_between fl_zero fl_hundred
      (show 0 ≤ fl (fl (p - m) / p) * 100 by linarith)
      (show fl (fl (p - m) / p) * 100 ≤ 100 by linarith)
    refine ⟨fl (fl (m / p) * 100), fl (fl (fl (p - m) / p) * 100), ?_, hw1a, hw1b, hw2a, hw2b,
      widths_sum_near_hundred hfp hfm hp0 hm0 hmp⟩
    have e1 : dsub p m = some (fl (p - m)) :=
      double_of_fl rfl (abs_lt_of_between ha1 ha2 hzero hap)
    have e2 : ddiv m p = some (fl (m / p)) := by
      unfold ddiv
      rw [if_neg hp1]
      exact double_of_fl rfl (abs_lt_of_between hr1a hr1b hzero (by rw [abs_one]; exact hone))
    have e3 : dmul (fl (m / p)) 100 = some (fl (fl (m / p) * 100)) :=
      double_of_fl rfl (abs_lt_of_between hw1a hw1b hzero
        (by rw [abs_of_pos (by norm_num)]; exact huge))
    have e4 : ddiv |fl (p - m)| p = some (fl (fl (p - m) / p)) := by
      unfold ddiv
      rw [if_neg hp1, habs]
      exact double_of_fl rfl (abs_lt_of_between hr2a hr2b hzero (by rw [abs_one]; exact hone))
    have e5 : dmul (fl (fl (p - m) / p)) 100 = some (fl (fl (fl (p - m) / p) * 100)) :=
      double_of_fl rfl (abs_lt_of_between hw2a hw2b hzero
        (by rw [abs_of_pos (by norm_num)]; exact huge))
    simp only [breakdownWidths, barWidth, e1, e2, e3, e4, e5, Option.some_bind,
      Option.map_some']
  · intro hmp
    subst hmp
    have e1 : dsub m m = some 0 := by
      unfold dsub
      rw [sub_self]
      exact double_of_fl fl_zero hzero
    have e2 : ddiv m m = some 1 := by
      unfold ddiv
      rw [if_neg hp1, div_self hp1]
      exact double_of_fl fl_one (by rw [abs_one]; exact hone)
    have e3 : dmul 1 100 = some 100 := by
      unfold dmul
      rw [one_mul]
      exact double_of_fl fl_hundred (by rw [abs_of_pos (by norm_num)]; exact huge)
    have e4 : ddiv |0| m = some 0 := by
      unfold ddiv
      rw [if_neg hp1, abs_zero, zero_div]
      exact double_of_fl fl_zero hzero
    have e5 : dmul 0 100 = some 0 := by
      unfold dmul
      rw [zero_mul]
      exact double_of_fl fl_zero hzero
    simp only [breakdownWidths, barWidth, e1, e2, e3, e4, e5, Option.some_bind,
      Option.map_some']
  · intro w1 w2 h
    obtain ⟨h1, h2, h3⟩ := hall w1 w2 h
    refine ⟨h1, h2, h3, ?_⟩
    intro hsum
    by_contra hnot
    have := (h3 (not_le.1 hnot)).2
    linarith

/-! ## The rolling mean in binary64 arithmetic -/

theorem double_between {lo x hi : ℚ} (hlo : double lo = some lo) (hhi : double hi = some hi)
    (h1 : lo ≤ x) (h2 : x ≤ hi) : ∃ s, double x = some s ∧ lo ≤ s ∧ s ≤ hi := by
  obtain ⟨h3, h4⟩ := fl_between (fl_of_double hlo) (fl_of_double hhi) h1 h2
  exact ⟨fl x, double_of_fl rfl (abs_lt_of_between h3 h4 (abs_of_result hlo) (abs_of_result hhi)),
    h3, h4⟩

theorem double_natCast (n : ℕ) (h : n < 2 ^ 53) : double (n : ℚ) = some (n : ℚ) := by
  have h1 : (n : ℚ) < 2 ^ (53 : ℕ) := by exact_mod_cast h
  have hfl : fl (n : ℚ) = n :=
    fl_eq_self_pos (n : ℚ) n 0 (by norm_num) (by simp) (Nat.cast_nonneg n)
      (by
        rw [zero_add]
        exact_mod_cast h1)
  apply double_of_fl hfl
  rw [abs_of_nonneg (Nat.cast_nonneg n)]
  have h2 : (2 : ℚ) ^ (53 : ℕ) < 2 ^ (1024 : ℕ) := by norm_num
  linarith

theorem double_zero : double 0 = some 0 := by
  simpa using double_natCast 0 (by norm_num)

theorem double_one : double 1 = some 1 := by
  simpa using double_natCast 1 (by norm_num)

theorem ddiv_of_double {s n q : ℚ} (hn : n ≠ 0) (h : double (s / n) = some q) :
    ddiv s n = some q := by
  unfold ddiv
  rw [if_neg hn]
  exact h

/-- The rolling mean of a window of one to three values in `[0, 1]` is in `[0, 1]`. -/
theorem meanDouble_unit (w : List ℚ) (hne : w ≠ []) (hlen : w.length ≤ 3)
    (h : ∀ v ∈ w, 0 ≤ v ∧ v ≤ 1) : ∃ q, meanDouble w = some q ∧ 0 ≤ q ∧ q ≤ 1 := by
  have d0 := double_zero
  have d1 := double_one
  have d2 : double 2 = some 2 := by simpa using double_natCast 2 (by norm_num)
  have d3 : double 3 = some 3 := by simpa using double_natCast 3 (by norm_num)
  match w, hne, hlen, h with
  | [a], _, _, h =>
    have ha := h a (by simp)
    have hl : (([a].length : ℕ) : ℚ) = 1 := by norm_num
    obtain ⟨s1, e1, l1, u1⟩ := double_between d0 d1 (show 0 ≤ 0 + a by linarith)
      (show 0 + a ≤ 1 by linarith)
    obtain ⟨q, e2, l2, u2⟩ := double_between d0 d1
      (show 0 ≤ s1 / (([a].length : ℕ) : ℚ) by rw [hl]; linarith)
      (show s1 / (([a].length : ℕ) : ℚ) ≤ 1 by rw [hl]; linarith)
    refine ⟨q, ?_, l2, u2⟩
    simp only [meanDouble, sumDouble, dadd, e1, Option.some_bind]
    exact ddiv_of_double (by rw [hl]; norm_num) e2
  | [a, b], _, _, h =>
    have ha := h a (by simp)
    have hb := h b (by simp)
    have hl : (([a, b].length : ℕ) : ℚ) = 2 := by norm_num
    obtain ⟨s1, e1, l1, u1⟩ := double_between d0 d1 (show 0 ≤ 0 + a by linarith)
      (show 0 + a ≤ 1 by linarith)
    obtain ⟨s2, e2, l2, u2⟩ := double_between d0 d2 (show 0 ≤ s1 + b by linarith)
      (show s1 + b ≤ 2 by linarith)
    obtain ⟨q, e3, l3, u3⟩ := double_between d0 d1
      (show 0 ≤ s2 / (([a, b].length : ℕ) : ℚ) by rw [hl]; linarith)
      (show s2 / (([a, b].length : ℕ) : ℚ) ≤ 1 by rw [hl]; linarith)
    refine ⟨q, ?_, l3, u3⟩
    simp only [meanDouble, sumDouble, dadd, e1, e2, Option.some_bind]
    exact ddiv_of_double (by rw [hl]; norm_num) e3
  | [a, b, c], _, _, h =>
    have ha := h a (by simp)
    have hb := h b (by simp)
    have hc := h c (by simp)
    have hl : (([a, b, c].length : ℕ) : ℚ) = 3 := by norm_num
    obtain ⟨s1, e1, l1, u1⟩ := double_between d0 d1 (show 0 ≤ 0 + a by linarith)
      (show 0 + a ≤ 1 by linarith)
    obtain ⟨s2, e2, l2, u2⟩ := double_between d0 d2 (show 0 ≤ s1 + b by linarith)
      (show s1 + b ≤ 2 by linarith)
    obtain ⟨s3, e3, l3, u3⟩ := double_between d0 d3 (show 0 ≤ s2 + c by linarith)
      (show s2 + c ≤ 3 by linarith)
    obtain ⟨q, e4, l4, u4⟩ := double_between d0 d1
      (show 0 ≤ s3 / (([a, b, c].length : ℕ) : ℚ) by rw [hl]; linarith)
      (show s3 / (([a, b, c].length : ℕ) : ℚ) ≤ 1 by rw [hl]; linarith)
    refine ⟨q, ?_, l4, u4⟩
    simp only [meanDouble, sumDouble, dadd, e1, e2, e3, Option.some_bind]
    exact ddiv_of_double (by rw [hl]; norm_num) e4
  | _ :: _ :: _ :: _ :: _, _, hlen, _ => simp at hlen


/-- Twice a binary64 number is a binary64 number (up to overflow). -/
theorem fl_two_mul {x : ℚ} (hx : fl x = x) : fl (2 * x) = 2 * x := by
  by_cases h0 : x = 0
  · rw [h0, mul_zero, fl_zero]
  · obtain ⟨R, hR⟩ := double_grid_ulp x hx (ulpExp x) le_rfl
    have h1 := abs_lt_zpow_log x
    have h2 : Int.log 2 |x| + 1 ≤ ulpExp x + 53 := by
      have : Int.log 2 |x| - 52 ≤ ulpExp x := le_max_left _ _
      omega
    have h3 := two_zpow_le h2
    have h4 : |2 * x| < 2 ^ (ulpExp x + 1 + 53) := by
      rw [abs_mul, abs_of_pos (by norm_num : (0 : ℚ) < 2)]
      have h5 : (2 : ℚ) ^ (ulpExp x + 1 + 53) = 2 * 2 ^ (ulpExp x + 53) := by
        rw [show ulpExp x + 1 + 53 = 1 + (ulpExp x + 53) by ring, zpow_one_add₀ (by norm_num)]
      rw [h5]
      linarith
    have h6 := ulpExp_ge x
    refine fl_eq_self (2 * x) R (ulpExp x + 1) (by omega) ?_ h4
    rw [zpow_add_one₀ (by norm_num)]
    calc 2 * x = 2 * (R * 2 ^ ulpExp x) := by rw [← hR]
      _ = R * (2 ^ ulpExp x * 2) := by ring

theorem double_two_mul {x : ℚ} (hx : double x = some x) (hb : |x| < 2 ^ (1023 : ℕ)) :
    double (2 * x) = some (2 * x) := by
  apply double_of_fl (fl_two_mul (fl_of_double hx))
  rw [abs_mul, abs_of_pos (by norm_num : (0 : ℚ) < 2)]
  have : (2 : ℚ) ^ (1024 : ℕ) = 2 * 2 ^ (1023 : ℕ) := by norm_num
  rw [this]
  linarith

/-- The rolling mean of a window of one or two values lies in every interval with
binary64 ends that holds the values. -/
theorem meanDouble_short (w : List ℚ) (hne : w ≠ []) (hlen : w.length ≤ 2) (lo hi : ℚ)
    (hlo : double lo = some lo) (hhi : double hi = some hi) (blo : |lo| < 2 ^ (1023 : ℕ))
    (bhi : |hi| < 2 ^ (1023 : ℕ)) (h : ∀ v ∈ w, lo ≤ v ∧ v ≤ hi) :
    ∃ q, meanDouble w = some q ∧ lo ≤ q ∧ q ≤ hi := by
  match w, hne, hlen, h with
  | [a], _, _, h =>
    have ha := h a (by simp)
    have hl : (([a].length : ℕ) : ℚ) = 1 := by norm_num
    obtain ⟨s1, e1, l1, u1⟩ := double_between hlo hhi (show lo ≤ 0 + a by linarith)
      (show 0 + a ≤ hi by linarith)
    obtain ⟨q, e2, l2, u2⟩ := double_between hlo hhi
      (show lo ≤ s1 / (([a].length : ℕ) : ℚ) by rw [hl]; linarith)
      (show s1 / (([a].length : ℕ) : ℚ) ≤ hi by rw [hl]; linarith)
    refine ⟨q, ?_, l2, u2⟩
    simp only [meanDouble, sumDouble, dadd, e1, Option.some_bind]
    exact ddiv_of_double (by rw [hl]; norm_num) e2
  | [a, b], _, _, h =>
    have ha := h a (by simp)
    have hb := h b (by simp)
    have hl : (([a, b].length : ℕ) : ℚ) = 2 := by norm_num
    obtain ⟨s1, e1, l1, u1⟩ := double_between hlo hhi (show lo ≤ 0 + a by linarith)
      (show 0 + a ≤ hi by linarith)
    obtain ⟨s2, e2, l2, u2⟩ := double_between (double_two_mul hlo blo) (double_two_mul hhi bhi)
      (show 2 * lo ≤ s1 + b by linarith) (show s1 + b ≤ 2 * hi by linarith)
    obtain ⟨q, e3, l3, u3⟩ := double_between hlo hhi
      (show lo ≤ s2 / (([a, b].length : ℕ) : ℚ) by rw [hl]; linarith)
      (show s2 / (([a, b].length : ℕ) : ℚ) ≤ hi by rw [hl]; linarith)
    refine ⟨q, ?_, l3, u3⟩
    simp only [meanDouble, sumDouble, dadd, e1, e2, Option.some_bind]
    exact ddiv_of_double (by rw [hl]; norm_num) e3
  | _ :: _ :: _ :: _, _, hlen, _ => simp at hlen

/-- The binary64 mean of three copies of a binary64 number `h` is `h` up to a relative
error of `2 ^ (-51)` (and `2 ^ (-1075)` in the subnormal range). -/
theorem mean_three_near {h : ℚ} (hh : fl h = h) :
    |fl (fl (3 * h) / 3) - h| ≤ |h| / 2 ^ (51 : ℕ) + 1 / 2 ^ (1075 : ℕ) := by
  have hneg : fl (-h) = -h := by rw [fl_neg, hh]
  have e1 := fl_sub_rel (fl_two_mul hh) hneg
  have h3 : 2 * h - -h = 3 * h := by ring
  rw [h3, abs_mul, abs_of_pos (by norm_num : (0 : ℚ) < 3)] at e1
  have e2 := fl_rel (fl (3 * h) / 3)
  have hH := abs_nonneg h
  have hle := le_abs_self h
  have hge := neg_abs_le h
  rw [abs_le] at e1
  have ht : |fl (3 * h) / 3| ≤ |h| + |h| / 2 ^ (53 : ℕ) := by
    rw [abs_le]
    constructor <;> linarith
  rw [abs_le] at e2 ⊢
  have hpos : (0 : ℚ) ≤ 1 / 2 ^ (1075 : ℕ) := by norm_num
  norm_num at e1 e2 ht ⊢
  constructor <;> linarith


theorem double_bound_three : double (3 * 2 ^ (1022 : ℕ)) = some (3 * 2 ^ (1022 : ℕ)) := by
  apply double_of_fl
  · exact fl_eq_self_pos _ 3 1022 (by norm_num) (by norm_num) (by norm_num) (by norm_num)
  · rw [abs_of_pos (by norm_num)]
    norm_num

theorem double_neg {x : ℚ} (h : double x = some x) : double (-x) = some (-x) := by
  apply double_of_fl
  · rw [fl_neg, fl_of_double h]
  · rw [abs_neg]
    exact abs_of_result h

theorem double_pow_1022 : double (2 ^ (1022 : ℕ)) = some (2 ^ (1022 : ℕ)) := by
  apply double_of_fl
  · exact fl_eq_self_pos _ 1 1022 (by norm_num) (by norm_num) (by norm_num) (by norm_num)
  · rw [abs_of_pos (by norm_num)]
    norm_num

/-- The rolling mean of a window of three values between the binary64 numbers `lo` and
`hi` lies between `lo` and `hi` up to a relative error of `2 ^ (-51)`. -/
theorem meanDouble_three (w : List ℚ) (hlen : w.length = 3) (lo hi : ℚ)
    (hlo : double lo = some lo) (hhi : double hi = some hi) (blo : |lo| < 2 ^ (1022 : ℕ))
    (bhi : |hi| < 2 ^ (1022 : ℕ)) (h : ∀ v ∈ w, lo ≤ v ∧ v ≤ hi) :
    ∃ q, meanDouble w = some q ∧
      lo - |lo| / 2 ^ (51 : ℕ) - 1 / 2 ^ (1075 : ℕ) ≤ q ∧
      q ≤ hi + |hi| / 2 ^ (51 : ℕ) + 1 / 2 ^ (1075 : ℕ) := by
  match w, hlen, h with
  | [a, b, c], _, h =>
    have ha := h a (by simp)
    have hb := h b (by simp)
    have hc := h c (by simp)
    have hl : (([a, b, c].length : ℕ) : ℚ) = 3 := by norm_num
    have h1023 : (2 : ℚ) ^ (1023 : ℕ) = 2 * 2 ^ (1022 : ℕ) := by norm_num
    have blo1 : |lo| < 2 ^ (1023 : ℕ) := by
      rw [h1023]
      have := abs_nonneg lo
      linarith
    have bhi1 : |hi| < 2 ^ (1023 : ℕ) := by
      rw [h1023]
      have := abs_nonneg hi
      linarith
    rw [abs_lt] at blo bhi
    obtain ⟨s1, e1, l1, u1⟩ := double_between hlo hhi (show lo ≤ 0 + a by linarith)
      (show 0 + a ≤ hi by linarith)
    obtain ⟨s2, e2, l2, u2⟩ := double_between (double_two_mul hlo blo1)
      (double_two_mul hhi bhi1) (show 2 * lo ≤ s1 + b by linarith)
      (show s1 + b ≤ 2 * hi by linarith)
    obtain ⟨s3, e3, l3, u3⟩ := double_between (double_neg double_bound_three)
      double_bound_three (show -(3 * 2 ^ (1022 : ℕ)) ≤ s2 + c by linarith)
      (show s2 + c ≤ 3 * 2 ^ (1022 : ℕ) by linarith)
    have hs3 : s3 = fl (s2 + c) := ((double_eq_some.1 e3).1).symm
    have m1 : fl (3 * lo) ≤ s3 := by
      rw [hs3]
      exact fl_mono (by linarith)
    have m2 : s3 ≤ fl (3 * hi) := by
      rw [hs3]
      exact fl_mono (by linarith)
    obtain ⟨q, e4, l4, u4⟩ := double_between (double_neg double_pow_1022) double_pow_1022
      (show -(2 ^ (1022 : ℕ)) ≤ s3 / (([a, b, c].length : ℕ) : ℚ) by
        rw [hl, le_div_iff₀ (by norm_num)]
        linarith)
      (show s3 / (([a, b, c].length : ℕ) : ℚ) ≤ 2 ^ (1022 : ℕ) by
        rw [hl, div_le_iff₀ (by norm_num)]
        linarith)
    have hq : q = fl (s3 / 3) := by
      rw [← (double_eq_some.1 e4).1, hl]
    have n1 : fl (fl (3 * lo) / 3) ≤ q := by
      rw [hq]
      exact fl_mono (div_le_div_of_nonneg_right m1 (by norm_num))
    have n2 : q ≤ fl (fl (3 * hi) / 3) := by
      rw [hq]
      exact fl_mono (div_le_div_of_nonneg_right m2 (by norm_num))
    have k1 := mean_three_near (fl_of_double hlo)
    have k2 := mean_three_near (fl_of_double hhi)
    rw [abs_le] at k1 k2
    refine ⟨q, ?_, by linarith, by linarith⟩
    simp only [meanDouble, sumDouble, dadd, e1, e2, e3, Option.some_bind]
    exact ddiv_of_double (by rw [hl]; norm_num) e4


/-- C25 fails as stated: for `predicted = 3` and `modelBase = 1` the two widths are
33.33333333333333 and 66.66666666666666, whose sum is `100 - 2 ^ (-46)` (in binary64
too: 99.99999999999999) although `predicted >= modelBase`; for 25.3 and 20.1 the sum
is above 100 (100.00000000000001 in binary64). -/
theorem widths_sum_not_hundred :
    breakdownWidths 3 1
      = some (2345624805922133 / 70368744177664, 2345624805922133 / 35184372088832) ∧
    (2345624805922133 / 70368744177664 + 2345624805922133 / 35184372088832 : ℚ)
      = 100 - 1 / 2 ^ (46 : ℕ) ∧
    dadd (2345624805922133 / 70368744177664) (2345624805922133 / 35184372088832)
      = some (100 - 1 / 2 ^ (46 : ℕ)) ∧
    double (253 / 10) = some (7121316910779597 / 281474976710656) ∧
    double (201 / 10) = some (2828823515942093 / 140737488355328) ∧
    breakdownWidths (7121316910779597 / 281474976710656) (2828823515942093 / 140737488355328)
      = some (5590560308185955 / 70368744177664, 5785256438321783 / 281474976710656) ∧
    (5590560308185955 / 70368744177664 + 5785256438321783 / 281474976710656 : ℚ)
      = 100 + 3 / 2 ^ (48 : ℕ) ∧
    dadd (5590560308185955 / 70368744177664) (5785256438321783 / 281474976710656)
      = some (100 + 1 / 2 ^ (46 : ℕ)) := by
  have a1 : double (3 - 1) = some (2) := by
    have h := double_eval_pos (3 - 1) (1 / 2251799813685248) (1) 4503599627370496
      (by norm_num) (by norm_num) (by norm_num) (by norm_num)
      (by norm_num) (by norm_num) (by norm_num)
    rw [h]
    norm_num
  have a2 : double (1 / 3) = some (6004799503160661 / 18014398509481984) := by
    have h := double_eval_pos (1 / 3) (1 / 18014398509481984) (-2) 6004799503160661
      (by norm_num) (by norm_num) (by norm_num) (by norm_num)
      (by norm_num) (by norm_num) (by norm_num)
    rw [h]
    norm_num
  have a3 :
      double (6004799503160661 / 18014398509481984 * 100)
        = some (2345624805922133 / 70368744177664) := by
    have h := double_eval_pos
      (6004799503160661 / 18014398509481984 * 100)
      (1 / 140737488355328) (5) 4691249611844266
      (by norm_num) (by norm_num) (by norm_num) (by norm_num)
      (by norm_num) (by norm_num) (by norm_num)
    rw [h]
    norm_num
  have a4 : double (2 / 3) = some (6004799503160661 / 9007199254740992) := by
    have h := double_eval_pos (2 / 3) (1 / 9007199254740992) (-1) 6004799503160661
      (by norm_num) (by norm_num) (by norm_num) (by norm_num)
      (by norm_num) (by norm_num) (by norm_num)
    rw [h]
    norm_num
  have a5 :
      double (6004799503160661 / 9007199254740992 * 100)
        = some (2345624805922133 / 35184372088832) := by
    have h := double_eval_pos
      (6004799503160661 / 9007199254740992 * 100)
      (1 / 70368744177664) (6) 4691249611844266
      (by norm_num) (by norm_num) (by norm_num) (by norm_num)
      (by norm_num) (by norm_num) (by norm_num)
    rw [h]
    norm_num
  have a6 :
      double (2345624805922133 / 70368744177664 + 2345624805922133 / 35184372088832)
        = some (7036874417766399 / 70368744177664) := by
    have h := double_eval_pos
      (2345624805922133 / 70368744177664 + 2345624805922133 / 35184372088832)
      (1 / 70368744177664) (6) 7036874417766399
      (by norm_num) (by norm_num) (by norm_num) (by norm_num)
      (by norm_num) (by norm_num) (by norm_num)
    rw [h]
    norm_num
  have b0 : double (253 / 10) = some (7121316910779597 / 281474976710656) := by
    have h := double_eval_pos (253 / 10) (1 / 281474976710656) (4) 7121316910779597
      (by norm_num) (by norm_num) (by norm_num) (by norm_num)
      (by norm_num) (by norm_num) (by norm_num)
    rw [h]
    norm_num
  have b00 : double (201 / 10) = some (2828823515942093 / 140737488355328) := by
    have h := double_eval_pos (201 / 10) (1 / 281474976710656) (4) 5657647031884186
      (by norm_num) (by norm_num) (by norm_num) (by norm_num)
      (by norm_num) (by norm_num) (by norm_num)
    rw [h]
    norm_num
  have b1 :
      double (7121316910779597 / 281474976710656 - 2828823515942093 / 140737488355328)
        = some (1463669878895411 / 281474976710656) := by
    have h := double_eval_pos
      (7121316910779597 / 281474976710656 - 2828823515942093 / 140737488355328)
      (1 / 1125899906842624) (2) 5854679515581644
      (by norm_num) (by norm_num) (by norm_num) (by norm_num)
      (by norm_num) (by norm_num) (by norm_num)
    rw [h]
    norm_num
  have b2 :
      double (2828823515942093 / 140737488355328 / (7121316910779597 / 281474976710656))
        = some (3577958597239011 / 4503599627370496) := by
    have h := double_eval_pos
      (2828823515942093 / 140737488355328 / (7121316910779597 / 281474976710656))
      (1 / 9007199254740992) (-1) 7155917194478022
      (by norm_num) (by norm_num) (by norm_num) (by norm_num)
      (by norm_num) (by norm_num) (by norm_num)
    rw [h]
    norm_num
  have b3 :
      double (3577958597239011 / 4503599627370496 * 100)
        = some (5590560308185955 / 70368744177664) := by
    have h := double_eval_pos
      (3577958597239011 / 4503599627370496 * 100)
      (1 / 70368744177664) (6) 5590560308185955
      (by norm_num) (by norm_num) (by norm_num) (by norm_num)
      (by norm_num) (by norm_num) (by norm_num)
    rw [h]
    norm_num
  have b4 :
      double (1463669878895411 / 281474976710656 / (7121316910779597 / 281474976710656))
        = some (3702564120525941 / 18014398509481984) := by
    have h := double_eval_pos
      (1463669878895411 / 281474976710656 / (7121316910779597 / 281474976710656))
      (1 / 36028797018963968) (-3) 7405128241051882
      (by norm_num) (by norm_num) (by norm_num) (by norm_num)
      (by norm_num) (by norm_num) (by norm_num)
    rw [h]
    norm_num
  have b5 :
      double (3702564120525941 / 18014398509481984 * 100)
        = some (5785256438321783 / 281474976710656) := by
    have h := double_eval_pos
      (3702564120525941 / 18014398509481984 * 100)
      (1 / 281474976710656) (4) 5785256438321783
      (by norm_num) (by norm_num) (by norm_num) (by norm_num)
      (by norm_num) (by norm_num) (by norm_num)
    rw [h]
    norm_num
  have b6 :
      double (5590560308185955 / 70368744177664 + 5785256438321783 / 281474976710656)
        = some (7036874417766401 / 70368744177664) := by
    have h := double_eval_pos
      (5590560308185955 / 70368744177664 + 5785256438321783 / 281474976710656)
      (1 / 70368744177664) (6) 7036874417766401
      (by norm_num) (by norm_num) (by norm_num) (by norm_num)
      (by norm_num) (by norm_num) (by norm_num)
    rw [h]
    norm_num
  have habs2 : |(2 : ℚ)| = 2 := abs_of_pos (by norm_num)
  have habs3 : |(1463669878895411 / 281474976710656 : ℚ)| = 1463669878895411 / 281474976710656 := abs_of_pos (by norm_num)
  have h3 : ¬ (3 : ℚ) = 0 := by norm_num
  have hP : ¬ (7121316910779597 / 281474976710656 : ℚ) = 0 := by norm_num
  refine ⟨?_, by norm_num, ?_, b0, b00, ?_, by norm_num, ?_⟩
  · simp only [breakdownWidths, barWidth, dsub, ddiv, dmul, a1, a2, a3, a4, a5,
      Option.some_bind, habs2, h3, if_false, Option.map_some']
  · rw [dadd, a6]
    norm_num
  · simp only [breakdownWidths, barWidth, dsub, ddiv, dmul, b1, b2, b3, b4, b5,
      Option.some_bind, habs3, hP, if_false, Option.map_some']
  · rw [dadd, b6]
    norm_num

/-- The binary64 mean of three times 0.7 is below 0.7, and the mean of three times 0.1
is above 0.1. -/
theorem mean_leaves_window_bounds :
    double (7 / 10) = some (3152519739159347 / 4503599627370496) ∧
    meanDouble
        [3152519739159347 / 4503599627370496,
         3152519739159347 / 4503599627370496,
         3152519739159347 / 4503599627370496]
      = some (6305039478318693 / 9007199254740992) ∧
    (6305039478318693 / 9007199254740992 : ℚ) < 3152519739159347 / 4503599627370496 ∧
    double (1 / 10) = some (3602879701896397 / 36028797018963968) ∧
    meanDouble
        [3602879701896397 / 36028797018963968,
         3602879701896397 / 36028797018963968,
         3602879701896397 / 36028797018963968]
      = some (7205759403792795 / 72057594037927936) ∧
    (3602879701896397 / 36028797018963968 : ℚ) < 7205759403792795 / 72057594037927936 := by
  have c0 : double (7 / 10) = some (3152519739159347 / 4503599627370496) := by
    have h := double_eval_pos (7 / 10) (1 / 9007199254740992) (-1) 6305039478318694
      (by norm_num) (by norm_num) (by norm_num) (by norm_num)
      (by norm_num) (by norm_num) (by norm_num)
    rw [h]
    norm_num
  have c1 :
      double (0 + 3152519739159347 / 4503599627370496)
        = some (3152519739159347 / 4503599627370496) := by
    have h := double_eval_pos
      (0 + 3152519739159347 / 4503599627370496)
      (1 / 9007199254740992) (-1) 6305039478318694
      (by norm_num) (by norm_num) (by norm_num) (by norm_num)
      (by norm_num) (by norm_num) (by norm_num)
    rw [h]
    norm_num
  have c2 :
      double (3152519739159347 / 4503599627370496 + 3152519739159347 / 4503599627370496)
        = some (3152519739159347 / 2251799813685248) := by
    have h := double_eval_pos
      (3152519739159347 / 4503599627370496 + 3152519739159347 / 4503599627370496)
      (1 / 4503599627370496) (0) 6305039478318694
      (by norm_num) (by norm_num) (by norm_num) (by norm_num)
      (by norm_num) (by norm_num) (by norm_num)
    rw [h]
    norm_num
  have c3 :
      double (3152519739159347 / 2251799813685248 + 3152519739159347 / 4503599627370496)
        = some (1182194902184755 / 562949953421312) := by
    have h := double_tie_pos
      (3152519739159347 / 2251799813685248 + 3152519739159347 / 4503599627370496)
      (1 / 2251799813685248) (1) 4728779608739020
      (by norm_num) (by norm_num) (by norm_num) (by norm_num)
      (by norm_num) (by norm_num) (by norm_num)
    rw [h]
    norm_num
  have c4 :
      double (1182194902184755 / 562949953421312 / 3)
        = some (6305039478318693 / 9007199254740992) := by
    have h := double_eval_pos
      (1182194902184755 / 562949953421312 / 3)
      (1 / 9007199254740992) (-1) 6305039478318693
      (by norm_num) (by norm_num) (by norm_num) (by norm_num)
      (by norm_num) (by norm_num) (by norm_num)
    rw [h]
    norm_num
  have d0 : double (1 / 10) = some (3602879701896397 / 36028797018963968) := by
    have h := double_eval_pos (1 / 10) (1 / 72057594037927936) (-4) 7205759403792794
      (by norm_num) (by norm_num) (by norm_num) (by norm_num)
      (by norm_num) (by norm_num) (by norm_num)
    rw [h]
    norm_num
  have d1 :
      double (0 + 3602879701896397 / 36028797018963968)
        = some (3602879701896397 / 36028797018963968) := by
    have h := double_eval_pos
      (0 + 3602879701896397 / 36028797018963968)
      (1 / 72057594037927936) (-4) 7205759403792794
      (by norm_num) (by norm_num) (by norm_num) (by norm_num)
      (by norm_num) (by norm_num) (by norm_num)
    rw [h]
    norm_num
  have d2 :
      double (3602879701896397 / 36028797018963968 + 3602879701896397 / 36028797018963968)
        = some (3602879701896397 / 18014398509481984) := by
    have h := double_eval_pos
      (3602879701896397 / 36028797018963968 + 3602879701896397 / 36028797018963968)
      (1 / 36028797018963968) (-3) 7205759403792794
      (by norm_num) (by norm_num) (by norm_num) (by norm_num)
      (by norm_num) (by norm_num) (by norm_num)
    rw [h]
    norm_num
  have d3 :
      double (3602879701896397 / 18014398509481984 + 3602879701896397 / 36028797018963968)
        = some (1351079888211149 / 4503599627370496) := by
    have h := double_tie_pos
      (3602879701896397 / 18014398509481984 + 3602879701896397 / 36028797018963968)
      (1 / 18014398509481984) (-2) 5404319552844596
      (by norm_num) (by norm_num) (by norm_num) (by norm_num)
      (by norm_num) (by norm_num) (by norm_num)
    rw [h]
    norm_num
  have d4 :
      double (1351079888211149 / 4503599627370496 / 3)
        = some (7205759403792795 / 72057594037927936) := by
    have h := double_eval_pos
      (1351079888211149 / 4503599627370496 / 3)
      (1 / 72057594037927936) (-4) 7205759403792795
      (by norm_num) (by norm_num) (by norm_num) (by norm_num)
      (by norm_num) (by norm_num) (by norm_num)
    rw [h]
    norm_num
  have hl7 :
      ((([3152519739159347 / 4503599627370496, 3152519739159347 / 4503599627370496, 3152519739159347 / 4503599627370496] : List ℚ).length : ℕ) : ℚ)
        = 3 := by
    norm_num
  have hl1 :
      ((([3602879701896397 / 36028797018963968, 3602879701896397 / 36028797018963968, 3602879701896397 / 36028797018963968] : List ℚ).length : ℕ) : ℚ)
        = 3 := by
    norm_num
  refine ⟨c0, ?_, by norm_num, d0, ?_, by norm_num⟩
  · simp only [meanDouble, sumDouble, dadd, c1, c2, c3, Option.some_bind]
    exact ddiv_of_double (by rw [hl7]; norm_num) (by rw [hl7]; exact c4)
  · simp only [meanDouble, sumDouble, dadd, d1, d2, d3, Option.some_bind]
    exact ddiv_of_double (by rw [hl1]; norm_num) (by rw [hl1]; exact d4)

/-! ## The rolling value of the chart in binary64 arithmetic -/

theorem windowValues_length_le (fgs : List JSVal) (i : Nat) :
    (windowValues fgs i).length ≤ 3 := by
  unfold windowValues
  refine le_trans (List.length_filterMap_le _ _) ?_
  rw [List.Ico.length]
  omega

theorem rollingAvgDouble_eq (fgs : List JSVal) (h : ∀ v ∈ fgs, v.isNumOrNull = true) (i : Nat)
    (hi : i < fgs.length) :
    rollingAvgDouble fgs i
      = if windowValues fgs i = [] then some null
        else (meanDouble (windowValues fgs i)).map num := by
  have hw : ((slice fgs (max 0 (i - 2)) (i + 1)).filter fun x => !x.isNullish)
      = (windowValues fgs i).map num := by
    rw [filter_nonnull_eq]
    · rw [slice_eq_map_Ico fgs _ _ null (by omega), List.filterMap_map]
      simp [windowValues, Function.comp_def]
    · intro v hv
      unfold slice at hv
      exact h v (List.mem_of_mem_take (List.mem_of_mem_drop hv))
  have hall : allSome (((windowValues fgs i).map num).map asNum?)
      = some (windowValues fgs i) := by
    have := allSome_map_some ((windowValues fgs i).map num) asNum?
      (fun v => (v.asNum?).getD 0)
      (by
        intro v hv
        obtain ⟨q, _, rfl⟩ := List.mem_map.1 hv
        rfl)
    rw [this, List.map_map]
    congr 1
    exact List.map_id'' (fun q => rfl) _
  unfold rollingAvgDouble
  simp only [hw, List.length_map, hall, Option.some_bind]
  by_cases he : windowValues fgs i = []
  · simp [he]
  · have hl : (windowValues fgs i).length ≠ 0 := fun h0 => he (List.length_eq_zero.1 h0)
    simp [he, hl]

theorem meanDouble_window (w : List ℚ) (hne : w ≠ []) (hlen : w.length ≤ 3) (lo hi : ℚ)
    (hlo : double lo = some lo) (hhi : double hi = some hi) (blo : |lo| < 2 ^ (1022 : ℕ))
    (bhi : |hi| < 2 ^ (1022 : ℕ)) (h : ∀ v ∈ w, lo ≤ v ∧ v ≤ hi) :
    ∃ q, meanDouble w = some q ∧ (w.length ≤ 2 → lo ≤ q ∧ q ≤ hi) ∧
      lo - |lo| / 2 ^ (51 : ℕ) - 1 / 2 ^ (1075 : ℕ) ≤ q ∧
      q ≤ hi + |hi| / 2 ^ (51 : ℕ) + 1 / 2 ^ (1075 : ℕ) := by
  by_cases h2 : w.length ≤ 2
  · have h1023 : (2 : ℚ) ^ (1023 : ℕ) = 2 * 2 ^ (1022 : ℕ) := by norm_num
    have blo1 : |lo| < 2 ^ (1023 : ℕ) := by
      rw [h1023]
      have := abs_nonneg lo
      linarith
    have bhi1 : |hi| < 2 ^ (1023 : ℕ) := by
      rw [h1023]
      have := abs_nonneg hi
      linarith
    obtain ⟨q, hq, l1, u1⟩ := meanDouble_short w hne h2 lo hi hlo hhi blo1 bhi1 h
    have p1 : 0 ≤ |lo| / 2 ^ (51 : ℕ) := div_nonneg (abs_nonneg _) (by norm_num)
    have p2 : 0 ≤ |hi| / 2 ^ (51 : ℕ) := div_nonneg (abs_nonneg _) (by norm_num)
    have p3 : (0 : ℚ) ≤ 1 / 2 ^ (1075 : ℕ) := by norm_num
    exact ⟨q, hq, fun _ => ⟨l1, u1⟩, by linarith, by linarith⟩
  · obtain ⟨q, hq, l1, u1⟩ := meanDouble_three w (by omega) lo hi hlo hhi blo bhi h
    exact ⟨q, hq, fun h3 => absurd h3 h2, l1, u1⟩

/-- C26 fails as stated: for three games whose `fg_pct` is 0.7 the rolling value at
index 2 is 0.6999999999999998, below the minimum of its window; for three games whose
`fg_pct` is 0.1 it is 0.10000000000000002, above the maximum. -/
theorem rolling_leaves_window_bounds :
    double (7 / 10) = some (3152519739159347 / 4503599627370496) ∧
    rollingAvgDouble (chart3Vals
      [{ date := str "2024-01-01", pts := num 10, min := num 30,
         fg_pct := num (3152519739159347 / 4503599627370496) },
       { date := str "2024-01-03", pts := num 12, min := num 31,
         fg_pct := num (3152519739159347 / 4503599627370496) },
       { date := str "2024-01-05", pts := num 14, min := num 32,
         fg_pct := num (3152519739159347 / 4503599627370496) }]) 2
      = some (num (6305039478318693 / 9007199254740992)) ∧
    (6305039478318693 / 9007199254740992 : ℚ) < 3152519739159347 / 4503599627370496 ∧
    double (1 / 10) = some (3602879701896397 / 36028797018963968) ∧
    rollingAvgDouble (chart3Vals
      [{ date := str "2024-01-01", pts := num 10, min := num 30,
         fg_pct := num (3602879701896397 / 36028797018963968) },
       { date := str "2024-01-03", pts := num 12, min := num 31,
         fg_pct := num (3602879701896397 / 36028797018963968) },
       { date := str "2024-01-05", pts := num 14, min := num 32,
         fg_pct := num (3602879701896397 / 36028797018963968) }]) 2
      = some (num (7205759403792795 / 72057594037927936)) ∧
    (3602879701896397 / 36028797018963968 : ℚ) < 7205759403792795 / 72057594037927936 := by
  obtain ⟨h1, h2, h3, h4, h5, h6⟩ := mean_leaves_window_bounds
  refine ⟨h1, ?_, h3, h4, ?_, h6⟩
  · rw [rollingAvgDouble_eq _ (by simp [chart3Vals, isNullish, isNumOrNull]) 2
      (by simp [chart3Vals])]
    simp [chart3Vals, isNullish, windowValues, List.Ico, List.range', asNum?, h2]
  · rw [rollingAvgDouble_eq _ (by simp [chart3Vals, isNullish, isNumOrNull]) 2
      (by simp [chart3Vals])]
    simp [chart3Vals, isNullish, windowValues, List.Ico, List.range', asNum?, h5]

/-- C26 amended: for games whose `fg_pct` are numbers or null and an index `i` whose
window `max(0, i-2) .. i` holds at least one non-null `fg_pct`, the rolling value at
`i`, computed in binary64 arithmetic, is a number in `[0, 1]` whenever the values of
the window are; for window values that are finite binary64 numbers of magnitude below
`2 ^ 1022` it lies between the least and the greatest of them when the window holds one
or two values, and in every case between `min - |min| * 2 ^ (-51) - 2 ^ (-1075)` and
`max + |max| * 2 ^ (-51) + 2 ^ (-1075)`; the same holds for any binary64 bounds
`lo`, `hi` of the window in place of the least and greatest value. -/
theorem rolling_within_bounds (games : List GameRecord)
    (hnum : ∀ g ∈ games, g.fg_pct.isNumOrNull = true) (i : Nat) (hi : i < games.length)
    (hw : windowValues (games.map fun g => g.fg_pct) i ≠ []) :
    ((∀ v ∈ windowValues (games.map fun g => g.fg_pct) i, 0 ≤ v ∧ v ≤ 1) →
      ∃ q, rollingAvgDouble (chart3Vals games) i = some (num q) ∧ 0 ≤ q ∧ q ≤ 1) ∧
    (∀ lo hi : ℚ, double lo = some lo → double hi = some hi → |lo| < 2 ^ (1022 : ℕ) →
      |hi| < 2 ^ (1022 : ℕ) →
      (∀ v ∈ windowValues (games.map fun g => g.fg_pct) i, lo ≤ v ∧ v ≤ hi) →
      ∃ q, rollingAvgDouble (chart3Vals games) i = some (num q) ∧
        ((windowValues (games.map fun g => g.fg_pct) i).length ≤ 2 → lo ≤ q ∧ q ≤ hi) ∧
        lo - |lo| / 2 ^ (51 : ℕ) - 1 / 2 ^ (1075 : ℕ) ≤ q ∧
        q ≤ hi + |hi| / 2 ^ (51 : ℕ) + 1 / 2 ^ (1075 : ℕ)) ∧
    ((∀ v ∈ windowValues (games.map fun g => g.fg_pct) i,
        double v = some v ∧ |v| < 2 ^ (1022 : ℕ)) →
      ∃ q a b, rollingAvgDouble (chart3Vals games) i = some (num q) ∧
        a ∈ windowValues (games.map fun g => g.fg_pct) i ∧
        b ∈ windowValues (games.map fun g => g.fg_pct) i ∧
        (∀ v ∈ windowValues (games.map fun g => g.fg_pct) i, a ≤ v ∧ v ≤ b) ∧
        ((windowValues (games.map fun g => g.fg_pct) i).length ≤ 2 → a ≤ q ∧ q ≤ b) ∧
        a - |a| / 2 ^ (51 : ℕ) - 1 / 2 ^ (1075 : ℕ) ≤ q ∧
        q ≤ b + |b| / 2 ^ (51 : ℕ) + 1 / 2 ^ (1075 : ℕ)) := by
  have hvals : chart3Vals games = games.map fun g => g.fg_pct := chart3Vals_eq_map games hnum
  have hnum2 : ∀ v ∈ games.map (fun g => g.fg_pct), v.isNumOrNull = true := by
    intro v hv
    obtain ⟨g, hg, rfl⟩ := List.mem_map.1 hv
    exact hnum g hg
  have heq := rollingAvgDouble_eq (games.map fun g => g.fg_pct) hnum2 i (by simpa using hi)
  rw [if_neg hw] at heq
  rw [hvals, heq]
  have hlen := windowValues_length_le (games.map fun g => g.fg_pct) i
  have hgen : ∀ lo hi : ℚ, double lo = some lo → double hi = some hi →
      |lo| < 2 ^ (1022 : ℕ) → |hi| < 2 ^ (1022 : ℕ) →
      (∀ v ∈ windowValues (games.map fun g => g.fg_pct) i, lo ≤ v ∧ v ≤ hi) →
      ∃ q, (meanDouble (windowValues (games.map fun g => g.fg_pct) i)).map num
          = some (num q) ∧
        ((windowValues (games.map fun g => g.fg_pct) i).length ≤ 2 → lo ≤ q ∧ q ≤ hi) ∧
        lo - |lo| / 2 ^ (51 : ℕ) - 1 / 2 ^ (1075 : ℕ) ≤ q ∧
        q ≤ hi + |hi| / 2 ^ (51 : ℕ) + 1 / 2 ^ (1075 : ℕ) := by
    intro lo hi2 hlo hhi blo bhi hall
    obtain ⟨q, hq, h1, h2, h3⟩ := meanDouble_window _ hw hlen lo hi2 hlo hhi blo bhi hall
    exact ⟨q, by rw [hq]; rfl, h1, h2, h3⟩
  refine ⟨?_, hgen, ?_⟩
  · intro hall
    obtain ⟨q, hq, h1, h2⟩ := meanDouble_unit _ hw hlen hall
    exact ⟨q, by rw [hq]; rfl, h1, h2⟩
  · intro hall
    obtain ⟨a, ha, hmin⟩ := exists_least _ hw
    obtain ⟨b, hb, hmax⟩ := exists_greatest _ hw
    obtain ⟨q, hq, h1, h2, h3⟩ := hgen a b (hall a ha).1 (hall b hb).1 (hall a ha).2
      (hall b hb).2 (fun v hv => ⟨hmin v hv, hmax v hv⟩)
    exact ⟨q, a, b, hq, ha, hb, fun v hv => ⟨hmin v hv, hmax v hv⟩, h1, h2, h3⟩

/-- Witness for C26 amended: index 2 of the sample games, whose window holds 1/2 and
1/4, has a rolling value in `[0, 1]`. -/
theorem rolling_within_bounds_witness :
    ∃ q, rollingAvgDouble (chart3Vals sampleGames) 2 = some (num q) ∧ 0 ≤ q ∧ q ≤ 1 :=
  (rolling_within_bounds sampleGames sampleGames_fg 2 (by simp [sampleGames])
    (by simp [windowValues, sampleGames, List.Ico, List.range', asNum?])).1
    (by
      intro v hv
      simp [windowValues, sampleGames, List.Ico, List.range', asNum?] at hv
      rcases hv with rfl | rfl <;> norm_num)

/-! ## Instances of the tween and of the bar widths -/

/-- Witness for C22 amended: a tween from 10 to 30, sampled 350 ms after its start, has
a value between 10 and 30 and asks for another frame. -/
theorem step_interpolates_witness :
    ∃ fr, step 10 30 1000 1350 = some fr ∧ 10 ≤ fr.value ∧ fr.value ≤ 30 ∧
      fr.again = true := by
  have d10 : double 10 = some 10 := by simpa using double_natCast 10 (by norm_num)
  have d350 : dsub 1350 1000 = some 350 := by
    have h := double_natCast 350 (by norm_num)
    unfold dsub
    norm_num at h ⊢
    exact h
  have d20 : dsub 30 10 = some 20 := by
    have h := double_natCast 20 (by norm_num)
    unfold dsub
    norm_num at h ⊢
    exact h
  have d30 : dadd 10 20 = some 30 := by
    have h := double_natCast 30 (by norm_num)
    unfold dadd
    norm_num at h ⊢
    exact h
  obtain ⟨q, p, fr, _, _, _, h4, h5, h6, _, h8, _⟩ :=
    step_interpolates 10 30 1000 1350 350 20 30 d10 d350 (by norm_num) d20 d30
  refine ⟨fr, h4, ?_, ?_, h8.2 (by norm_num)⟩
  · have : min (10 : ℚ) 30 = 10 := by norm_num
    rw [this] at h5
    exact h5
  · have : max (10 : ℚ) 30 = 30 := by norm_num
    rw [this] at h6
    exact h6

/-- Witness for C25 amended: a prediction of 25 over a model base of 20 has two widths
in `[0, 100]` whose sum is 100 within `2 ^ (-44)`. -/
theorem StatBreakdown_widths_sum_witness :
    ∃ w1 w2, breakdownWidths 25 20 = some (w1, w2) ∧
      0 ≤ w1 ∧ w1 ≤ 100 ∧ 0 ≤ w2 ∧ w2 ≤ 100 ∧ |w1 + w2 - 100| ≤ 1 / 2 ^ (44 : ℕ) :=
  (StatBreakdown_widths_sum 25 20 (by simpa using double_natCast 25 (by norm_num))
    (by simpa using double_natCast 20 (by norm_num)) (by norm_num) (by norm_num)).1
    (by norm_num)

end NBA
